import Mathlib

/-!
# gravity-toy-js: the `SortedArray` container and the physical simulation

A shallow embedding of `src/modules/simulation/util/sorted-array.js` and of
`src/simulation/simulation-physical.ts`.

Conventions of the embedding:

* a JavaScript array is a `List`; an index read outside the array gives
  `undefined`, which is `none` of `List.get?`;
* a method that mutates `this` returns the new value of `this` next to its
  result; a method that can throw returns an `Except` as its result;
* the operators `<` and `>` on elements are the class `JsLess`, the operator
  `===` on elements is the class `JsStrictEq`; a value that is searched for,
  inserted or removed is of the element type, so it is never `undefined`;
* numbers are exact: an array of numbers holds `JsNumber`s, each an integer or
  `NaN`, on which `<`, `>` and `===` are false as soon as one side is `NaN`;
  the sample arrays whose elements are all integers hold `Int`s; indices are
  `Nat`, results and comparator values `Int`, physical quantities `Rat`;
* `(min + max) >> 1` is `(min + max) / 2`, since
  the 32-bit conversion of `>>` is the identity below `2 ^ 31` and the arrays
  that a `List` stands for, which have no holes, stay far shorter than that;
* a division by 0 is 0 in `Rat`, where JavaScript gives `Infinity` or `NaN`; in
  the force pass it occurs only for two bodies at one place, and a statement
  about the choice of the highest attraction leaves such bodies out.
-/

namespace GravityToy

/-! ## Elements and the host array operations -/

deriving instance DecidableEq for Except

/-- The JavaScript relational operator `a < b` on the element type; `a > b` is
`lt b a`. -/
class JsLess (α : Type) where
  lt : α → α → Bool

/-- The JavaScript strict equality `a === b` on the element type. -/
class JsStrictEq (α : Type) where
  eq : α → α → Bool

/-- The operator `<` on numbers that are integers. -/
instance instJsLessInt : JsLess Int := ⟨fun a b => decide (a < b)⟩

/-- The operator `===` on numbers that are integers. -/
instance instJsStrictEqInt : JsStrictEq Int := ⟨fun a b => decide (a = b)⟩

/-- A JavaScript number: an integer, or the value `NaN`. An integer stands for
any number other than `NaN`: the search applies only `<`, `>` and `===` to the
elements, and these order all such numbers. -/
inductive JsNumber where
  | num (n : Int)
  | nan
  deriving DecidableEq, Repr

/-- The operator `<` on numbers: false when either side is `NaN`. -/
instance instJsLessJsNumber : JsLess JsNumber :=
  ⟨fun a b =>
    match a, b with
    | JsNumber.num x, JsNumber.num y => decide (x < y)
    | _, _ => false⟩

/-- The operator `===` on numbers: false when either side is `NaN`, also for
`NaN === NaN`. -/
instance instJsStrictEqJsNumber : JsStrictEq JsNumber :=
  ⟨fun a b =>
    match a, b with
    | JsNumber.num x, JsNumber.num y => decide (x = y)
    | _, _ => false⟩

/-- Host operation `Array.prototype.splice(start, deleteCount, ...items)`: the
new contents of the array. A negative `start` counts from the end, and both
arguments are clamped to the array. -/
def arraySplice {α : Type} (arr : List α) (start : Int) (deleteCount : Int)
    (toInsert : List α) : List α :=
  let len : Int := arr.length
  let actualStart : Int := if start < 0 then max (len + start) 0 else min start len
  let actualDelete : Int := min (max deleteCount 0) (len - actualStart)
  arr.take actualStart.toNat ++ toInsert ++ arr.drop (actualStart.toNat + actualDelete.toNat)

/-- Host operation `Array.prototype.slice(start, end)`: an absent argument is
`none`, a negative one counts from the end. -/
def arraySlice {α : Type} (arr : List α) (start : Option Int) (stop : Option Int) : List α :=
  let len : Int := arr.length
  let relStart : Int := start.getD 0
  let k : Int := if relStart < 0 then max (len + relStart) 0 else min relStart len
  let relEnd : Int := stop.getD len
  let final : Int := if relEnd < 0 then max (len + relEnd) 0 else min relEnd len
  (arr.drop k.toNat).take (final - k).toNat

/-- Host operation `Array.prototype.filter(callback)`; the callback receives the
element and its index. -/
def arrayFilter {α : Type} (arr : List α) (callback : α → Nat → Bool) : List α :=
  (arr.enum.filter (fun p => callback p.2 p.1)).map Prod.snd

/-- Host operation `Array.prototype.map(callback)`; the callback receives the
element and its index. -/
def arrayMap {α : Type} (arr : List α) (callback : α → Nat → α) : List α :=
  arr.enum.map (fun p => callback p.2 p.1)

/-- Host operation `Array.prototype.copyWithin(target, start, end)`. -/
def arrayCopyWithin {α : Type} (arr : List α) (target : Int) (start : Int)
    (stop : Option Int) : List α :=
  let len : Int := arr.length
  let dst : Int := if target < 0 then max (len + target) 0 else min target len
  let src : Int := if start < 0 then max (len + start) 0 else min start len
  let relEnd : Int := stop.getD len
  let final : Int := if relEnd < 0 then max (len + relEnd) 0 else min relEnd len
  let count : Nat := (min (final - src) (len - dst)).toNat
  let chunk := (arr.drop src.toNat).take count
  arr.take dst.toNat ++ chunk ++ arr.drop (dst.toNat + count)

/-- Host operation `Array.prototype.fill(value, start, end)`: an absent argument
is `none`, a negative one counts from the end. -/
def arrayFill {α : Type} (arr : List α) (value : α) (start stop : Option Int) : List α :=
  let len : Int := arr.length
  let relStart : Int := start.getD 0
  let k : Int := if relStart < 0 then max (len + relStart) 0 else min relStart len
  let relEnd : Int := stop.getD len
  let final : Int := if relEnd < 0 then max (len + relEnd) 0 else min relEnd len
  arr.take k.toNat ++ List.replicate (final - k).toNat value
    ++ arr.drop (k.toNat + (final - k).toNat)

/-! ## sorted-array.js -/

/-- The function `ascending (a, b)`: `a > b ? 1 : a < b ? -1 : 0`. -/
def ascending {α : Type} [JsLess α] (a b : α) : Int :=
  if JsLess.lt b a then 1 else if JsLess.lt a b then -1 else 0

/-- The error class `UnsafeSortError`, with the method name given to its
constructor. -/
structure UnsafeSortError where
  methodName : String
  deriving DecidableEq, Repr

/-- The class `SortedArray`: the array contents, the slot `[COMPARER]` and the
slot `[UNSAFE]`. -/
structure SortedArray (α : Type) where
  items : List α
  comparer : α → α → Int
  UNSAFE : Bool

/-- The `while (min < max)` loop of `binarySearch`. The first argument bounds
the number of iterations; `max - min` shrinks in each, so `max - min` iterations
are enough and the loop condition is false when none are left. -/
def binarySearchLoop {α : Type} [JsStrictEq α] [JsLess α] (arr : List α) (value : α)
    (descending strict : Bool) : Nat → Nat → Nat → Int
  | 0, min, _ => if strict then -1 else min
  | fuel + 1, min, max =>
    if min < max then
      let mid := (min + max) / 2
      match arr.get? mid with
      | some _value =>
        if JsStrictEq.eq _value value then mid
        else if (if descending then JsLess.lt value _value else JsLess.lt _value value) then
          binarySearchLoop arr value descending strict fuel (mid + 1) max
        else
          binarySearchLoop arr value descending strict fuel min mid
      | none => binarySearchLoop arr value descending strict fuel min mid
    else if strict then -1 else min

/-- The function `binarySearch (arr, value, strict)`; `strict = true` stands for
the symbol `STRICT`. -/
def binarySearch {α : Type} [JsStrictEq α] [JsLess α] (arr : SortedArray α) (value : α)
    (strict : Bool) : Except UnsafeSortError Int :=
  if arr.UNSAFE then
    Except.error (UnsafeSortError.mk "lastIndexOf")
  else
    let min := 0
    let max := arr.items.length
    -- in case the array is descending
    let descending : Bool :=
      match arr.items.get? min, arr.items.get? (max - 1) with
      | some first, some last => JsLess.lt last first
      | _, _ => false
    Except.ok (binarySearchLoop arr.items value descending strict (max - min) min max)

namespace SortedArray

variable {α : Type}

/-- The inner loop of `sort`:
`for (var ii = i - 1; ii >= 0 && this.comparer(this[ii], item) > 0; ii--) this[ii + 1] = this[ii]`
followed by `this[ii + 1] = item`. The numeric argument is `ii + 1`. -/
def sortInner (comparer : α → α → Int) (item : α) : Nat → List α → List α
  | 0, arr => arr.set 0 item
  | ii + 1, arr =>
    match arr.get? ii with
    | some x =>
      if comparer x item > 0 then sortInner comparer item ii (arr.set (ii + 1) x)
      else arr.set (ii + 1) item
    | none => arr.set (ii + 1) item

/-- One round of the outer loop of `sort`, for the index `i`. -/
def sortStep (comparer : α → α → Int) (arr : List α) (i : Nat) : List α :=
  match arr.get? i with
  | some item => sortInner comparer item i arr
  | none => arr

/-- The loop `for (let i = 1; i < length; i++)` of `sort`. -/
def insertionSort (comparer : α → α → Int) (arr : List α) : List α :=
  (List.range' 1 (arr.length - 1)).foldl (sortStep comparer) arr

/-- The setter `set comparer (compareFunc)`; `none` is a value that is not a
function. -/
def setComparer [JsLess α] (self : SortedArray α) (compareFunc : Option (α → α → Int)) :
    SortedArray α :=
  { self with comparer := compareFunc.getD ascending }

/-- The method `sort (compare = this.comparer)`; `none` is the absent
argument. -/
def sort (self : SortedArray α) (compare : Option (α → α → Int)) : SortedArray α :=
  let comparer := compare.getD self.comparer
  { items := insertionSort comparer self.items, comparer := comparer, UNSAFE := false }

/-- The method `push (...args)`. -/
def push (self : SortedArray α) (args : List α) : SortedArray α :=
  { self with UNSAFE := true, items := self.items ++ args }

/-- The method `unshift (...args)`. -/
def unshift (self : SortedArray α) (args : List α) : SortedArray α :=
  { self with UNSAFE := true, items := args ++ self.items }

/-- The method `splice (...args)`. -/
def splice (self : SortedArray α) (start : Int) (deleteCount : Int) (toInsert : List α) :
    SortedArray α :=
  { self with UNSAFE := true, items := arraySplice self.items start deleteCount toInsert }

/-- The method `copyWithin (...args)`. -/
def copyWithin (self : SortedArray α) (target start : Int) (stop : Option Int) :
    SortedArray α :=
  { self with UNSAFE := true, items := arrayCopyWithin self.items target start stop }

/-- The method `reverse (...args)`. -/
def reverse (self : SortedArray α) : SortedArray α :=
  { self with UNSAFE := true, items := self.items.reverse }

/-- The constructor with no arguments: an empty array, the default comparer
`ascending`, then `this.sort()`. -/
def empty [JsLess α] : SortedArray α :=
  sort { items := [], comparer := ascending, UNSAFE := false } none

end SortedArray

/-- The function `copySortedArray (sortedArray, toPush)`. -/
def copySortedArray {α : Type} [JsLess α] (sortedArray : SortedArray α) (toPush : List α) :
    SortedArray α :=
  let copy : SortedArray α := SortedArray.empty
  let copy := copy.setComparer (some sortedArray.comparer)
  let copy := copy.push toPush
  { copy with UNSAFE := sortedArray.UNSAFE }

namespace SortedArray

variable {α : Type}

/-- The method `filter (...args)`: the new array and `this`. -/
def filter [JsLess α] (self : SortedArray α) (callback : α → Nat → Bool) :
    SortedArray α × SortedArray α :=
  let filtered := arrayFilter self.items callback
  (copySortedArray self filtered, self)

/-- The method `map (...args)`: the new array and `this`. -/
def map [JsLess α] (self : SortedArray α) (callback : α → Nat → α) :
    SortedArray α × SortedArray α :=
  let mapped := arrayMap self.items callback
  let mappedAsSortedArray := copySortedArray self mapped
  ({ mappedAsSortedArray with UNSAFE := true }, self)

/-- The method `slice (...args)`: the new array and `this`. -/
def slice [JsLess α] (self : SortedArray α) (start stop : Option Int) :
    SortedArray α × SortedArray α :=
  let sliced := arraySlice self.items start stop
  (copySortedArray self sliced, self)

/-- The method `concat (arr)`, on an array argument: the new array and `this`. -/
def concat [JsLess α] (self : SortedArray α) (arr : List α) :
    SortedArray α × SortedArray α :=
  let concated := self.items ++ arr
  let concatedAsSortedArray := copySortedArray self concated
  ({ concatedAsSortedArray with UNSAFE := true }, self)

/-- The method `lastIndexOf (value)`: the result and `this`. -/
def lastIndexOf [JsStrictEq α] [JsLess α] (self : SortedArray α) (value : α) :
    Except UnsafeSortError Int × SortedArray α :=
  (binarySearch self value true, self)

/-- The loop `while (this[index - 1] === value) index--` of `indexOf`, from a
non-negative `index`, for a `value` of the element type: the read `this[-1]`
gives `undefined`, which is not strictly equal to such a value. -/
def stepLeft [JsStrictEq α] (arr : List α) (value : α) : Nat → Nat
  | 0 => 0
  | index + 1 =>
    match arr.get? index with
    | some previous =>
      if JsStrictEq.eq previous value then stepLeft arr value index else index + 1
    | none => index + 1

/-- The method `indexOf (value)`, for a `value` of the element type: the result
and `this`. A negative `index` reads `this[index - 1]` below the array, which
gives `undefined`, so the loop does not run. -/
def indexOf [JsStrictEq α] [JsLess α] (self : SortedArray α) (value : α) :
    Except UnsafeSortError Int × SortedArray α :=
  match self.lastIndexOf value with
  | (Except.error e, self) => (Except.error e, self)
  | (Except.ok index, self) =>
    if index < 0 then (Except.ok index, self)
    else (Except.ok (stepLeft self.items value index.toNat : Nat), self)

/-- The method `insert (value)`: the result and `this`. -/
def insert [JsStrictEq α] [JsLess α] (self : SortedArray α) (value : α) :
    Except UnsafeSortError Int × SortedArray α :=
  match binarySearch self value false with
  | Except.error e => (Except.error e, self)
  | Except.ok index =>
    (Except.ok index, { self with items := arraySplice self.items index 0 [value] })

/-- The method `remove (value)`: the result and `this`. -/
def remove [JsStrictEq α] [JsLess α] (self : SortedArray α) (value : α) :
    Except UnsafeSortError Int × SortedArray α :=
  match self.lastIndexOf value with
  | (Except.error e, self) => (Except.error e, self)
  | (Except.ok index, self) =>
    if index > -1 then
      (Except.ok index, { self with items := arraySplice self.items index 1 [] })
    else (Except.ok index, self)

/-- The method `pop ()`, which the class inherits and does not extend: the
removed element, `none` for `undefined`, and `this`. -/
def pop (self : SortedArray α) : Option α × SortedArray α :=
  (self.items.getLast?, { self with items := self.items.dropLast })

/-- The method `shift ()`, which the class inherits and does not extend: the
removed element, `none` for `undefined`, and `this`. -/
def shift (self : SortedArray α) : Option α × SortedArray α :=
  (self.items.head?, { self with items := self.items.tail })

/-- The method `fill (value, start, end)`, which the class inherits and does not
extend. -/
def fill (self : SortedArray α) (value : α) (start stop : Option Int) : SortedArray α :=
  { self with items := arrayFill self.items value start stop }

/-- The inner loop of `sort` for a comparator that changes a state `σ` as it
compares; the comparator runs only while `ii >= 0`. -/
def sortInnerWith {σ : Type} (comparer : σ → α → α → Int × σ) (item : α) :
    Nat → List α → σ → List α × σ
  | 0, arr, state => (arr.set 0 item, state)
  | ii + 1, arr, state =>
    match arr.get? ii with
    | some x =>
      let compared := comparer state x item
      if compared.1 > 0 then sortInnerWith comparer item ii (arr.set (ii + 1) x) compared.2
      else (arr.set (ii + 1) item, compared.2)
    | none => (arr.set (ii + 1) item, state)

/-- One round of the outer loop of `sort` for a comparator that changes a
state. -/
def sortStepWith {σ : Type} (comparer : σ → α → α → Int × σ) (acc : List α × σ) (i : Nat) :
    List α × σ :=
  match acc.1.get? i with
  | some item => sortInnerWith comparer item i acc.1 acc.2
  | none => acc

/-- The method `sort (compare)` for a comparator that changes a state as it
compares: `this` and the state the comparator leaves. The slot of the comparer
keeps the comparator, whose result is read here in that last state. -/
def sortWith {σ : Type} (self : SortedArray α) (comparer : σ → α → α → Int × σ) (state : σ) :
    SortedArray α × σ :=
  let sorted := (List.range' 1 (self.items.length - 1)).foldl (sortStepWith comparer)
    (self.items, state)
  ({ items := sorted.1, comparer := fun a b => (comparer sorted.2 a b).1, UNSAFE := false },
    sorted.2)

end SortedArray

/-! ## simulation-physical.ts -/

/-- Modelled from the spec: the vector class `V2` of the library `@benzed/math`,
which is not part of the sources. A vector is a pair of coordinates; `mult`,
`add` and `div` change the receiver component by component and return it, and
`copy` is a new vector with the same coordinates (the same value here). -/
structure V2 where
  x : Rat
  y : Rat
  deriving DecidableEq

namespace V2

/-- Modelled from the spec: `v.mult(s)` scales both coordinates. -/
def mult (v : V2) (s : Rat) : V2 := { x := v.x * s, y := v.y * s }

/-- Modelled from the spec: `v.add(w)` adds component by component. -/
def add (v w : V2) : V2 := { x := v.x + w.x, y := v.y + w.y }

/-- Modelled from the spec: `v.div(s)` divides both coordinates. -/
def div (v : V2) (s : Rat) : V2 := { x := v.x / s, y := v.y / s }

/-- Modelled from the spec: `v.copy()`. -/
def copy (v : V2) : V2 := v

/-- Modelled from the spec: `v.sub(w)` subtracts component by component. -/
def sub (v w : V2) : V2 := { x := v.x - w.x, y := v.y - w.y }

/-- Modelled from the spec: the constant `V2.ZERO`. -/
def ZERO : V2 := { x := 0, y := 0 }

/-- Modelled from the spec: `v.set(w)` gives the receiver the coordinates of
`w`. -/
def set (_v w : V2) : V2 := w

/-- Modelled from the spec: the getter `v.sqrMagnitude`. -/
def sqrMagnitude (v : V2) : Rat := v.x * v.x + v.y * v.y

/-- Modelled from the spec: the getter `v.magnitude`, the square root of the
squared length; the square root is a parameter. -/
def magnitude (sqrt : Rat → Rat) (v : V2) : Rat := sqrt v.sqrMagnitude

end V2

/-- A reference to a `Body` object. -/
abbrev BodyRef := Nat

/-- The axis tag of a bounding edge. -/
inductive Axis where
  | x
  | y
  deriving DecidableEq, Repr

/-- Modelled from the spec: the class `BodyEdge` of `body.ts`, which is not part
of the sources. An edge refers back to its body, carries an axis tag and has a
scalar value, by which the operators `<` and `>` compare two edges. -/
structure BodyEdge where
  body : BodyRef
  axis : Axis
  value : Rat
  deriving DecidableEq

instance instJsLessBodyEdge : JsLess BodyEdge := ⟨fun a b => decide (a.value < b.value)⟩

/-- The operator `===` on edges, which are objects: the identity of the edge. -/
instance instJsStrictEqBodyEdge : JsStrictEq BodyEdge := ⟨fun a b => decide (a = b)⟩

/-- Modelled from the spec: the class `Body` of `body.ts`, which is not part of
the sources: identity, position, velocity, accumulated force, mass, pseudo-mass
and the bounding edges that iterating over the body yields. -/
structure Body where
  id : Nat
  pos : V2
  vel : V2
  force : V2
  mass : Rat
  pseudoMass : Rat
  edges : List BodyEdge

/-- The comparator `byMass`: `a.mass > b.mass ? -1 : a.mass < b.mass ? 1 : 0`. -/
def byMass (a b : Body) : Int :=
  if a.mass > b.mass then -1 else if a.mass < b.mass then 1 else 0

/-- What a method of the engine can throw: the `UnsafeSortError` of a
`SortedArray`, or the `TypeError` of reading a property of `undefined`. -/
inductive Thrown where
  | unsafeSort (e : UnsafeSortError)
  | typeError
  deriving DecidableEq, Repr

/-- Host operation `Array.prototype.sort(compare)` on the two-element array
`[b1, b2]`: the sort is stable, so the two are swapped only when
`compare(b1, b2) > 0`. -/
def sortPair {α : Type} (compare : α → α → Int) (b1 b2 : α) : α × α :=
  if compare b1 b2 > 0 then (b2, b1) else (b1, b2)

/-- The object `_bodyBounds`: the edge arrays of the two axes and the overlap
map, whose keys `${b1.id}:${b2.id}` are pairs of ids and whose entries are kept
in insertion order. -/
structure BodyBounds where
  x : SortedArray BodyEdge
  y : SortedArray BodyEdge
  overlaps : List ((Nat × Nat) × (BodyRef × BodyRef))

namespace BodyBounds

/-- The read `bodyBounds[axis]`. -/
def axis (bounds : BodyBounds) : Axis → SortedArray BodyEdge
  | Axis.x => bounds.x
  | Axis.y => bounds.y

/-- The array `bodyBounds[axis]` after a method has changed it. -/
def setAxis (bounds : BodyBounds) : Axis → SortedArray BodyEdge → BodyBounds
  | Axis.x, edges => { bounds with x := edges }
  | Axis.y, edges => { bounds with y := edges }

end BodyBounds

/-- The class `SimulationPhysical`. `objects` holds the `Body` objects that the
arrays refer to; the last five fields are inherited from `Simulation`. -/
structure SimulationPhysical where
  objects : BodyRef → Body
  _pseudoBodies : SortedArray BodyRef
  _realBodies : SortedArray BodyRef
  _livingBodies : SortedArray BodyRef
  _bodyBounds : BodyBounds
  _isRunning : Bool
  bodies : List BodyRef
  g : Rat
  physicsSteps : Nat
  realBodiesMin : Nat
  realMassThreshold : Rat

/-- Modelled from the spec: what `simulation-physical.ts` uses and the sources do
not hold. `TICK_DURATION` is the constant of `./constants`; `sqrt` is the square
root behind `V2.magnitude`; `edgeValue` is the value that `Body.updateBounds`
gives the edge of an axis, from the position and the extent of the body;
`isOverlapping` is the broad-phase test of `body.ts` (the extents intersect on
both axes) and `isColliding` its narrow-phase test. All five are parameters of
the engine. -/
structure Imports where
  TICK_DURATION : Rat
  sqrt : Rat → Rat
  edgeValue : Body → Axis → Rat
  isOverlapping : Body → Body → Bool
  isColliding : Body → Body → Bool

namespace SimulationPhysical

/-- A write to the object behind a reference. -/
def modify (self : SimulationPhysical) (ref : BodyRef) (f : Body → Body) :
    SimulationPhysical :=
  { self with objects := Function.update self.objects ref (f (self.objects ref)) }

/-- The body of the loop at the end of `_applyCollision`:
`const edges = bodyBounds[edge.axis]; edges.splice(edges.indexOf(edge), 1)`. -/
def removeEdge (bounds : BodyBounds) (edge : BodyEdge) : Except Thrown Unit × BodyBounds :=
  let edges := bounds.axis edge.axis
  match edges.indexOf edge with
  | (Except.error e, _) => (Except.error (Thrown.unsafeSort e), bounds)
  | (Except.ok index, edges) =>
    (Except.ok (), bounds.setAxis edge.axis (edges.splice index 1 []))

/-- The loop `for (const edge of small)` of `_applyCollision`; a throw ends
it. -/
def removeEdges : BodyBounds → List BodyEdge → Except Thrown Unit × BodyBounds
  | bounds, [] => (Except.ok (), bounds)
  | bounds, edge :: rest =>
    match removeEdge bounds edge with
    | (Except.error e, bounds) => (Except.error e, bounds)
    | (Except.ok _, bounds) => removeEdges bounds rest

/-- The method `_applyCollision (...bodies)`: what it throws, if anything, and
the engine as it leaves it. -/
def _applyCollision (self : SimulationPhysical) (b1 b2 : BodyRef) :
    Except Thrown Unit × SimulationPhysical :=
  let sorted := sortPair (fun a b => byMass (self.objects a) (self.objects b)) b1 b2
  let big := sorted.1
  let small := sorted.2
  let totalMass := (self.objects big).mass + (self.objects small).mass
  -- big.pos.mult(big.mass).add(small.pos.copy().mult(small.mass)).div(totalMass)
  let self := self.modify big (fun b => { b with pos := b.pos.mult b.mass })
  let smallPos := ((self.objects small).pos.copy).mult (self.objects small).mass
  let self := self.modify big (fun b => { b with pos := b.pos.add smallPos })
  let self := self.modify big (fun b => { b with pos := b.pos.div totalMass })
  -- big.vel.mult(big.mass).add(small.vel.copy().mult(small.mass)).div(totalMass)
  let self := self.modify big (fun b => { b with vel := b.vel.mult b.mass })
  let smallVel := ((self.objects small).vel.copy).mult (self.objects small).mass
  let self := self.modify big (fun b => { b with vel := b.vel.add smallVel })
  let self := self.modify big (fun b => { b with vel := b.vel.div totalMass })
  let self := self.modify big (fun b => { b with mass := totalMass })
  let self := self.modify small (fun b => { b with mass := 0 })
  let removed := removeEdges self._bodyBounds (self.objects small).edges
  (removed.1, { self with _bodyBounds := removed.2 })

/-- The loop `for (let i = 0; i < this._livingBodies.length; i++)` of
`_sortBodies`, from the index `i` on: the first argument is what is left of the
living array, and the pair is the real and the pseudo array. A destroyed body
ends the loop. -/
def classify (objects : BodyRef → Body) (minRealIndex : Nat) (realMassThreshold : Rat) :
    List BodyRef → Nat → SortedArray BodyRef × SortedArray BodyRef →
      SortedArray BodyRef × SortedArray BodyRef
  | [], _, arrays => arrays
  | livingBody :: rest, i, (realBodies, pseudoBodies) =>
    if (objects livingBody).mass ≤ 0 then (realBodies, pseudoBodies)
    else
      let isReal : Bool := i < minRealIndex || (objects livingBody).mass ≥ realMassThreshold
      if isReal then
        classify objects minRealIndex realMassThreshold rest (i + 1)
          (realBodies.push [livingBody], pseudoBodies)
      else
        classify objects minRealIndex realMassThreshold rest (i + 1)
          (realBodies, pseudoBodies.push [livingBody])

/-- The loop `while (livingBodies.at(-1).mass <= 0) livingBodies.pop()` of
`_sortBodies`. The argument is the array read from its end, and so is the
result; on the empty array `at(-1)` is `undefined` and reading its mass
throws. -/
def popDestroyed (objects : BodyRef → Body) : List BodyRef → Except Thrown (List BodyRef)
  | [] => Except.error Thrown.typeError
  | last :: rest =>
    if (objects last).mass ≤ 0 then popDestroyed objects rest else Except.ok (last :: rest)

/-- The method `_sortBodies ()`: what it throws, if anything, and the engine as
it leaves it. -/
def _sortBodies (self : SimulationPhysical) : Except Thrown Unit × SimulationPhysical :=
  -- realBodies.length = 0; pseudoBodies.length = 0
  let realBodies : SortedArray BodyRef := { self._realBodies with items := [] }
  let pseudoBodies : SortedArray BodyRef := { self._pseudoBodies with items := [] }
  let self := { self with _realBodies := realBodies, _pseudoBodies := pseudoBodies }
  if self._livingBodies.items.length = 0 then (Except.ok (), self)
  else
    -- largest at 0, smallest at last
    let livingBodies := self._livingBodies.sort
      (some (fun a b => byMass (self.objects a) (self.objects b)))
    let minRealIndex := min self.realBodiesMin livingBodies.items.length
    let arrays := classify self.objects minRealIndex self.realMassThreshold
      livingBodies.items 0 (realBodies, pseudoBodies)
    let self := { self with
      _livingBodies := livingBodies, _realBodies := arrays.1, _pseudoBodies := arrays.2 }
    match popDestroyed self.objects livingBodies.items.reverse with
    | Except.error e => (Except.error e, { self with _livingBodies := { livingBodies with items := [] } })
    | Except.ok left =>
      (Except.ok (), { self with _livingBodies := { livingBodies with items := left.reverse } })

/-- Modelled from the spec: `body.updateBounds()` gives each edge of the body the
value that the position and the extent of the body determine. -/
def updateBounds (imports : Imports) (body : Body) : Body :=
  { body with edges := body.edges.map (fun e => { e with value := imports.edgeValue body e.axis }) }

/-- An edge object of an axis array, read after the bodies have recomputed their
edges: the arrays hold the edge objects of the bodies, and an edge object is
known by its body and its axis. -/
def currentEdge (objects : BodyRef → Body) (edge : BodyEdge) : BodyEdge :=
  ((objects edge.body).edges.find? (fun e => decide (e.axis = edge.axis))).getD edge

/-- The method `_updateOverlap (b1, b2)`. -/
def _updateOverlap (imports : Imports) (self : SimulationPhysical) (b1 b2 : BodyRef) :
    SimulationPhysical :=
  if b1 = b2 then self
  else
    let overlapId : Nat × Nat := ((self.objects b1).id, (self.objects b2).id)
    let overlaps := self._bodyBounds.overlaps
    let wasOverlapping : Bool := overlaps.any (fun entry => decide (entry.1 = overlapId))
    let isOverlapping : Bool := imports.isOverlapping (self.objects b1) (self.objects b2)
    if wasOverlapping && !isOverlapping then
      { self with _bodyBounds := { self._bodyBounds with
          overlaps := overlaps.filter (fun entry => !decide (entry.1 = overlapId)) } }
    else if !wasOverlapping && isOverlapping then
      { self with _bodyBounds := { self._bodyBounds with
          overlaps := overlaps ++ [(overlapId, (b1, b2))] } }
    else self

/-- The comparator that `_updateBodyBoundsAndOverlaps` gives to `sort`:
`above = e1 >= e2`, a call of `_updateOverlap` when `above`, and
`above ? 1 : -1`. -/
def edgeComparer (imports : Imports) (self : SimulationPhysical) (e1 e2 : BodyEdge) :
    Int × SimulationPhysical :=
  let above : Bool := !(JsLess.lt e1 e2)
  (if above then 1 else -1, if above then _updateOverlap imports self e1.body e2.body else self)

/-- The method `_updateBodyBoundsAndOverlaps ()`: every living body recomputes
its edges, then the array of the x axis and the array of the y axis are
sorted. -/
def _updateBodyBoundsAndOverlaps (imports : Imports) (self : SimulationPhysical) :
    SimulationPhysical :=
  let self := self._livingBodies.items.foldl
    (fun self body => self.modify body (updateBounds imports)) self
  let self := { self with _bodyBounds := { self._bodyBounds with
    x := { self._bodyBounds.x with
      items := self._bodyBounds.x.items.map (currentEdge self.objects) },
    y := { self._bodyBounds.y with
      items := self._bodyBounds.y.items.map (currentEdge self.objects) } } }
  let sortedX := self._bodyBounds.x.sortWith (edgeComparer imports) self
  let self := { sortedX.2 with _bodyBounds := { sortedX.2._bodyBounds with x := sortedX.1 } }
  let sortedY := self._bodyBounds.y.sortWith (edgeComparer imports) self
  { sortedY.2 with _bodyBounds := { sortedY.2._bodyBounds with y := sortedY.1 } }

/-- The call `overlaps.delete(overlapId)`. -/
def deleteOverlap (self : SimulationPhysical) (overlapId : Nat × Nat) : SimulationPhysical :=
  { self with _bodyBounds := { self._bodyBounds with
      overlaps := self._bodyBounds.overlaps.filter (fun entry => !decide (entry.1 = overlapId)) } }

/-- The loop `for (const [overlapId, [b1, b2]] of [...overlaps])` of
`_applyCollisions`, over what is left of the copy of the map: the flag
`needsSort` and the engine; a throw ends it. -/
def collideLoop (imports : Imports) :
    List ((Nat × Nat) × (BodyRef × BodyRef)) → SimulationPhysical → Bool →
      Except Thrown Bool × SimulationPhysical
  | [], self, needsSort => (Except.ok needsSort, self)
  | (overlapId, (b1, b2)) :: rest, self, needsSort =>
    -- If either body was destroyed in another collision
    if (self.objects b1).mass ≤ 0 ∨ (self.objects b2).mass ≤ 0 then
      collideLoop imports rest (self.deleteOverlap overlapId) needsSort
    else if imports.isColliding (self.objects b1) (self.objects b2) then
      match (self.deleteOverlap overlapId)._applyCollision b1 b2 with
      | (Except.error e, self) => (Except.error e, self)
      | (Except.ok _, self) => collideLoop imports rest self true
    else collideLoop imports rest self needsSort

/-- The method `_applyCollisions ()`. -/
def _applyCollisions (imports : Imports) (self : SimulationPhysical) :
    Except Thrown Unit × SimulationPhysical :=
  match collideLoop imports self._bodyBounds.overlaps self false with
  | (Except.error e, self) => (Except.error e, self)
  | (Except.ok needsSort, self) => if needsSort then self._sortBodies else (Except.ok (), self)

/-- The test `highestAttraction < attraction`; `none` is `-Infinity`. -/
def belowAttraction (highestAttraction : Option Rat) (attraction : Rat) : Bool :=
  match highestAttraction with
  | none => true
  | some highest => decide (highest < attraction)

/-- The loop `for (const other of realBodies)` of `_calculateForce`, over what is
left of the real array: the engine, `highestAttraction` and `mostAttracted`. -/
def forceLoop (imports : Imports) (body : BodyRef) (addPseudoMassOnly : Bool) :
    List BodyRef → SimulationPhysical × Option Rat × Option BodyRef →
      SimulationPhysical × Option Rat × Option BodyRef
  | [], state => state
  | other :: rest, (self, highestAttraction, mostAttracted) =>
    if body = other then
      forceLoop imports body addPseudoMassOnly rest (self, highestAttraction, mostAttracted)
    else
      let relative := ((self.objects other).pos.copy).sub (self.objects body).pos
      let mass :=
        if addPseudoMassOnly then (self.objects other).mass
        else (self.objects other).mass + (self.objects other).pseudoMass
      let attraction := (self.g * mass) / relative.sqrMagnitude
      let higher := belowAttraction highestAttraction attraction
      let highestAttraction := if higher then some attraction else highestAttraction
      let mostAttracted := if higher then some other else mostAttracted
      let self :=
        if addPseudoMassOnly then self
        else
          let dist := relative.magnitude imports.sqrt
          self.modify body (fun b =>
            { b with force := b.force.add ((relative.mult attraction).div dist) })
      forceLoop imports body addPseudoMassOnly rest (self, highestAttraction, mostAttracted)

/-- The method `_calculateForce (body, isReal, addPseudoMassOnly)`. -/
def _calculateForce (imports : Imports) (self : SimulationPhysical) (body : BodyRef)
    (isReal addPseudoMassOnly : Bool) : SimulationPhysical :=
  -- Reset Forces
  let self :=
    if addPseudoMassOnly then self
    else self.modify body (fun b => { b with force := b.force.set V2.ZERO })
  let looped := forceLoop imports body addPseudoMassOnly self._realBodies.items
    (self, none, none)
  let self := looped.1
  match looped.2.2 with
  | some mostAttracted =>
    if addPseudoMassOnly && !isReal then
      self.modify mostAttracted (fun b =>
        { b with pseudoMass := b.pseudoMass + (self.objects body).mass })
    else self
  | none => self

/-- The method `_calculateForces ()`. -/
def _calculateForces (imports : Imports) (self : SimulationPhysical) : SimulationPhysical :=
  let self := self._livingBodies.items.foldl
    (fun self body => self.modify body (fun b => { b with pseudoMass := 0 })) self
  let self := self._pseudoBodies.items.foldl
    (fun self body => _calculateForce imports self body false true) self
  let self := self._pseudoBodies.items.foldl
    (fun self body => _calculateForce imports self body false false) self
  self._realBodies.items.foldl
    (fun self body => _calculateForce imports self body true false) self

/-- The method `_applyForces ()`. -/
def _applyForces (imports : Imports) (self : SimulationPhysical) : SimulationPhysical :=
  self._livingBodies.items.foldl
    (fun self body =>
      let self := self.modify body (fun b =>
        { b with force := (b.force.mult imports.TICK_DURATION).div self.physicsSteps })
      let self := self.modify body (fun b =>
        { b with vel := (b.vel.add ((b.vel.copy).add b.force)).mult (1 / 2) })
      self.modify body (fun b =>
        { b with pos := b.pos.add ((b.vel.copy).div self.physicsSteps) }))
    self

/-- One round of the loop of `_update`: the four steps of a sub-step; a throw
ends it. -/
def subStep (imports : Imports) (self : SimulationPhysical) :
    Except Thrown Unit × SimulationPhysical :=
  let self := self._updateBodyBoundsAndOverlaps imports
  match self._applyCollisions imports with
  | (Except.error e, self) => (Except.error e, self)
  | (Except.ok _, self) => (Except.ok (), (self._calculateForces imports)._applyForces imports)

/-- The loop `for (let i = 0; i < this.physicsSteps; i++)` of `_update`, for the
rounds that are left. -/
def subSteps (imports : Imports) : Nat → SimulationPhysical →
    Except Thrown Unit × SimulationPhysical
  | 0, self => (Except.ok (), self)
  | left + 1, self =>
    match subStep imports self with
    | (Except.error e, self) => (Except.error e, self)
    | (Except.ok _, self) => subSteps imports left self

/-- The method `_update ()`, one tick: the living array that `emit('tick', ...)`
publishes, or what a sub-step throws, and the engine. The call of `setTimeout`
at its end asks for the next tick and changes nothing. -/
def _update (imports : Imports) (self : SimulationPhysical) :
    Except Thrown (List BodyRef) × SimulationPhysical :=
  match subSteps imports self.physicsSteps self with
  | (Except.error e, self) => (Except.error e, self)
  | (Except.ok _, self) => (Except.ok self._livingBodies.items, self)

/-- The statements of `run ()` before its call of `_update`. -/
def runStart (self : SimulationPhysical) : SimulationPhysical :=
  let self := { self with _isRunning := true }
  -- this._livingBodies.length = 0
  let self := { self with _livingBodies := { self._livingBodies with items := [] } }
  { self with _livingBodies := self._livingBodies.push self.bodies }

/-- The method `run ()`, up to the end of the first tick. -/
def run (imports : Imports) (self : SimulationPhysical) :
    Except Thrown (List BodyRef) × SimulationPhysical :=
  _update imports (runStart self)

/-- The method `stop ()`. -/
def stop (self : SimulationPhysical) : SimulationPhysical :=
  { self with _isRunning := false }

/-- The engine as its constructor leaves it: the four arrays are new and empty
and so is the overlap map; the bodies and the settings are those of the base
class `Simulation`. The comparer of a new array of bodies is `ascending`, which
no method of the engine calls before `sort (byMass)` replaces it; its result on
two bodies is left at 0 here. -/
def create (objects : BodyRef → Body) (bodies : List BodyRef) (g : Rat)
    (physicsSteps realBodiesMin : Nat) (realMassThreshold : Rat) : SimulationPhysical :=
  { objects := objects
    _pseudoBodies := { items := [], comparer := fun _ _ => 0, UNSAFE := false }
    _realBodies := { items := [], comparer := fun _ _ => 0, UNSAFE := false }
    _livingBodies := { items := [], comparer := fun _ _ => 0, UNSAFE := false }
    _bodyBounds := { x := SortedArray.empty, y := SortedArray.empty, overlaps := [] }
    _isRunning := false
    bodies := bodies
    g := g
    physicsSteps := physicsSteps
    realBodiesMin := realBodiesMin
    realMassThreshold := realMassThreshold }

end SimulationPhysical

/-! ## Notions used in the statements -/

namespace SortedArray

variable {α : Type}

/-- The order in which the inner loop of `sort` meets a sorted block, read from
its end. -/
def revRel (comparer : α → α → Int) (a b : α) : Prop := comparer b a ≤ 0

instance revRelDecidable (comparer : α → α → Int) : DecidableRel (revRel comparer) :=
  fun a b => inferInstanceAs (Decidable (comparer b a ≤ 0))

/-- The list-level reading of `sort`: every element in turn is put into the
block sorted so far, which is kept from its end. -/
def insertAll (comparer : α → α → Int) (start arr : List α) : List α :=
  (arr.foldl (fun acc x => List.orderedInsert (revRel comparer) x acc) start.reverse).reverse

/-- A comparator that is a consistent total preorder: swapping the arguments
swaps the sign of the result, and `comparer a b ≤ 0` is transitive. -/
structure IsConsistentTotalPreorder (comparer : α → α → Int) : Prop where
  swap : ∀ a b, 0 < comparer a b ↔ comparer b a < 0
  trans : ∀ a b c, comparer a b ≤ 0 → comparer b c ≤ 0 → comparer a c ≤ 0

/-- The sortedness invariant: every adjacent pair `(a, b)` of the array satisfies
`comparer(a, b) ≤ 0`. -/
def AdjacentSorted (comparer : α → α → Int) : List α → Prop
  | a :: b :: rest => comparer a b ≤ 0 ∧ AdjacentSorted comparer (b :: rest)
  | _ => True

instance adjacentSortedDecidable (comparer : α → α → Int) :
    ∀ arr : List α, Decidable (AdjacentSorted comparer arr)
  | [] => isTrue trivial
  | [_] => isTrue trivial
  | a :: b :: rest =>
    have := adjacentSortedDecidable comparer (b :: rest)
    inferInstanceAs (Decidable (comparer a b ≤ 0 ∧ AdjacentSorted comparer (b :: rest)))

/-- An array of numbers that was pushed to and not yet sorted: `[3, 1, 2]`, with
the default comparer and the flag set. -/
def sampleUnsorted : SortedArray Int :=
  { items := [3, 1, 2], comparer := ascending, UNSAFE := true }

/-- The number `a` comes strictly before the number `b` in the direction of the
search: `a > b` when descending, `a < b` otherwise. -/
def Before (descending : Bool) (a b : Int) : Prop :=
  if descending then b < a else a < b

/-- The number `a` does not come after the number `b` in the direction. -/
def NotAfter (descending : Bool) (a b : Int) : Prop :=
  if descending then b ≤ a else a ≤ b

instance notAfterDecidable (d : Bool) (a b : Int) : Decidable (NotAfter d a b) :=
  inferInstanceAs (Decidable (if d then b ≤ a else a ≤ b))

/-- The array is in numeric order in the direction: non-increasing when
descending, non-decreasing otherwise. -/
def InOrder (descending : Bool) (arr : List Int) : Prop :=
  List.Pairwise (NotAfter descending) arr

instance inOrderDecidable (d : Bool) (arr : List Int) : Decidable (InOrder d arr) :=
  inferInstanceAs (Decidable (List.Pairwise (NotAfter d) arr))

/-- What the loop of `binarySearch` returns on an array in numeric order, when
the elements below `min` come before the value and those from `max` on come
after it: either an index that holds the value, or, when no element is the
value, `-1` (strict) or the index that splits the array around the value. -/
def LoopResult (arr : List Int) (value : Int) (d strict : Bool) (r : Int) : Prop :=
  (∃ k : Nat, r = k ∧ arr.get? k = some value)
  ∨ ((∀ x ∈ arr, x ≠ value)
      ∧ (if strict then r = -1
         else ∃ k : Nat, r = k ∧ k ≤ arr.length
           ∧ (∀ i x, i < k → arr.get? i = some x → Before d x value)
           ∧ (∀ i x, k ≤ i → arr.get? i = some x → Before d value x)))

/-- The test `arr[min] > arr[max - 1]` of `binarySearch` on an array of
numbers. -/
def detectDescending (arr : List Int) : Bool :=
  match arr.get? 0, arr.get? (arr.length - 1) with
  | some first, some last => JsLess.lt last first
  | _, _ => false

/-- A safe array of numbers with a repeated value: `[1, 1, 1]`. -/
def sampleOnes : SortedArray Int :=
  { items := [1, 1, 1], comparer := ascending, UNSAFE := false }

/-- The comparator `(a, b) => b - a`, which sorts numbers descending. -/
def descendingComparer (a b : Int) : Int := b - a

/-- A safe array with the descending comparer and one element: `[5]`. -/
def sampleDescending : SortedArray Int :=
  { items := [5], comparer := descendingComparer, UNSAFE := false }

/-- The comparator `(a, b) => a % 2 - b % 2`, which sorts even numbers before
odd ones. -/
def byParity (a b : Int) : Int := a % 2 - b % 2

/-- A safe array of even numbers under the comparer `byParity`:
`[0, 0, 0, 2, 0]`. -/
def sampleByParity : SortedArray Int :=
  { items := [0, 0, 0, 2, 0], comparer := byParity, UNSAFE := false }

/-- The comparator applied to the elements of two pairs of an input position and
an element. -/
def onValues (comparer : α → α → Int) (p q : Nat × α) : Int := comparer p.2 q.2

/-- The pair `p` may stand before the pair `q` in a stable result: it is not so
that `q` came before `p` in the input with `comparer(q, p) = 0`. -/
def KeepsOrder (comparer : α → α → Int) (p q : Nat × α) : Prop :=
  ¬ (q.1 < p.1 ∧ comparer q.2 p.2 = 0)

/-- A safe array of numbers sorted ascending: `[1, 2, 3]`. -/
def sampleThree : SortedArray Int :=
  { items := [1, 2, 3], comparer := ascending, UNSAFE := false }

/-- The array holds at the index `i` an element that is strictly equal to the
value: `arr[i] === value`. -/
def HoldsAt {α : Type} [JsStrictEq α] (arr : List α) (i : Nat) (value : α) : Prop :=
  ∃ x, arr.get? i = some x ∧ JsStrictEq.eq x value = true

/-- The number `a` does not come after the number `b` in the direction, by the
operators `<=` and `>=`, which are false when either side is `NaN`. -/
def NumberNotAfter (descending : Bool) : JsNumber → JsNumber → Prop
  | JsNumber.num x, JsNumber.num y => NotAfter descending x y
  | _, _ => False

/-- The relation `NumberNotAfter` can be decided. -/
instance numberNotAfterDecidable (d : Bool) : ∀ a b, Decidable (NumberNotAfter d a b)
  | JsNumber.num x, JsNumber.num y => inferInstanceAs (Decidable (NotAfter d x y))
  | JsNumber.nan, _ => isFalse (fun h => h)
  | JsNumber.num _, JsNumber.nan => isFalse (fun h => h)

/-- The array of numbers is in numeric order in the direction: non-increasing
when descending, non-decreasing otherwise. -/
def NumbersInOrder (descending : Bool) (arr : List JsNumber) : Prop :=
  List.Pairwise (NumberNotAfter descending) arr

/-- The property `NumbersInOrder` can be decided. -/
instance numbersInOrderDecidable (d : Bool) (arr : List JsNumber) :
    Decidable (NumbersInOrder d arr) :=
  inferInstanceAs (Decidable (List.Pairwise (NumberNotAfter d) arr))

/-- The array of numbers whose elements are the integers of the array `ints`,
with the comparer `comparer`. -/
def ofInts (ints : SortedArray Int) (comparer : JsNumber → JsNumber → Int) :
    SortedArray JsNumber :=
  { items := ints.items.map JsNumber.num, comparer := comparer, UNSAFE := ints.UNSAFE }

/-- A safe array of numbers with a `NaN` between 1 and 0: `[1, NaN, 0]`, with
the default comparer. -/
def sampleWithNaN : SortedArray JsNumber :=
  { items := [JsNumber.num 1, JsNumber.nan, JsNumber.num 0], comparer := ascending,
    UNSAFE := false }

/-- A safe array of numbers sorted ascending, `[1, 2, 2, 3]`, with the default
comparer. -/
def sampleNumbers : SortedArray JsNumber :=
  { items := [JsNumber.num 1, JsNumber.num 2, JsNumber.num 2, JsNumber.num 3],
    comparer := ascending, UNSAFE := false }

end SortedArray

namespace SimulationPhysical

open SortedArray

/-- The body that `_applyCollision (b1, b2)` keeps: the one with the greater
mass, `b1` on a tie. -/
def bigOf (self : SimulationPhysical) (b1 b2 : BodyRef) : BodyRef :=
  if (self.objects b1).mass < (self.objects b2).mass then b2 else b1

/-- The body that `_applyCollision (b1, b2)` destroys. -/
def smallOf (self : SimulationPhysical) (b1 b2 : BodyRef) : BodyRef :=
  if (self.objects b1).mass < (self.objects b2).mass then b1 else b2

/-- Two bodies that overlap: body 0 of mass 10 at the origin moving right, body 1
of mass 2 at (1, 0) moving left; each has one edge per axis, at its position. -/
def sampleBody (ref : BodyRef) : Body :=
  if ref = 0 then
    { id := 0, pos := { x := 0, y := 0 }, vel := { x := 1, y := 0 },
      force := { x := 0, y := 0 }, mass := 10, pseudoMass := 0,
      edges := [{ body := 0, axis := Axis.x, value := 0 },
                { body := 0, axis := Axis.y, value := 0 }] }
  else
    { id := ref, pos := { x := 1, y := 0 }, vel := { x := -1, y := 0 },
      force := { x := 0, y := 0 }, mass := 2, pseudoMass := 0,
      edges := [{ body := ref, axis := Axis.x, value := 1 },
                { body := ref, axis := Axis.y, value := 0 }] }

/-- An engine with the two sample bodies living and their edges in the two axis
arrays, no real or pseudo bodies yet, `realBodiesMin = 1` and
`realMassThreshold = 5`. -/
def sampleEngine : SimulationPhysical :=
  { objects := sampleBody
    _pseudoBodies := { items := [], comparer := fun _ _ => 0, UNSAFE := false }
    _realBodies := { items := [], comparer := fun _ _ => 0, UNSAFE := false }
    _livingBodies := { items := [1, 0], comparer := fun _ _ => 0, UNSAFE := true }
    _bodyBounds :=
      { x := { items := [{ body := 0, axis := Axis.x, value := 0 },
                         { body := 1, axis := Axis.x, value := 1 }],
               comparer := ascending, UNSAFE := false }
        y := { items := [{ body := 0, axis := Axis.y, value := 0 },
                         { body := 1, axis := Axis.y, value := 0 }],
               comparer := ascending, UNSAFE := false }
        overlaps := [((0, 1), (0, 1))] }
    _isRunning := true
    bodies := [0, 1]
    g := 1
    physicsSteps := 1
    realBodiesMin := 1
    realMassThreshold := 5 }

/-- The test `i < minRealIndex || livingBody.mass >= realMassThreshold` of
`_sortBodies`, on an index paired with a body. -/
def isRealAt (objects : BodyRef → Body) (minRealIndex : Nat) (realMassThreshold : Rat)
    (entry : Nat × BodyRef) : Bool :=
  entry.1 < minRealIndex || (objects entry.2).mass ≥ realMassThreshold

/-- The comparator that `_sortBodies` gives to `sort`: `byMass` on the objects
behind two references. -/
def massComparer (self : SimulationPhysical) (a b : BodyRef) : Int :=
  byMass (self.objects a) (self.objects b)

/-- The living array as `livingBodies.sort(byMass)` leaves it. -/
def sortedLiving (self : SimulationPhysical) : List BodyRef :=
  insertionSort (massComparer self) self._livingBodies.items

/-- The bodies of positive mass at the front of the sorted living array. -/
def livingFront (self : SimulationPhysical) : List BodyRef :=
  (sortedLiving self).takeWhile (fun b => decide (0 < (self.objects b).mass))

/-- Sample imports: a tick lasts 1, the square root is the one of `Rat`, exact on
squares; every body is a disc of radius 1 whose edge on an axis is at its
position; two bodies overlap when their positions differ by at most 2 on both
axes and collide when their distance is at most 2. -/
def sampleImports : Imports :=
  { TICK_DURATION := 1
    sqrt := Rat.sqrt
    edgeValue := fun body axis =>
      match axis with
      | Axis.x => body.pos.x
      | Axis.y => body.pos.y
    isOverlapping := fun a b =>
      decide (a.pos.x - b.pos.x ≤ 2) && decide (b.pos.x - a.pos.x ≤ 2)
        && decide (a.pos.y - b.pos.y ≤ 2) && decide (b.pos.y - a.pos.y ≤ 2)
    isColliding := fun a b => decide ((a.pos.sub b.pos).sqrMagnitude ≤ 4) }

/-- A new engine populated with the two sample bodies, of mass 10 and 2, with
`g = 1`, one sub-step per tick, `realBodiesMin = 1` and
`realMassThreshold = 5`. -/
def twoBodies : SimulationPhysical := create sampleBody [0, 1] 1 1 1 5

/-- The result of the comparator that `_updateBodyBoundsAndOverlaps` gives to
`sort`, which the axis arrays keep as their comparer. -/
def edgeOrder (e1 e2 : BodyEdge) : Int := if JsLess.lt e1 e2 then -1 else 1

/-- An engine with three sample bodies, their edges in the two axis arrays, both
safe, and the pairs of body 0 with body 1 and of body 0 with body 2 in the
overlap map. -/
def threeBodies : SimulationPhysical :=
  { sampleEngine with
    _livingBodies := { items := [0, 1, 2], comparer := fun _ _ => 0, UNSAFE := false }
    _bodyBounds :=
      { x := { items := [{ body := 0, axis := Axis.x, value := 0 },
                         { body := 1, axis := Axis.x, value := 1 },
                         { body := 2, axis := Axis.x, value := 1 }],
               comparer := edgeOrder, UNSAFE := false }
        y := { items := [{ body := 0, axis := Axis.y, value := 0 },
                         { body := 1, axis := Axis.y, value := 0 },
                         { body := 2, axis := Axis.y, value := 0 }],
               comparer := edgeOrder, UNSAFE := false }
        overlaps := [((0, 1), (0, 1)), ((0, 2), (0, 2))] }
    bodies := [0, 1, 2] }

/-- Five bodies in a row: body `ref` is at `x = 0, 1, 2, 2, 3` and `y = ref`, has
one edge per axis at its position, and mass 5, except body 3 of mass 1. -/
def rowBody (ref : BodyRef) : Body :=
  { id := ref
    pos := { x := if ref ≤ 2 then ref else ref - 1, y := ref }
    vel := { x := 0, y := 0 }
    force := { x := 0, y := 0 }
    mass := if ref = 3 then 1 else 5
    pseudoMass := 0
    edges := [{ body := ref, axis := Axis.x, value := if ref ≤ 2 then ref else ref - 1 },
              { body := ref, axis := Axis.y, value := ref }] }

/-- The x edge and the y edge of a body of the row. -/
def rowEdge (axis : Axis) (ref : BodyRef) : BodyEdge :=
  match axis with
  | Axis.x => { body := ref, axis := Axis.x, value := if ref ≤ 2 then ref else ref - 1 }
  | Axis.y => { body := ref, axis := Axis.y, value := ref }

/-- An engine with the five bodies of the row living and their edges in the two
axis arrays, in the order of their values, both safe. -/
def rowEngine : SimulationPhysical :=
  { sampleEngine with
    objects := rowBody
    _livingBodies := { items := [0, 1, 2, 4, 3], comparer := fun _ _ => 0, UNSAFE := false }
    _bodyBounds :=
      { x := { items := [0, 1, 2, 3, 4].map (rowEdge Axis.x),
               comparer := edgeOrder, UNSAFE := false }
        y := { items := [0, 1, 2, 3, 4].map (rowEdge Axis.y),
               comparer := edgeOrder, UNSAFE := false }
        overlaps := [((2, 3), (2, 3))] }
    bodies := [0, 1, 2, 3, 4] }

/-- The engine has found no overlap and has made no partition: the two axis
arrays, the overlap map, the real array and the pseudo array are empty. -/
def Bare (self : SimulationPhysical) : Prop :=
  self._bodyBounds.x.items = [] ∧ self._bodyBounds.y.items = []
    ∧ self._bodyBounds.overlaps = []
    ∧ self._realBodies.items = [] ∧ self._pseudoBodies.items = []

/-- The engine `after` differs from the engine `before` in its bodies only, and
the property `proj` of every body is the same in both. -/
def Keeps {β : Type} (proj : Body → β) (before after : SimulationPhysical) : Prop :=
  after = { before with objects := after.objects }
    ∧ ∀ ref, proj (after.objects ref) = proj (before.objects ref)

/-- The properties of a body that `updateBounds` leaves alone. -/
def besideEdges (b : Body) : Nat × V2 × V2 × V2 × Rat × Rat :=
  (b.id, b.pos, b.vel, b.force, b.mass, b.pseudoMass)

/-- The term that the loop of `_calculateForce` adds to the force on `body` for
the real body `other` when `addPseudoMassOnly` is false:
`relative.mult(attraction).div(dist)`, with the mass and the pseudo-mass of
`other` in the attraction. A division by 0, which is `Infinity` or `NaN` in
JavaScript, is 0 here; it occurs only when the two bodies are at one place. -/
def pull (imports : Imports) (g : Rat) (body other : Body) : V2 :=
  (((other.pos.copy).sub body.pos).mult
      ((g * (other.mass + other.pseudoMass)) / ((other.pos.copy).sub body.pos).sqrMagnitude)).div
    (((other.pos.copy).sub body.pos).magnitude imports.sqrt)

/-- The sum of the pulls of the real bodies other than `body` on `body`, in the
order of the real array, on top of the force `start`. -/
def pullFrom (imports : Imports) (self : SimulationPhysical) (body : BodyRef) (start : V2)
    (others : List BodyRef) : V2 :=
  others.foldl
    (fun force other =>
      if body = other then force
      else force.add (pull imports self.g (self.objects body) (self.objects other)))
    start

/-- The force that the real bodies exert on `body` in the state `self`. -/
def totalPull (imports : Imports) (self : SimulationPhysical) (body : BodyRef) : V2 :=
  pullFrom imports self body V2.ZERO self._realBodies.items

/-- The properties of a body beside its force. -/
def besideForce (b : Body) : Nat × V2 × V2 × Rat × Rat × List BodyEdge :=
  (b.id, b.pos, b.vel, b.mass, b.pseudoMass, b.edges)

/-- The engine after the first two loops of `_calculateForces`, which reset the
pseudo-masses and hand the masses of the pseudo bodies out. -/
def afterDonation (imports : Imports) (self : SimulationPhysical) : SimulationPhysical :=
  (self._livingBodies.items.foldl
      (fun self body => self.modify body (fun b => { b with pseudoMass := 0 }))
      self)._pseudoBodies.items.foldl
    (fun self body => _calculateForce imports self body false true)
    (self._livingBodies.items.foldl
      (fun self body => self.modify body (fun b => { b with pseudoMass := 0 })) self)

/-- The attraction `g * mass / squaredDistance` of the real body `other` on
`body`, with the plain mass of `other`. -/
def plainAttraction (self : SimulationPhysical) (body other : BodyRef) : Rat :=
  (self.g * (self.objects other).mass)
    / (((self.objects other).pos.copy).sub (self.objects body).pos).sqrMagnitude

/-- The real body with the highest attraction on `body`, the first such in the
order of the real array on a tie; `none` when there is no real body. -/
def dominantAttractor (self : SimulationPhysical) (body : BodyRef) : Option BodyRef :=
  self._realBodies.items.find? (fun candidate =>
    self._realBodies.items.all (fun other =>
      decide (plainAttraction self body other ≤ plainAttraction self body candidate)))

/-- The element `r` of `l` has the highest value of `attr` and is the first
with it. -/
def IsFirstHighest (attr : BodyRef → Rat) (l : List BodyRef) (r : BodyRef) : Prop :=
  ∃ before after, l = before ++ r :: after
    ∧ (∀ a ∈ before, attr a < attr r) ∧ (∀ b ∈ after, attr b ≤ attr r)

/-- The properties of a body beside its pseudo-mass and its force. -/
def besidePseudoMass (b : Body) : Nat × V2 × V2 × Rat × List BodyEdge :=
  (b.id, b.pos, b.vel, b.mass, b.edges)

/-- The mass that the pseudo bodies of the list `donors` hand to the real body
`r`: the sum of the masses of those whose dominant attractor is `r`. -/
def donatedTo (self : SimulationPhysical) (donors : List BodyRef) (r : BodyRef) : Rat :=
  ((donors.filter (fun p => decide (dominantAttractor self p = some r))).map
    (fun p => (self.objects p).mass)).sum

/-- The sample engine after `_sortBodies`: body 0, of mass 10, is real and body
1, of mass 2, is pseudo. -/
def samplePartition : SimulationPhysical := (sampleEngine._sortBodies).2

end SimulationPhysical

/-! ## The insertion sort of `sort` -/

namespace SortedArray

variable {α : Type}

theorem adjacentSorted_iff_chain (comparer : α → α → Int) (arr : List α) :
    AdjacentSorted comparer arr ↔ List.Chain' (fun a b => comparer a b ≤ 0) arr := by
  induction arr with
  | nil => simp [AdjacentSorted]
  | cons a rest ih =>
    cases rest with
    | nil => simp [AdjacentSorted]
    | cons b rest =>
      simp only [AdjacentSorted, List.chain'_cons]
      rw [ih]

theorem sortInner_append (comparer : α → α → Int) (item : α) :
    ∀ (A : List α) (h : α) (B : List α),
      sortInner comparer item A.length (A ++ h :: B)
        = (List.orderedInsert (revRel comparer) item A.reverse).reverse ++ B := by
  intro A
  induction A using List.reverseRecOn with
  | nil => intro h B; simp [sortInner]
  | append_singleton A x ih =>
    intro h B
    have hlen : (A ++ [x]).length = A.length + 1 := by simp
    rw [hlen, sortInner]
    have hget : (A ++ [x] ++ h :: B).get? A.length = some x := by
      rw [List.append_assoc, List.get?_eq_getElem?, List.getElem?_append_right (le_refl _)]
      simp
    rw [hget]
    simp only
    have hset : ∀ y, (A ++ [x] ++ h :: B).set (A.length + 1) y = A ++ x :: y :: B := by
      intro y
      rw [List.append_assoc, List.set_append_right _ _ (by simp)]
      simp
    rw [hset, hset]
    by_cases hc : comparer x item > 0
    · rw [if_pos hc, ih x (x :: B)]
      have : ¬ revRel comparer item x := by unfold revRel; omega
      simp [List.orderedInsert, this]
    · rw [if_neg hc]
      have : revRel comparer item x := by unfold revRel; omega
      simp [List.orderedInsert, this]

theorem foldl_sortStep (comparer : α → α → Int) :
    ∀ (rest P : List α),
      (List.range' P.length rest.length).foldl (sortStep comparer) (P ++ rest)
        = insertAll comparer P rest := by
  intro rest
  induction rest with
  | nil => intro P; simp [insertAll]
  | cons item rest ih =>
    intro P
    have hstep : sortStep comparer (P ++ item :: rest) P.length
        = (List.orderedInsert (revRel comparer) item P.reverse).reverse ++ rest := by
      unfold sortStep
      have hget : (P ++ item :: rest).get? P.length = some item := by
        rw [List.get?_eq_getElem?, List.getElem?_append_right (le_refl _)]
        simp
      rw [hget]
      exact sortInner_append comparer item P item rest
    have hlen : ((List.orderedInsert (revRel comparer) item P.reverse).reverse).length
        = P.length + 1 := by
      simp [List.orderedInsert_length]
    simp only [List.length_cons, List.range'_succ, List.foldl_cons]
    rw [hstep, ← hlen, ih]
    simp [insertAll]

theorem insertionSort_eq (comparer : α → α → Int) (arr : List α) :
    insertionSort comparer arr = insertAll comparer [] arr := by
  cases arr with
  | nil => simp [insertionSort, insertAll]
  | cons a rest =>
    have h := foldl_sortStep comparer rest [a]
    simp only [List.length_singleton, List.singleton_append] at h
    simp only [insertionSort, List.length_cons, Nat.add_sub_cancel]
    rw [h]
    simp [insertAll]

theorem foldl_orderedInsert_perm (comparer : α → α → Int) :
    ∀ (arr acc : List α),
      List.Perm (arr.foldl (fun acc x => List.orderedInsert (revRel comparer) x acc) acc)
        (arr ++ acc) := by
  intro arr
  induction arr with
  | nil => intro acc; simp
  | cons x rest ih =>
    intro acc
    simp only [List.foldl_cons, List.cons_append]
    refine (ih _).trans ?_
    refine (List.Perm.append_left rest (List.perm_orderedInsert _ x acc)).trans ?_
    exact List.perm_middle

theorem insertionSort_perm (comparer : α → α → Int) (arr : List α) :
    List.Perm (insertionSort comparer arr) arr := by
  rw [insertionSort_eq]
  unfold insertAll
  refine (List.reverse_perm _).trans ?_
  simpa using foldl_orderedInsert_perm comparer arr []

theorem foldl_orderedInsert_sorted (comparer : α → α → Int)
    (hc : IsConsistentTotalPreorder comparer) :
    ∀ (arr acc : List α), List.Pairwise (revRel comparer) acc →
      List.Pairwise (revRel comparer)
        (arr.foldl (fun acc x => List.orderedInsert (revRel comparer) x acc) acc) := by
  haveI : IsTotal α (revRel comparer) := ⟨fun a b => by
    unfold revRel
    by_cases h : comparer b a ≤ 0
    · exact Or.inl h
    · have := (hc.swap b a).mp (by omega)
      exact Or.inr (by omega)⟩
  haveI : IsTrans α (revRel comparer) := ⟨fun a b c hab hbc => hc.trans c b a hbc hab⟩
  intro arr
  induction arr with
  | nil => intro acc h; simpa using h
  | cons x rest ih =>
    intro acc h
    simp only [List.foldl_cons]
    exact ih _ (List.Sorted.orderedInsert x acc h)

theorem insertionSort_pairwise (comparer : α → α → Int)
    (hc : IsConsistentTotalPreorder comparer) (arr : List α) :
    List.Pairwise (fun a b => comparer a b ≤ 0) (insertionSort comparer arr) := by
  rw [insertionSort_eq]
  unfold insertAll
  rw [List.pairwise_reverse]
  exact foldl_orderedInsert_sorted comparer hc arr _ (by simp)

theorem ascending_int_consistent :
    IsConsistentTotalPreorder (ascending : Int → Int → Int) := by
  constructor
  · intro a b
    simp only [ascending, JsLess.lt, decide_eq_true_eq]
    split_ifs <;> omega
  · intro a b c
    simp only [ascending, JsLess.lt, decide_eq_true_eq]
    split_ifs <;> omega

/-- C1: for every array and every comparator that is a consistent total
preorder (the argument of `sort`, or the stored comparer when `sort` gets no
argument), after `sort` every adjacent pair `(a, b)` satisfies
`comparer(a, b) ≤ 0` under the now active comparer, which is that comparator,
and the array is marked safe. -/
theorem C1_sort_adjacent_sorted (s : SortedArray α) (compare : Option (α → α → Int))
    (hc : IsConsistentTotalPreorder (compare.getD s.comparer)) :
    AdjacentSorted (s.sort compare).comparer (s.sort compare).items
      ∧ (s.sort compare).comparer = compare.getD s.comparer
      ∧ (s.sort compare).UNSAFE = false := by
  refine ⟨?_, rfl, rfl⟩
  exact (adjacentSorted_iff_chain _ _).mpr (insertionSort_pairwise _ hc s.items).chain'

/-- An instance of the statement above: `sort ()` on the unsorted `[3, 1, 2]` with the default
comparer. -/
theorem C1_sort_adjacent_sorted_witness :
    AdjacentSorted (sort sampleUnsorted none).comparer (sort sampleUnsorted none).items
      ∧ (sort sampleUnsorted none).comparer = none.getD sampleUnsorted.comparer
      ∧ (sort sampleUnsorted none).UNSAFE = false :=
  C1_sort_adjacent_sorted sampleUnsorted none ascending_int_consistent

/-! ## The unsafe flag -/

theorem binarySearch_unsafe [JsStrictEq α] [JsLess α] (s : SortedArray α) (value : α)
    (strict : Bool) (hu : s.UNSAFE = true) :
    binarySearch s value strict = Except.error (UnsafeSortError.mk "lastIndexOf") := by
  simp [binarySearch, hu]

theorem binarySearch_safe [JsStrictEq α] [JsLess α] (s : SortedArray α) (value : α)
    (strict : Bool) (hs : s.UNSAFE = false) :
    ∃ i, binarySearch s value strict = Except.ok i := by
  simp [binarySearch, hs]

/-- C2: on an array whose unsafe flag is set, `lastIndexOf`, `indexOf`, `insert`
and `remove` each throw the `UnsafeSortError` and leave the array, contents and
flag, as it was; after `sort` (with or without a comparator) none of the four
throws. -/
theorem C2_unsafe_raises_until_sort [JsStrictEq α] [JsLess α] (s : SortedArray α)
    (value : α) (hu : s.UNSAFE = true) :
    (s.lastIndexOf value = (Except.error (UnsafeSortError.mk "lastIndexOf"), s)
      ∧ s.indexOf value = (Except.error (UnsafeSortError.mk "lastIndexOf"), s)
      ∧ s.insert value = (Except.error (UnsafeSortError.mk "lastIndexOf"), s)
      ∧ s.remove value = (Except.error (UnsafeSortError.mk "lastIndexOf"), s))
    ∧ ∀ compare : Option (α → α → Int),
        (∃ i, ((s.sort compare).lastIndexOf value).1 = Except.ok i)
      ∧ (∃ i, ((s.sort compare).indexOf value).1 = Except.ok i)
      ∧ (∃ i, ((s.sort compare).insert value).1 = Except.ok i)
      ∧ (∃ i, ((s.sort compare).remove value).1 = Except.ok i) := by
  have hb := fun strict => binarySearch_unsafe s value strict hu
  refine ⟨⟨?_, ?_, ?_, ?_⟩, ?_⟩
  · simp [lastIndexOf, hb]
  · simp [indexOf, lastIndexOf, hb]
  · simp [insert, hb]
  · simp [remove, lastIndexOf, hb]
  · intro compare
    have hs : (s.sort compare).UNSAFE = false := rfl
    refine ⟨?_, ?_, ?_, ?_⟩
    · obtain ⟨i, hi⟩ := binarySearch_safe (s.sort compare) value true hs
      exact ⟨i, by simp [lastIndexOf, hi]⟩
    · obtain ⟨i, hi⟩ := binarySearch_safe (s.sort compare) value true hs
      simp only [indexOf, lastIndexOf, hi]
      split_ifs <;> exact ⟨_, rfl⟩
    · obtain ⟨i, hi⟩ := binarySearch_safe (s.sort compare) value false hs
      exact ⟨i, by simp [insert, hi]⟩
    · obtain ⟨i, hi⟩ := binarySearch_safe (s.sort compare) value true hs
      simp only [remove, lastIndexOf, hi]
      split_ifs <;> exact ⟨_, rfl⟩

/-- An instance of the statement above: the four operations on the unsafe array `[3, 1, 2]`. -/
theorem C2_unsafe_raises_until_sort_witness :
    (sampleUnsorted.lastIndexOf 1
        = (Except.error (UnsafeSortError.mk "lastIndexOf"), sampleUnsorted)
      ∧ sampleUnsorted.indexOf 1
        = (Except.error (UnsafeSortError.mk "lastIndexOf"), sampleUnsorted)
      ∧ sampleUnsorted.insert 1
        = (Except.error (UnsafeSortError.mk "lastIndexOf"), sampleUnsorted)
      ∧ sampleUnsorted.remove 1
        = (Except.error (UnsafeSortError.mk "lastIndexOf"), sampleUnsorted))
    ∧ ∀ compare : Option (Int → Int → Int),
        (∃ i, ((sampleUnsorted.sort compare).lastIndexOf 1).1 = Except.ok i)
      ∧ (∃ i, ((sampleUnsorted.sort compare).indexOf 1).1 = Except.ok i)
      ∧ (∃ i, ((sampleUnsorted.sort compare).insert 1).1 = Except.ok i)
      ∧ (∃ i, ((sampleUnsorted.sort compare).remove 1).1 = Except.ok i) :=
  C2_unsafe_raises_until_sort sampleUnsorted 1 rfl

/-! ## Derived arrays -/

/-- C7: `filter` and `slice` return a new array with the comparer and the unsafe
flag of `this`; `map` and `concat` return a new array with the comparer of
`this` that is marked unsafe, whatever its elements are; the contents of the
new array are those of the host operation, and `this` is left as it was. -/
theorem C7_derived_arrays [JsLess α] (s : SortedArray α) :
    (∀ callback : α → Nat → Bool,
        (s.filter callback).1.comparer = s.comparer
      ∧ (s.filter callback).1.UNSAFE = s.UNSAFE
      ∧ (s.filter callback).1.items = arrayFilter s.items callback
      ∧ (s.filter callback).2 = s)
    ∧ (∀ start stop : Option Int,
        (s.slice start stop).1.comparer = s.comparer
      ∧ (s.slice start stop).1.UNSAFE = s.UNSAFE
      ∧ (s.slice start stop).1.items = arraySlice s.items start stop
      ∧ (s.slice start stop).2 = s)
    ∧ (∀ callback : α → Nat → α,
        (s.map callback).1.comparer = s.comparer
      ∧ (s.map callback).1.UNSAFE = true
      ∧ (s.map callback).1.items = arrayMap s.items callback
      ∧ (s.map callback).2 = s)
    ∧ (∀ arr : List α,
        (s.concat arr).1.comparer = s.comparer
      ∧ (s.concat arr).1.UNSAFE = true
      ∧ (s.concat arr).1.items = s.items ++ arr
      ∧ (s.concat arr).2 = s) := by
  refine ⟨?_, ?_, ?_, ?_⟩
  · intro callback
    refine ⟨rfl, rfl, ?_, rfl⟩
    simp [filter, copySortedArray, empty, sort, push, setComparer, insertionSort]
  · intro start stop
    refine ⟨rfl, rfl, ?_, rfl⟩
    simp [slice, copySortedArray, empty, sort, push, setComparer, insertionSort]
  · intro callback
    refine ⟨rfl, rfl, ?_, rfl⟩
    simp [map, copySortedArray, empty, sort, push, setComparer, insertionSort]
  · intro arr
    refine ⟨rfl, rfl, ?_, rfl⟩
    simp [concat, copySortedArray, empty, sort, push, setComparer, insertionSort]

/-! ## The binary search on arrays in numeric order -/

theorem inOrder_get (d : Bool) (arr : List Int) (h : InOrder d arr) :
    ∀ i j x y, i < j → arr.get? i = some x → arr.get? j = some y → NotAfter d x y := by
  intro i j x y hij hx hy
  rw [List.get?_eq_getElem?] at hx hy
  obtain ⟨hi, rfl⟩ := List.getElem?_eq_some_iff.mp hx
  obtain ⟨hj, rfl⟩ := List.getElem?_eq_some_iff.mp hy
  exact (List.pairwise_iff_getElem.mp h) i j hi hj hij

theorem binarySearchLoop_spec (arr : List Int) (value : Int) (d strict : Bool)
    (hsorted : InOrder d arr) :
    ∀ fuel min max, max - min ≤ fuel → min ≤ max → max ≤ arr.length →
      (∀ i x, i < min → arr.get? i = some x → Before d x value) →
      (∀ i x, max ≤ i → arr.get? i = some x → Before d value x) →
      LoopResult arr value d strict (binarySearchLoop arr value d strict fuel min max) := by
  have hget := inOrder_get d arr hsorted
  have hexit : ∀ min max, min ≤ max → max ≤ arr.length → ¬ min < max →
      (∀ i x, i < min → arr.get? i = some x → Before d x value) →
      (∀ i x, max ≤ i → arr.get? i = some x → Before d value x) →
      LoopResult arr value d strict (if strict then -1 else (min : Int)) := by
    intro min max hmm hml hlt hlo hhi
    have hmin : min = max := by omega
    subst hmin
    right
    refine ⟨?_, ?_⟩
    · intro x hx
      obtain ⟨i, hi, rfl⟩ := List.getElem_of_mem hx
      have hgi : arr.get? i = some arr[i] := by
        rw [List.get?_eq_getElem?]; exact List.getElem?_eq_getElem hi
      by_cases h : i < min
      · have := hlo i _ h hgi
        intro heq; rw [heq] at this
        cases d <;> simp [Before] at this
      · have := hhi i _ (by omega) hgi
        intro heq; rw [heq] at this
        cases d <;> simp [Before] at this
    · cases strict
      · simp only [Bool.false_eq_true, if_false]
        exact ⟨min, rfl, hml, hlo, hhi⟩
      · simp
  intro fuel
  induction fuel with
  | zero =>
    intro min max hf hmm hml hlo hhi
    simp only [binarySearchLoop]
    exact hexit min max hmm hml (by omega) hlo hhi
  | succ fuel ih =>
    intro min max hf hmm hml hlo hhi
    simp only [binarySearchLoop]
    by_cases hlt : min < max
    · rw [if_pos hlt]
      have hmid1 : min ≤ (min + max) / 2 := by omega
      have hmid2 : (min + max) / 2 < max := by omega
      have hmidlen : (min + max) / 2 < arr.length := by omega
      have hgm : arr.get? ((min + max) / 2) = some arr[(min + max) / 2] := by
        rw [List.get?_eq_getElem?]; exact List.getElem?_eq_getElem hmidlen
      rw [hgm]
      simp only
      have hstrict : JsStrictEq.eq arr[(min + max) / 2] value
          = decide (arr[(min + max) / 2] = value) := rfl
      rw [hstrict]
      simp only [decide_eq_true_eq]
      by_cases heq : arr[(min + max) / 2] = value
      · rw [if_pos heq]
        left
        exact ⟨(min + max) / 2, rfl, by rw [hgm, heq]⟩
      · rw [if_neg heq]
        by_cases hgo : (if d then JsLess.lt value arr[(min + max) / 2]
            else JsLess.lt arr[(min + max) / 2] value) = true
        · rw [if_pos hgo]
          have hb : Before d arr[(min + max) / 2] value := by
            cases d <;> simpa [Before, JsLess.lt] using hgo
          apply ih (((min + max) / 2) + 1) max (by omega) (by omega) hml _ hhi
          intro i x hi hx
          by_cases him : i = (min + max) / 2
          · subst him
            rw [hgm] at hx
            cases hx
            exact hb
          · have := hget i ((min + max) / 2) x _ (by omega) hx hgm
            revert this hb
            cases d <;> simp [Before, NotAfter] <;> omega
        · rw [if_neg hgo]
          have hb : Before d value arr[(min + max) / 2] := by
            revert hgo
            cases d <;> simp [Before, JsLess.lt] <;> omega
          apply ih min ((min + max) / 2) (by omega) (by omega) (by omega) hlo
          intro i x hi hx
          by_cases him : i = (min + max) / 2
          · subst him
            rw [hgm] at hx
            cases hx
            exact hb
          · have := hget ((min + max) / 2) i _ x (by omega) hgm hx
            revert this hb
            cases d <;> simp [Before, NotAfter] <;> omega
    · rw [if_neg hlt]
      exact hexit min max hmm hml hlt hlo hhi

theorem binarySearch_eq (s : SortedArray Int) (value : Int) (strict : Bool)
    (hs : s.UNSAFE = false) :
    binarySearch s value strict
      = Except.ok (binarySearchLoop s.items value (detectDescending s.items) strict
          s.items.length 0 s.items.length) := by
  unfold binarySearch detectDescending
  rw [if_neg (by simp [hs])]
  simp only [Nat.sub_zero]
  congr 2
  cases s.items.get? 0 <;> cases s.items.get? (s.items.length - 1) <;> rfl

theorem inOrder_detect (d : Bool) (arr : List Int) (h : InOrder d arr) :
    InOrder (detectDescending arr) arr := by
  cases arr with
  | nil => exact List.Pairwise.nil
  | cons a rest =>
    have hget := inOrder_get d (a :: rest) h
    obtain ⟨last, hlast⟩ : ∃ last, (a :: rest).get? ((a :: rest).length - 1) = some last := by
      refine ⟨(a :: rest).get ⟨(a :: rest).length - 1, by simp⟩, ?_⟩
      rw [List.get?_eq_getElem?]
      exact List.getElem?_eq_getElem _
    have hfirst : (a :: rest).get? 0 = some a := rfl
    have hdet : detectDescending (a :: rest) = decide (last < a) := by
      unfold detectDescending
      rw [hlast, hfirst]
      rfl
    by_cases hd : detectDescending (a :: rest) = d
    · rw [hd]; exact h
    · -- the direction found differs from the actual one
      have hfl : NotAfter d a last := by
        by_cases hr : rest = []
        · subst hr
          have hl : last = a := by
            simp at hlast
            exact hlast.symm
          subst hl
          cases d <;> simp [NotAfter]
        · have : 0 < (a :: rest).length - 1 := by
            cases rest with
            | nil => exact absurd rfl hr
            | cons _ _ => simp
          exact hget 0 _ a last this hfirst hlast
      cases d with
      | false =>
        -- ascending, yet last < first
        exfalso
        apply hd
        rw [hdet]
        simp [NotAfter] at hfl
        simpa using hfl
      | true =>
        have hdf : detectDescending (a :: rest) = false := by
          cases hdd : detectDescending (a :: rest) with
          | false => rfl
          | true => exact absurd hdd hd
        rw [hdf]
        have hle : a ≤ last := by
          rw [hdet] at hdf
          simpa using hdf
        have hge : last ≤ a := by simpa [NotAfter] using hfl
        -- every element lies between the last and the first, which are equal
        have hall : ∀ x ∈ (a :: rest), x = a := by
          intro x hx
          obtain ⟨i, hi, rfl⟩ := List.getElem_of_mem hx
          have hgi : (a :: rest).get? i = some (a :: rest)[i] := by
            rw [List.get?_eq_getElem?]; exact List.getElem?_eq_getElem hi
          have h1 : (a :: rest)[i] ≤ a := by
            by_cases h0 : i = 0
            · subst h0; simp
            · have := hget 0 i a _ (by omega) hfirst hgi
              simpa [NotAfter] using this
          have h2 : last ≤ (a :: rest)[i] := by
            by_cases h0 : i = (a :: rest).length - 1
            · subst h0
              rw [hgi] at hlast
              cases hlast
              exact le_refl _
            · have := hget i ((a :: rest).length - 1) _ last (by omega) hgi hlast
              simpa [NotAfter] using this
          omega
        unfold InOrder
        rw [List.pairwise_iff_forall_sublist]
        intro x y hxy
        have hx := hall x (hxy.subset (by simp))
        have hy := hall y (hxy.subset (by simp))
        simp [NotAfter, hx, hy]

theorem binarySearch_spec (s : SortedArray Int) (value : Int) (strict d : Bool)
    (hs : s.UNSAFE = false) (ho : InOrder d s.items) :
    ∃ r, binarySearch s value strict = Except.ok r
      ∧ LoopResult s.items value (detectDescending s.items) strict r := by
  refine ⟨_, binarySearch_eq s value strict hs, ?_⟩
  apply binarySearchLoop_spec s.items value _ strict (inOrder_detect d s.items ho)
    s.items.length 0 s.items.length (by omega) (by omega) (le_refl _)
  · intro i x hi; omega
  · intro i x hi hx
    rw [List.get?_eq_getElem?] at hx
    obtain ⟨hi', _⟩ := List.getElem?_eq_some_iff.mp hx
    omega

theorem stepLeft_spec (arr : List Int) (value : Int) :
    ∀ k, arr.get? k = some value →
      arr.get? (stepLeft arr value k) = some value
      ∧ stepLeft arr value k ≤ k
      ∧ (stepLeft arr value k = 0
          ∨ arr.get? (stepLeft arr value k - 1) ≠ some value) := by
  intro k
  induction k with
  | zero => intro h; exact ⟨h, le_refl _, Or.inl rfl⟩
  | succ k ih =>
    intro h
    have hstep : stepLeft arr value (k + 1)
        = if arr.get? k = some value then stepLeft arr value k else k + 1 := by
      simp only [stepLeft]
      cases hprev : arr.get? k with
      | none => simp
      | some previous =>
        have hstrict : JsStrictEq.eq previous value = decide (previous = value) := rfl
        simp [hstrict]
    rw [hstep]
    by_cases hk : arr.get? k = some value
    · rw [if_pos hk]
      obtain ⟨h1, h2, h3⟩ := ih hk
      exact ⟨h1, by omega, h3⟩
    · rw [if_neg hk]
      exact ⟨h, le_refl _, Or.inr (by simpa using hk)⟩

theorem adjacentSorted_ascending_inOrder (arr : List Int)
    (h : AdjacentSorted ascending arr) : InOrder false arr := by
  rw [adjacentSorted_iff_chain] at h
  unfold InOrder
  have h2 : List.Chain' (fun a b : Int => a ≤ b) arr := by
    refine List.Chain'.imp ?_ h
    intro a b hab
    simp only [ascending, JsLess.lt, decide_eq_true_eq] at hab
    split_ifs at hab <;> omega
  have h3 := List.chain'_iff_pairwise.mp h2
  refine List.Pairwise.imp ?_ h3
  intro a b hab
  simpa [NotAfter] using hab

/-- On a safe array of integers sorted ascending by the default comparer,
`indexOf (value)` returns the smallest index whose element is the value when
the value is present, and `-1` when it is absent; the array is left as it
was. -/
theorem indexOf_first_int (s : SortedArray Int) (value : Int) (hs : s.UNSAFE = false)
    (hc : s.comparer = ascending) (hsorted : AdjacentSorted s.comparer s.items) :
    (value ∈ s.items →
        ∃ k : Nat, (s.indexOf value).1 = Except.ok (k : Int)
          ∧ s.items.get? k = some value
          ∧ ∀ i, i < k → s.items.get? i ≠ some value)
    ∧ (value ∉ s.items → (s.indexOf value).1 = Except.ok (-1))
    ∧ (s.indexOf value).2 = s := by
  rw [hc] at hsorted
  have ho := adjacentSorted_ascending_inOrder s.items hsorted
  obtain ⟨r, hr, hres⟩ := binarySearch_spec s value true false hs ho
  have hidx : s.indexOf value
      = if r < 0 then (Except.ok r, s)
        else (Except.ok ((stepLeft s.items value r.toNat : Nat) : Int), s) := by
    simp [indexOf, lastIndexOf, hr]
  rcases hres with ⟨k, hk, hget⟩ | ⟨hno, hm⟩
  · -- the search found the value at `k`
    subst hk
    have hidx2 : s.indexOf value
        = (Except.ok ((stepLeft s.items value k : Nat) : Int), s) := by
      rw [hidx, if_neg (by omega)]
      simp
    obtain ⟨h1, h2, h3⟩ := stepLeft_spec s.items value k hget
    refine ⟨?_, ?_, by rw [hidx2]⟩
    · intro _
      refine ⟨stepLeft s.items value k, by rw [hidx2], h1, ?_⟩
      intro i hi heq
      rcases h3 with h0 | hne
      · omega
      · obtain ⟨y, hy⟩ : ∃ y, s.items.get? (stepLeft s.items value k - 1) = some y := by
          have hlt : stepLeft s.items value k - 1 < s.items.length := by
            rw [List.get?_eq_getElem?] at h1
            obtain ⟨hl, _⟩ := List.getElem?_eq_some_iff.mp h1
            omega
          exact ⟨_, by rw [List.get?_eq_getElem?]; exact List.getElem?_eq_getElem hlt⟩
        have hyv : y ≠ value := by
          intro e; rw [e] at hy; exact hne hy
        have hget2 := inOrder_get false s.items ho
        have hle1 : y ≤ value := by
          have := hget2 (stepLeft s.items value k - 1) (stepLeft s.items value k) y value
            (by omega) hy h1
          simpa [NotAfter] using this
        by_cases hi2 : i = stepLeft s.items value k - 1
        · subst hi2
          rw [hy] at heq
          cases heq
          exact hyv rfl
        · have := hget2 i (stepLeft s.items value k - 1) value y (by omega) heq hy
          simp [NotAfter] at this
          omega
    · intro hnot
      exfalso
      apply hnot
      rw [List.get?_eq_getElem?] at hget
      exact List.getElem?_mem hget
  · simp only [if_true] at hm
    subst hm
    refine ⟨?_, ?_, by rw [hidx]; simp⟩
    · intro hmem
      exact absurd rfl (hno value hmem)
    · intro _
      rw [hidx]
      simp

theorem arraySplice_insert {α : Type} (arr : List α) (k : Nat) (v : α) (hk : k ≤ arr.length) :
    arraySplice arr (k : Int) 0 [v] = arr.take k ++ v :: arr.drop k := by
  unfold arraySplice
  have h1 : ¬ ((k : Int) < 0) := by omega
  simp only [h1, if_false]
  have h2 : min (k : Int) (arr.length : Int) = k := by omega
  rw [h2]
  have h3 : min (max (0 : Int) 0) ((arr.length : Int) - k) = 0 := by omega
  rw [h3]
  simp

theorem arraySplice_remove {α : Type} (arr : List α) (j : Nat) (hj : j < arr.length) :
    arraySplice arr (j : Int) 1 [] = arr.take j ++ arr.drop (j + 1) := by
  unfold arraySplice
  have h1 : ¬ ((j : Int) < 0) := by omega
  simp only [h1, if_false]
  have h2 : min (j : Int) (arr.length : Int) = j := by omega
  rw [h2]
  have h3 : min (max (1 : Int) 0) ((arr.length : Int) - j) = 1 := by omega
  rw [h3]
  simp

/-- The index that a search without `STRICT` returns splits an array in numeric
order around the value. -/
theorem search_split (arr : List Int) (value : Int) (d : Bool) (ho : InOrder d arr) (r : Int)
    (hres : LoopResult arr value d false r) :
    ∃ k : Nat, r = k ∧ k ≤ arr.length
      ∧ (∀ x ∈ arr.take k, NotAfter d x value)
      ∧ (∀ x ∈ arr.drop k, NotAfter d value x) := by
  have hget := inOrder_get d arr ho
  rcases hres with ⟨k, hk, hgk⟩ | ⟨_, hm⟩
  · have hklen : k < arr.length := by
      rw [List.get?_eq_getElem?] at hgk
      exact (List.getElem?_eq_some_iff.mp hgk).1
    refine ⟨k, hk, by omega, ?_, ?_⟩
    · intro x hx
      obtain ⟨i, hi⟩ := List.mem_iff_getElem?.mp hx
      rw [List.getElem?_take] at hi
      split_ifs at hi with hik
      exact hget i k x value hik (by rw [List.get?_eq_getElem?]; exact hi) hgk
    · intro x hx
      obtain ⟨i, hi⟩ := List.mem_iff_getElem?.mp hx
      rw [List.getElem?_drop] at hi
      by_cases h0 : i = 0
      · subst h0
        rw [List.get?_eq_getElem?] at hgk
        simp only [Nat.add_zero] at hi
        rw [hgk] at hi
        cases hi
        cases d <;> simp [NotAfter]
      · exact hget k (k + i) value x (by omega) hgk (by rw [List.get?_eq_getElem?]; exact hi)
  · simp only [Bool.false_eq_true, if_false] at hm
    obtain ⟨k, hk, hkl, hlo, hhi⟩ := hm
    refine ⟨k, hk, hkl, ?_, ?_⟩
    · intro x hx
      obtain ⟨i, hi⟩ := List.mem_iff_getElem?.mp hx
      rw [List.getElem?_take] at hi
      split_ifs at hi with hik
      have := hlo i x hik (by rw [List.get?_eq_getElem?]; exact hi)
      revert this
      cases d <;> simp [Before, NotAfter] <;> omega
    · intro x hx
      obtain ⟨i, hi⟩ := List.mem_iff_getElem?.mp hx
      rw [List.getElem?_drop] at hi
      have := hhi (k + i) x (by omega) (by rw [List.get?_eq_getElem?]; exact hi)
      revert this
      cases d <;> simp [Before, NotAfter] <;> omega

theorem inOrder_insert_at (arr : List Int) (value : Int) (d : Bool) (ho : InOrder d arr)
    (k : Nat) (hlo : ∀ x ∈ arr.take k, NotAfter d x value)
    (hhi : ∀ x ∈ arr.drop k, NotAfter d value x) :
    InOrder d (arr.take k ++ value :: arr.drop k) := by
  unfold InOrder at *
  have hsplit : List.Pairwise (NotAfter d) (arr.take k ++ arr.drop k) := by
    rw [List.take_append_drop]; exact ho
  rw [List.pairwise_append] at hsplit ⊢
  obtain ⟨h1, h2, h3⟩ := hsplit
  refine ⟨h1, List.pairwise_cons.mpr ⟨hhi, h2⟩, ?_⟩
  intro x hx y hy
  rcases List.mem_cons.mp hy with rfl | hy
  · exact hlo x hx
  · exact h3 x hx y hy

theorem eq_of_erase_inserted (arr l : List Int) (value : Int) (d : Bool) (k j : Nat)
    (ho : InOrder d arr) (hl : l = arr.take k ++ value :: arr.drop k)
    (ho1 : InOrder d l) (hgj : l.get? j = some value) :
    l.take j ++ l.drop (j + 1) = arr := by
  haveI : IsAntisymm Int (NotAfter d) := ⟨fun a b hab hba => by
    revert hab hba
    cases d <;> simp [NotAfter] <;> omega⟩
  have hjl : j < l.length := by
    rw [List.get?_eq_getElem?] at hgj
    exact (List.getElem?_eq_some_iff.mp hgj).1
  have hlj : l = l.take j ++ value :: l.drop (j + 1) := by
    rw [List.get?_eq_getElem?] at hgj
    have hv : l[j] = value := (List.getElem?_eq_some_iff.mp hgj).2
    rw [← hv, List.getElem_cons_drop l j hjl, List.take_append_drop]
  have hp1 : List.Perm l (value :: arr) := by
    rw [hl]
    refine List.perm_middle.trans ?_
    rw [List.take_append_drop]
  have hp2 : List.Perm l (value :: (l.take j ++ l.drop (j + 1))) := by
    conv_lhs => rw [hlj]
    exact List.perm_middle
  have hp : List.Perm (l.take j ++ l.drop (j + 1)) arr :=
    (List.Perm.cons_inv (hp2.symm.trans hp1))
  have hsub : List.Sublist (l.take j ++ l.drop (j + 1)) l := by
    conv_rhs => rw [← List.take_append_drop j l]
    exact List.Sublist.append (List.Sublist.refl _) (List.drop_sublist_drop_left l (by omega))
  exact List.eq_of_perm_of_sorted hp (List.Pairwise.sublist hsub ho1) ho

/-- On a safe array of integers in numeric order, non-decreasing or
non-increasing, `insert (value)` followed by `remove (value)` gives back the
array, element for element and with its comparer and flag, and `remove`
returns an index that is not negative. -/
theorem insert_remove_roundtrip_int (s : SortedArray Int) (value : Int) (d : Bool)
    (hs : s.UNSAFE = false) (ho : InOrder d s.items) :
    ∃ i j : Nat, (s.insert value).1 = Except.ok (i : Int)
      ∧ ((s.insert value).2.remove value).1 = Except.ok (j : Int)
      ∧ ((s.insert value).2.remove value).2 = s := by
  have ho' := inOrder_detect d s.items ho
  obtain ⟨r, hr, hres⟩ := binarySearch_spec s value false d hs ho
  obtain ⟨k, hk, hkl, hlo, hhi⟩ := search_split s.items value _ ho' r hres
  subst hk
  have hins : s.insert value
      = (Except.ok (k : Int),
          { s with items := s.items.take k ++ value :: s.items.drop k }) := by
    simp [insert, hr, arraySplice_insert s.items k value hkl]
  have ho1 : InOrder (detectDescending s.items) (s.items.take k ++ value :: s.items.drop k) :=
    inOrder_insert_at s.items value _ ho' k hlo hhi
  obtain ⟨r2, hr2, hres2⟩ := binarySearch_spec
    { s with items := s.items.take k ++ value :: s.items.drop k } value true _ hs ho1
  rcases hres2 with ⟨j, hj, hgj⟩ | ⟨hno, _⟩
  · subst hj
    have hjl : j < (s.items.take k ++ value :: s.items.drop k).length := by
      rw [List.get?_eq_getElem?] at hgj
      exact (List.getElem?_eq_some_iff.mp hgj).1
    have heq := eq_of_erase_inserted s.items _ value _ k j ho' rfl ho1 hgj
    refine ⟨k, j, by rw [hins], ?_, ?_⟩
    · rw [hins]
      simp only [remove, lastIndexOf, hr2]
      rw [if_pos (by omega)]
    · rw [hins]
      simp only [remove, lastIndexOf, hr2]
      rw [if_pos (by omega)]
      simp only
      rw [arraySplice_remove _ j hjl, heq]
  · exact absurd rfl (hno value (by simp))

/-! ## Arrays of numbers, which can hold `NaN` -/

theorem strictEq_num (a b : Int) :
    JsStrictEq.eq (JsNumber.num a) (JsNumber.num b) = JsStrictEq.eq a b := rfl

theorem less_num (a b : Int) :
    JsLess.lt (JsNumber.num a) (JsNumber.num b) = JsLess.lt a b := rfl

theorem strictEq_nan (x : JsNumber) : JsStrictEq.eq x JsNumber.nan = false := by
  cases x <;> rfl

theorem less_nan_right (x : JsNumber) : JsLess.lt x JsNumber.nan = false := by
  cases x <;> rfl

theorem less_nan_left (x : JsNumber) : JsLess.lt JsNumber.nan x = false := by
  cases x <;> rfl

theorem exists_ints (arr : List JsNumber) (h : ∀ x ∈ arr, x ≠ JsNumber.nan) :
    ∃ ints : List Int, arr = ints.map JsNumber.num := by
  induction arr with
  | nil => exact ⟨[], rfl⟩
  | cons a rest ih =>
    obtain ⟨ints, hints⟩ := ih (fun x hx => h x (List.mem_cons_of_mem _ hx))
    cases a with
    | nan => exact absurd rfl (h JsNumber.nan (by simp))
    | num n => exact ⟨n :: ints, by rw [hints]; rfl⟩

theorem binarySearchLoop_num (ints : List Int) (value : Int) (d strict : Bool) :
    ∀ fuel min max,
      binarySearchLoop (ints.map JsNumber.num) (JsNumber.num value) d strict fuel min max
        = binarySearchLoop ints value d strict fuel min max := by
  intro fuel
  induction fuel with
  | zero => intro min max; simp only [binarySearchLoop]
  | succ fuel ih =>
    intro min max
    simp only [binarySearchLoop]
    by_cases hlt : min < max
    · rw [if_pos hlt, if_pos hlt]
      have hget : (ints.map JsNumber.num).get? ((min + max) / 2)
          = (ints.get? ((min + max) / 2)).map JsNumber.num := by
        simp [List.get?_eq_getElem?]
      rw [hget]
      cases ints.get? ((min + max) / 2) with
      | none => simp only [Option.map_none']; exact ih _ _
      | some x =>
        simp only [Option.map_some', strictEq_num, less_num, ih]
    · rw [if_neg hlt, if_neg hlt]

theorem binarySearch_num (ints : SortedArray Int) (comparer : JsNumber → JsNumber → Int)
    (value : Int) (strict : Bool) :
    binarySearch (ofInts ints comparer) (JsNumber.num value) strict
      = binarySearch ints value strict := by
  unfold binarySearch
  have hu : (ofInts ints comparer).UNSAFE = ints.UNSAFE := rfl
  have hi : (ofInts ints comparer).items = ints.items.map JsNumber.num := rfl
  rw [hu, hi]
  by_cases h : ints.UNSAFE = true
  · rw [if_pos h, if_pos h]
  · rw [if_neg h, if_neg h]
    simp only [List.length_map, Nat.sub_zero]
    have hget : ∀ i, (ints.items.map JsNumber.num).get? i
        = (ints.items.get? i).map JsNumber.num := by
      intro i; simp [List.get?_eq_getElem?]
    rw [hget, hget, binarySearchLoop_num]
    congr 2
    cases ints.items.get? 0 <;> cases ints.items.get? (ints.items.length - 1) <;> rfl

theorem stepLeft_num (ints : List Int) (value : Int) :
    ∀ k, stepLeft (ints.map JsNumber.num) (JsNumber.num value) k = stepLeft ints value k := by
  intro k
  induction k with
  | zero => rfl
  | succ k ih =>
    simp only [stepLeft]
    have hget : (ints.map JsNumber.num).get? k = (ints.get? k).map JsNumber.num := by
      simp [List.get?_eq_getElem?]
    rw [hget]
    cases ints.get? k with
    | none => rfl
    | some x => simp only [Option.map_some', strictEq_num, ih]

theorem arraySplice_map {α β : Type} (f : α → β) (arr : List α) (start deleteCount : Int)
    (toInsert : List α) :
    arraySplice (arr.map f) start deleteCount (toInsert.map f)
      = (arraySplice arr start deleteCount toInsert).map f := by
  simp [arraySplice, List.map_take, List.map_drop]

theorem indexOf_num (ints : SortedArray Int) (comparer : JsNumber → JsNumber → Int)
    (value : Int) :
    (ofInts ints comparer).indexOf (JsNumber.num value)
      = ((ints.indexOf value).1, ofInts (ints.indexOf value).2 comparer) := by
  simp only [indexOf, lastIndexOf, binarySearch_num]
  cases binarySearch ints value true with
  | error e => rfl
  | ok index =>
    simp only
    by_cases h : index < 0
    · rw [if_pos h, if_pos h]
    · rw [if_neg h, if_neg h]
      simp only [ofInts, stepLeft_num]

theorem insert_num (ints : SortedArray Int) (comparer : JsNumber → JsNumber → Int)
    (value : Int) :
    (ofInts ints comparer).insert (JsNumber.num value)
      = ((ints.insert value).1, ofInts (ints.insert value).2 comparer) := by
  simp only [insert, binarySearch_num]
  cases binarySearch ints value false with
  | error e => rfl
  | ok index =>
    simp only [ofInts]
    rw [← arraySplice_map]
    rfl

theorem remove_num (ints : SortedArray Int) (comparer : JsNumber → JsNumber → Int)
    (value : Int) :
    (ofInts ints comparer).remove (JsNumber.num value)
      = ((ints.remove value).1, ofInts (ints.remove value).2 comparer) := by
  simp only [remove, lastIndexOf, binarySearch_num]
  cases binarySearch ints value true with
  | error e => rfl
  | ok index =>
    simp only
    by_cases h : index > -1
    · rw [if_pos h, if_pos h]
      simp only [ofInts]
      rw [← arraySplice_map]
      rfl
    · rw [if_neg h, if_neg h]

theorem holdsAt_num (ints : List Int) (i : Nat) (value : Int) :
    HoldsAt (ints.map JsNumber.num) i (JsNumber.num value) ↔ ints.get? i = some value := by
  unfold HoldsAt
  have hget : (ints.map JsNumber.num).get? i = (ints.get? i).map JsNumber.num := by
    simp [List.get?_eq_getElem?]
  rw [hget]
  cases ints.get? i with
  | none => simp
  | some x =>
    have hstrict : JsStrictEq.eq (JsNumber.num x) (JsNumber.num value) = decide (x = value) := rfl
    simp [hstrict]

theorem holdsAt_nan (arr : List JsNumber) (i : Nat) : ¬ HoldsAt arr i JsNumber.nan := by
  rintro ⟨x, _, hx⟩
  rw [strictEq_nan] at hx
  cases hx

theorem adjacentSorted_num (ints : List Int) :
    AdjacentSorted ascending (ints.map JsNumber.num) ↔ AdjacentSorted ascending ints := by
  induction ints with
  | nil => exact Iff.rfl
  | cons a rest ih =>
    cases rest with
    | nil => exact Iff.rfl
    | cons b rest =>
      simp only [List.map_cons, AdjacentSorted] at ih ⊢
      rw [ih]
      exact Iff.rfl

theorem numbersInOrder_num (d : Bool) (ints : List Int) :
    NumbersInOrder d (ints.map JsNumber.num) ↔ InOrder d ints := by
  unfold NumbersInOrder InOrder
  rw [List.pairwise_map]
  exact Iff.rfl

theorem binarySearchLoop_nan (arr : List JsNumber) (d : Bool) :
    ∀ fuel min max, binarySearchLoop arr JsNumber.nan d true fuel min max = -1 := by
  intro fuel
  induction fuel with
  | zero => intro min max; simp [binarySearchLoop]
  | succ fuel ih =>
    intro min max
    simp only [binarySearchLoop]
    by_cases hlt : min < max
    · rw [if_pos hlt]
      cases arr.get? ((min + max) / 2) with
      | none => exact ih _ _
      | some x =>
        simp only [strictEq_nan, less_nan_left, less_nan_right, Bool.false_eq_true, if_false,
          ite_self]
        exact ih _ _
    · rw [if_neg hlt]
      simp

theorem indexOf_nan (s : SortedArray JsNumber) (hs : s.UNSAFE = false) :
    s.indexOf JsNumber.nan = (Except.ok (-1), s) := by
  simp [indexOf, lastIndexOf, binarySearch, hs, binarySearchLoop_nan]

theorem eq_ofInts (s : SortedArray JsNumber) (ints : List Int)
    (h : s.items = ints.map JsNumber.num) :
    s = ofInts { items := ints, comparer := ascending, UNSAFE := s.UNSAFE } s.comparer := by
  cases s with
  | mk items comparer flag =>
    have h2 : items = ints.map JsNumber.num := h
    subst h2
    rfl

/-- C4, as amended: on a safe array of numbers, none of them `NaN`, sorted
ascending by the default comparer, `indexOf (value)` for a number `value`
returns the smallest index whose element is strictly equal to the value when
there is such an element, and `-1` when there is none, as for the value `NaN`;
the array is left as it was. -/
theorem C4_indexOf_first (s : SortedArray JsNumber) (value : JsNumber) (hs : s.UNSAFE = false)
    (hc : s.comparer = ascending) (hsorted : AdjacentSorted s.comparer s.items)
    (hnan : ∀ x ∈ s.items, x ≠ JsNumber.nan) :
    ((∃ i, HoldsAt s.items i value) →
        ∃ k : Nat, (s.indexOf value).1 = Except.ok (k : Int)
          ∧ HoldsAt s.items k value
          ∧ ∀ i, i < k → ¬ HoldsAt s.items i value)
    ∧ ((¬ ∃ i, HoldsAt s.items i value) → (s.indexOf value).1 = Except.ok (-1))
    ∧ (s.indexOf value).2 = s := by
  cases value with
  | nan =>
    rw [indexOf_nan s hs]
    refine ⟨?_, fun _ => rfl, rfl⟩
    rintro ⟨i, hi⟩
    exact absurd hi (holdsAt_nan _ _)
  | num v =>
    obtain ⟨ints, hints⟩ := exists_ints s.items hnan
    have hs2 := eq_ofInts s ints hints
    rw [hc, hints, adjacentSorted_num] at hsorted
    obtain ⟨h1, h2, h3⟩ := indexOf_first_int
      { items := ints, comparer := ascending, UNSAFE := s.UNSAFE } v hs rfl hsorted
    have hidx := indexOf_num { items := ints, comparer := ascending, UNSAFE := s.UNSAFE }
      s.comparer v
    rw [← hs2] at hidx
    have hmem : (∃ i, HoldsAt s.items i (JsNumber.num v)) ↔ v ∈ ints := by
      rw [hints]
      simp only [holdsAt_num]
      rw [List.mem_iff_get?]
    refine ⟨?_, ?_, ?_⟩
    · intro hex
      obtain ⟨k, hk1, hk2, hk3⟩ := h1 (hmem.mp hex)
      refine ⟨k, by rw [hidx]; exact hk1, ?_, ?_⟩
      · rw [hints, holdsAt_num]; exact hk2
      · intro i hi
        rw [hints, holdsAt_num]
        exact hk3 i hi
    · intro hno
      rw [hidx]
      exact h2 (fun hm => hno (hmem.mpr hm))
    · rw [hidx]
      simp only
      rw [h3]
      exact hs2.symm

/-- An instance of the statement above: `indexOf (2)` on the safe array `[1, 2, 2, 3]`. -/
theorem C4_indexOf_first_witness :
    ((∃ i, HoldsAt sampleNumbers.items i (JsNumber.num 2)) →
        ∃ k : Nat, (sampleNumbers.indexOf (JsNumber.num 2)).1 = Except.ok (k : Int)
          ∧ HoldsAt sampleNumbers.items k (JsNumber.num 2)
          ∧ ∀ i, i < k → ¬ HoldsAt sampleNumbers.items i (JsNumber.num 2))
    ∧ ((¬ ∃ i, HoldsAt sampleNumbers.items i (JsNumber.num 2)) →
        (sampleNumbers.indexOf (JsNumber.num 2)).1 = Except.ok (-1))
    ∧ (sampleNumbers.indexOf (JsNumber.num 2)).2 = sampleNumbers :=
  C4_indexOf_first sampleNumbers (JsNumber.num 2) rfl rfl (by decide) (by decide)

/-- C4, as stated, fails: the safe array `[1, NaN, 0]` has the default comparer,
and each of its adjacent pairs has `ascending (a, b) = 0`, so it satisfies the
sortedness invariant; the value 0 is at the index 2, and `indexOf (0)` returns
`-1`. -/
theorem C4_indexOf_misses_beside_NaN :
    sampleWithNaN.UNSAFE = false
      ∧ sampleWithNaN.comparer = ascending
      ∧ AdjacentSorted sampleWithNaN.comparer sampleWithNaN.items
      ∧ HoldsAt sampleWithNaN.items 2 (JsNumber.num 0)
      ∧ (sampleWithNaN.indexOf (JsNumber.num 0)).1 = Except.ok (-1) := by
  refine ⟨rfl, rfl, by decide, ⟨JsNumber.num 0, rfl, rfl⟩, by decide⟩

/-- C6, as amended: on a safe array of numbers, none of them `NaN`, in numeric
order, non-decreasing or non-increasing, `insert (value)` followed by
`remove (value)` for a number `value` other than `NaN` gives back the array,
element for element and with its comparer and flag, and `remove` returns an
index that is not negative. -/
theorem C6_insert_remove_roundtrip (s : SortedArray JsNumber) (value : JsNumber) (d : Bool)
    (hs : s.UNSAFE = false) (hnan : ∀ x ∈ s.items, x ≠ JsNumber.nan)
    (ho : NumbersInOrder d s.items) (hvalue : value ≠ JsNumber.nan) :
    ∃ i j : Nat, (s.insert value).1 = Except.ok (i : Int)
      ∧ ((s.insert value).2.remove value).1 = Except.ok (j : Int)
      ∧ ((s.insert value).2.remove value).2 = s := by
  cases value with
  | nan => exact absurd rfl hvalue
  | num v =>
    obtain ⟨ints, hints⟩ := exists_ints s.items hnan
    have hs2 := eq_ofInts s ints hints
    rw [hints, numbersInOrder_num] at ho
    obtain ⟨i, j, h1, h2, h3⟩ := insert_remove_roundtrip_int
      { items := ints, comparer := ascending, UNSAFE := s.UNSAFE } v d hs ho
    refine ⟨i, j, ?_, ?_, ?_⟩
    · rw [hs2, insert_num]; exact h1
    · rw [hs2, insert_num]
      simp only
      rw [remove_num]; exact h2
    · conv_lhs => rw [hs2, insert_num]
      simp only
      rw [remove_num]
      simp only
      rw [h3]
      exact hs2.symm

/-- An instance of the statement above: `insert (2)` then `remove (2)` on the safe array
`[1, 2, 2, 3]`. -/
theorem C6_insert_remove_roundtrip_witness :
    ∃ i j : Nat, (sampleNumbers.insert (JsNumber.num 2)).1 = Except.ok (i : Int)
      ∧ ((sampleNumbers.insert (JsNumber.num 2)).2.remove (JsNumber.num 2)).1
          = Except.ok (j : Int)
      ∧ ((sampleNumbers.insert (JsNumber.num 2)).2.remove (JsNumber.num 2)).2 = sampleNumbers :=
  C6_insert_remove_roundtrip sampleNumbers (JsNumber.num 2) false rfl (by decide) (by decide)
    (by decide)

/-- The round trip of `insert` and `remove` does not hold for the value `NaN`:
on the safe array `[1, 2, 2, 3]`, `insert (NaN)` puts `NaN` in front and
`remove (NaN)` then returns `-1` and removes nothing. -/
theorem roundtrip_fails_at_NaN :
    (sampleNumbers.insert JsNumber.nan).1 = Except.ok 0
      ∧ (sampleNumbers.insert JsNumber.nan).2.items = JsNumber.nan :: sampleNumbers.items
      ∧ ((sampleNumbers.insert JsNumber.nan).2.remove JsNumber.nan).1 = Except.ok (-1)
      ∧ ((sampleNumbers.insert JsNumber.nan).2.remove JsNumber.nan).2.items
          = JsNumber.nan :: sampleNumbers.items := by
  refine ⟨by decide, by decide, by decide, by decide⟩

theorem byParity_consistent : IsConsistentTotalPreorder byParity := by
  constructor
  · intro a b; unfold byParity; omega
  · intro a b c; unfold byParity; omega

/-- C6, as stated, fails: the safe array `[0, 0, 0, 2, 0]` is sorted under the
comparer `byParity`, a consistent total preorder; `insert (1)` puts 1 at the end,
which keeps the array sorted under the comparer, and `remove (1)` then returns
`-1` and leaves `[0, 0, 0, 2, 0, 1]`, not the original array. -/
theorem C6_roundtrip_fails_under_byParity :
    sampleByParity.UNSAFE = false
      ∧ IsConsistentTotalPreorder sampleByParity.comparer
      ∧ AdjacentSorted sampleByParity.comparer sampleByParity.items
      ∧ (sampleByParity.insert 1).1 = Except.ok 5
      ∧ AdjacentSorted (sampleByParity.insert 1).2.comparer (sampleByParity.insert 1).2.items
      ∧ ((sampleByParity.insert 1).2.remove 1).1 = Except.ok (-1)
      ∧ ((sampleByParity.insert 1).2.remove 1).2.items = [0, 0, 0, 2, 0, 1]
      ∧ ((sampleByParity.insert 1).2.remove 1).2.items ≠ sampleByParity.items := by
  refine ⟨rfl, byParity_consistent, by decide, rfl, by decide, rfl, rfl, by decide⟩

/-! ## Where the search departs from its documentation -/

/-- C3: on the safe array `[1, 1, 1]`, sorted under the default comparer,
`lastIndexOf (1)` returns the index 1 that the search meets first, while the
right-most index that holds 1 is 2. -/
theorem C3_lastIndexOf_returns_middle :
    sampleOnes.UNSAFE = false
      ∧ AdjacentSorted sampleOnes.comparer sampleOnes.items
      ∧ (sampleOnes.lastIndexOf 1).1 = Except.ok 1
      ∧ sampleOnes.items.get? 2 = some 1 := by
  refine ⟨rfl, by decide, rfl, rfl⟩

theorem descendingComparer_consistent : IsConsistentTotalPreorder descendingComparer := by
  constructor
  · intro a b; unfold descendingComparer; omega
  · intro a b c; unfold descendingComparer; omega

/-- C5: on the safe array `[5]` under the descending comparer `(a, b) => b - a`,
`insert (7)` returns the index 1 and leaves `[5, 7]`, whose adjacent pair has
`comparer(5, 7) = 2 > 0`: the insertion breaks the order of the active
comparer. -/
theorem C5_insert_breaks_descending_order :
    sampleDescending.UNSAFE = false
      ∧ IsConsistentTotalPreorder sampleDescending.comparer
      ∧ AdjacentSorted sampleDescending.comparer sampleDescending.items
      ∧ (sampleDescending.insert 7).1 = Except.ok 1
      ∧ (sampleDescending.insert 7).2.items = [5, 7]
      ∧ (sampleDescending.insert 7).2.UNSAFE = false
      ∧ ¬ AdjacentSorted (sampleDescending.insert 7).2.comparer
            (sampleDescending.insert 7).2.items := by
  refine ⟨rfl, descendingComparer_consistent, by decide, rfl, rfl, rfl, by decide⟩

/-! ## Stability of `sort`, and the inherited methods -/

theorem orderedInsert_map_snd (comparer : α → α → Int) (p : Nat × α) :
    ∀ acc : List (Nat × α),
      (List.orderedInsert (revRel (onValues comparer)) p acc).map Prod.snd
        = List.orderedInsert (revRel comparer) p.2 (acc.map Prod.snd) := by
  intro acc
  induction acc with
  | nil => rfl
  | cons x t ih =>
    simp only [List.orderedInsert, List.map_cons]
    by_cases h : revRel comparer p.2 x.2
    · have h2 : revRel (onValues comparer) p x := h
      rw [if_pos h, if_pos h2]
      rfl
    · have h2 : ¬ revRel (onValues comparer) p x := h
      rw [if_neg h, if_neg h2, List.map_cons, ih]

theorem insertionSort_map_snd (comparer : α → α → Int) (tagged : List (Nat × α)) :
    (insertionSort (onValues comparer) tagged).map Prod.snd
      = insertionSort comparer (tagged.map Prod.snd) := by
  rw [insertionSort_eq, insertionSort_eq]
  unfold insertAll
  rw [List.map_reverse]
  congr 1
  have key : ∀ (l acc : List (Nat × α)),
      (l.foldl (fun acc x => List.orderedInsert (revRel (onValues comparer)) x acc) acc).map
          Prod.snd
        = (l.map Prod.snd).foldl (fun acc x => List.orderedInsert (revRel comparer) x acc)
            (acc.map Prod.snd) := by
    intro l
    induction l with
    | nil => intro acc; rfl
    | cons p l ih =>
      intro acc
      simp only [List.foldl_cons, List.map_cons]
      rw [ih, orderedInsert_map_snd]
  simpa using key tagged []

theorem orderedInsert_keepsOrder (comparer : α → α → Int) (p : Nat × α) :
    ∀ acc : List (Nat × α),
      List.Pairwise (fun a b => KeepsOrder comparer b a) acc →
      (∀ y ∈ acc, y.1 < p.1) →
      List.Pairwise (fun a b => KeepsOrder comparer b a)
        (List.orderedInsert (revRel (onValues comparer)) p acc) := by
  intro acc
  induction acc with
  | nil => intro _ _; simp
  | cons x t ih =>
    intro hpw hlt
    have hx := List.pairwise_cons.mp hpw
    simp only [List.orderedInsert]
    by_cases h : revRel (onValues comparer) p x
    · rw [if_pos h]
      refine List.pairwise_cons.mpr ⟨?_, hpw⟩
      intro z hz
      have := hlt z hz
      unfold KeepsOrder
      omega
    · rw [if_neg h]
      refine List.pairwise_cons.mpr ⟨?_, ih hx.2 (fun y hy => hlt y (List.mem_cons_of_mem _ hy))⟩
      intro w hw
      rcases (List.mem_orderedInsert (revRel (onValues comparer))).mp hw with rfl | hw
      · unfold KeepsOrder
        unfold revRel onValues at h
        omega
      · exact hx.1 w hw

theorem foldl_keepsOrder (comparer : α → α → Int) :
    ∀ (l : List α) (n : Nat) (acc : List (Nat × α)),
      List.Pairwise (fun a b => KeepsOrder comparer b a) acc →
      (∀ y ∈ acc, y.1 < n) →
      List.Pairwise (fun a b => KeepsOrder comparer b a)
        ((l.enumFrom n).foldl
          (fun acc x => List.orderedInsert (revRel (onValues comparer)) x acc) acc) := by
  intro l
  induction l with
  | nil => intro n acc h _; simpa using h
  | cons a l ih =>
    intro n acc hpw hlt
    simp only [List.enumFrom_cons, List.foldl_cons]
    apply ih (n + 1)
    · exact orderedInsert_keepsOrder comparer (n, a) acc hpw hlt
    · intro y hy
      rcases (List.mem_orderedInsert (revRel (onValues comparer))).mp hy with rfl | hy
      · exact Nat.lt_succ_self _
      · exact Nat.lt_succ_of_lt (hlt y hy)

/-- C18: for every array and every comparator, `sort` is stable. The result is a
permutation of the input; and its elements can be paired with their input
positions, every position once, so that no element `b` stands before an element
`a` that came before `b` in the input with `comparer(a, b) = 0`. -/
theorem C18_sort_stable (s : SortedArray α) (compare : Option (α → α → Int)) :
    List.Perm (s.sort compare).items s.items
      ∧ ∃ tagged : List (Nat × α),
          List.Perm tagged s.items.enum
          ∧ tagged.map Prod.snd = (s.sort compare).items
          ∧ List.Pairwise (KeepsOrder (compare.getD s.comparer)) tagged := by
  refine ⟨insertionSort_perm _ _, ?_⟩
  refine ⟨insertionSort (onValues (compare.getD s.comparer)) s.items.enum,
    insertionSort_perm _ _, ?_, ?_⟩
  · rw [insertionSort_map_snd, List.enum_map_snd]
    rfl
  · rw [insertionSort_eq]
    unfold insertAll
    rw [List.pairwise_reverse]
    exact foldl_keepsOrder _ s.items 0 [] List.Pairwise.nil (by simp)

/-- C17: on the safe array `[1, 2, 3]`, sorted under the default comparer,
`fill (0, 1, 2)` leaves `[1, 0, 3]`, which is not sorted, with the unsafe flag
still false; `pop ()` and `shift ()` on the same array leave `[1, 2]` and
`[2, 3]`, which are sorted. -/
theorem C17_fill_breaks_order :
    sampleThree.UNSAFE = false
      ∧ AdjacentSorted sampleThree.comparer sampleThree.items
      ∧ (sampleThree.fill 0 (some 1) (some 2)).items = [1, 0, 3]
      ∧ (sampleThree.fill 0 (some 1) (some 2)).UNSAFE = false
      ∧ ¬ AdjacentSorted (sampleThree.fill 0 (some 1) (some 2)).comparer
            (sampleThree.fill 0 (some 1) (some 2)).items
      ∧ AdjacentSorted sampleThree.pop.2.comparer sampleThree.pop.2.items
      ∧ AdjacentSorted sampleThree.shift.2.comparer sampleThree.shift.2.items := by
  refine ⟨rfl, by decide, by decide, rfl, by decide, by decide, by decide⟩

theorem adjacentSorted_tail {α : Type} (comparer : α → α → Int) (a : α) (rest : List α)
    (h : AdjacentSorted comparer (a :: rest)) : AdjacentSorted comparer rest := by
  cases rest with
  | nil => trivial
  | cons b rest => exact h.2

/-- On a safe array that satisfies the sortedness invariant, `pop ()` and
`shift ()` leave an array that satisfies it. -/
theorem pop_shift_keep_sorted {α : Type} (s : SortedArray α)
    (h : AdjacentSorted s.comparer s.items) :
    AdjacentSorted s.pop.2.comparer s.pop.2.items
      ∧ AdjacentSorted s.shift.2.comparer s.shift.2.items := by
  constructor
  · rw [adjacentSorted_iff_chain] at h ⊢
    exact h.infix ⟨[], s.items.getLast?.toList, by
      simp only [pop, List.nil_append]
      cases hl : s.items.getLast? with
      | none =>
        rw [List.getLast?_eq_none_iff] at hl
        simp [hl]
      | some a =>
        simp only [Option.toList]
        exact List.dropLast_append_getLast? a hl⟩
  · simp only [shift]
    cases hi : s.items with
    | nil => trivial
    | cons a rest =>
      rw [hi] at h
      exact adjacentSorted_tail _ a rest h

end SortedArray

/-! ## Collisions and the partition by mass -/

namespace SimulationPhysical

open SortedArray

theorem sortPair_byMass (self : SimulationPhysical) (b1 b2 : BodyRef) :
    sortPair (fun a b => byMass (self.objects a) (self.objects b)) b1 b2
      = (bigOf self b1 b2, smallOf self b1 b2) := by
  unfold sortPair bigOf smallOf byMass
  by_cases h : (self.objects b1).mass < (self.objects b2).mass
  · have h' : ¬ (self.objects b1).mass > (self.objects b2).mass := not_lt.mpr (le_of_lt h)
    simp [h, h']
  · by_cases h2 : (self.objects b1).mass > (self.objects b2).mass
    · simp [h, h2]
    · simp [h, h2]

theorem applyCollision_objects (self : SimulationPhysical) (b1 b2 : BodyRef) (hne : b1 ≠ b2) :
    ((self._applyCollision b1 b2).2.objects (bigOf self b1 b2)
        = { self.objects (bigOf self b1 b2) with
            pos := ((((self.objects (bigOf self b1 b2)).pos.mult
                      (self.objects (bigOf self b1 b2)).mass).add
                    ((self.objects (smallOf self b1 b2)).pos.mult
                      (self.objects (smallOf self b1 b2)).mass)).div
                  ((self.objects (bigOf self b1 b2)).mass
                    + (self.objects (smallOf self b1 b2)).mass)),
            vel := ((((self.objects (bigOf self b1 b2)).vel.mult
                      (self.objects (bigOf self b1 b2)).mass).add
                    ((self.objects (smallOf self b1 b2)).vel.mult
                      (self.objects (smallOf self b1 b2)).mass)).div
                  ((self.objects (bigOf self b1 b2)).mass
                    + (self.objects (smallOf self b1 b2)).mass)),
            mass := (self.objects (bigOf self b1 b2)).mass
                    + (self.objects (smallOf self b1 b2)).mass })
      ∧ (self._applyCollision b1 b2).2.objects (smallOf self b1 b2)
        = { self.objects (smallOf self b1 b2) with mass := 0 } := by
  have hbs : smallOf self b1 b2 ≠ bigOf self b1 b2 := by
    unfold bigOf smallOf
    split_ifs
    · exact hne
    · exact fun h => hne h.symm
  simp only [_applyCollision, sortPair_byMass, modify, V2.copy,
    Function.update_same, Function.update_noteq hbs, Function.update_noteq hbs.symm]
  exact ⟨trivial, trivial⟩

/-- C8: for two distinct bodies `b1`, `b2` with masses `m1`, `m2`, after
`_applyCollision (b1, b2)`, whether or not it throws, the body with the
greater mass (`b1` on a tie) has mass `m1 + m2` and the other has mass 0, so
the masses of the two still add up to `m1 + m2`. -/
theorem C8_collision_conserves_mass (self : SimulationPhysical) (b1 b2 : BodyRef)
    (hne : b1 ≠ b2) :
    ((self.objects b2).mass ≤ (self.objects b1).mass →
        ((self._applyCollision b1 b2).2.objects b1).mass
            = (self.objects b1).mass + (self.objects b2).mass
          ∧ ((self._applyCollision b1 b2).2.objects b2).mass = 0)
    ∧ ((self.objects b1).mass < (self.objects b2).mass →
        ((self._applyCollision b1 b2).2.objects b2).mass
            = (self.objects b1).mass + (self.objects b2).mass
          ∧ ((self._applyCollision b1 b2).2.objects b1).mass = 0)
    ∧ ((self._applyCollision b1 b2).2.objects b1).mass
        + ((self._applyCollision b1 b2).2.objects b2).mass
        = (self.objects b1).mass + (self.objects b2).mass := by
  obtain ⟨hb, hs⟩ := applyCollision_objects self b1 b2 hne
  by_cases h : (self.objects b1).mass < (self.objects b2).mass
  · have hbig : bigOf self b1 b2 = b2 := by simp [bigOf, h]
    have hsmall : smallOf self b1 b2 = b1 := by simp [smallOf, h]
    simp only [hbig, hsmall] at hb hs
    refine ⟨fun hle => absurd h (not_lt.mpr hle), fun _ => ?_, ?_⟩
    · rw [hb, hs]; exact ⟨add_comm _ _, rfl⟩
    · rw [hb, hs]; simp [add_comm]
  · have hbig : bigOf self b1 b2 = b1 := by simp [bigOf, h]
    have hsmall : smallOf self b1 b2 = b2 := by simp [smallOf, h]
    simp only [hbig, hsmall] at hb hs
    refine ⟨fun _ => ?_, fun hlt => absurd hlt h, ?_⟩
    · rw [hb, hs]; exact ⟨rfl, rfl⟩
    · rw [hb, hs]; simp

/-- An instance of the statement above: the collision of the two sample bodies, of mass 10 and 2. -/
theorem C8_collision_conserves_mass_witness :
    ((sampleEngine.objects 1).mass ≤ (sampleEngine.objects 0).mass →
        ((sampleEngine._applyCollision 0 1).2.objects 0).mass
            = (sampleEngine.objects 0).mass + (sampleEngine.objects 1).mass
          ∧ ((sampleEngine._applyCollision 0 1).2.objects 1).mass = 0)
    ∧ ((sampleEngine.objects 0).mass < (sampleEngine.objects 1).mass →
        ((sampleEngine._applyCollision 0 1).2.objects 1).mass
            = (sampleEngine.objects 0).mass + (sampleEngine.objects 1).mass
          ∧ ((sampleEngine._applyCollision 0 1).2.objects 0).mass = 0)
    ∧ ((sampleEngine._applyCollision 0 1).2.objects 0).mass
        + ((sampleEngine._applyCollision 0 1).2.objects 1).mass
        = (sampleEngine.objects 0).mass + (sampleEngine.objects 1).mass :=
  C8_collision_conserves_mass sampleEngine 0 1 (by decide)

theorem V2_div_mult (v : V2) (m : Rat) (hm : m ≠ 0) : (v.div m).mult m = v := by
  cases v with
  | mk x y =>
    simp only [V2.div, V2.mult]
    rw [div_mul_cancel₀ x hm, div_mul_cancel₀ y hm]

/-- C9: for two distinct bodies with positive masses `m1`, `m2`, velocities
`v1`, `v2` and positions `p1`, `p2`, after `_applyCollision`, whether or not it
throws, the velocity `v` and the position `p` of the surviving body (the one
with the greater mass, `b1` on a tie) satisfy, in exact arithmetic,
`(m1 + m2) * v = m1 * v1 + m2 * v2` and `(m1 + m2) * p = m1 * p1 + m2 * p2`. -/
theorem C9_collision_conserves_momentum (self : SimulationPhysical) (b1 b2 : BodyRef)
    (hne : b1 ≠ b2) (h1 : 0 < (self.objects b1).mass) (h2 : 0 < (self.objects b2).mass) :
    (((self._applyCollision b1 b2).2.objects (bigOf self b1 b2)).vel.mult
        ((self.objects b1).mass + (self.objects b2).mass)
      = ((self.objects b1).vel.mult (self.objects b1).mass).add
          ((self.objects b2).vel.mult (self.objects b2).mass))
    ∧ (((self._applyCollision b1 b2).2.objects (bigOf self b1 b2)).pos.mult
        ((self.objects b1).mass + (self.objects b2).mass)
      = ((self.objects b1).pos.mult (self.objects b1).mass).add
          ((self.objects b2).pos.mult (self.objects b2).mass)) := by
  obtain ⟨hb, _⟩ := applyCollision_objects self b1 b2 hne
  have hpos : (self.objects b1).mass + (self.objects b2).mass ≠ 0 := by
    have := add_pos h1 h2
    exact ne_of_gt this
  by_cases h : (self.objects b1).mass < (self.objects b2).mass
  · have hbig : bigOf self b1 b2 = b2 := by simp [bigOf, h]
    have hsmall : smallOf self b1 b2 = b1 := by simp [smallOf, h]
    simp only [hbig, hsmall] at hb
    rw [hbig, hb]
    have hpos2 : (self.objects b2).mass + (self.objects b1).mass ≠ 0 := by
      rw [add_comm]; exact hpos
    have hsum : (self.objects b1).mass + (self.objects b2).mass
        = (self.objects b2).mass + (self.objects b1).mass := add_comm _ _
    simp only
    rw [hsum, V2_div_mult _ _ hpos2, V2_div_mult _ _ hpos2]
    constructor <;> simp [V2.add, V2.mult, add_comm]
  · have hbig : bigOf self b1 b2 = b1 := by simp [bigOf, h]
    have hsmall : smallOf self b1 b2 = b2 := by simp [smallOf, h]
    simp only [hbig, hsmall] at hb
    rw [hbig, hb]
    simp only
    rw [V2_div_mult _ _ hpos, V2_div_mult _ _ hpos]
    exact ⟨rfl, rfl⟩

/-- An instance of the statement above: the collision of the two sample bodies, of mass 10 and 2. -/
theorem C9_collision_conserves_momentum_witness :
    (((sampleEngine._applyCollision 0 1).2.objects (bigOf sampleEngine 0 1)).vel.mult
        ((sampleEngine.objects 0).mass + (sampleEngine.objects 1).mass)
      = ((sampleEngine.objects 0).vel.mult (sampleEngine.objects 0).mass).add
          ((sampleEngine.objects 1).vel.mult (sampleEngine.objects 1).mass))
    ∧ (((sampleEngine._applyCollision 0 1).2.objects (bigOf sampleEngine 0 1)).pos.mult
        ((sampleEngine.objects 0).mass + (sampleEngine.objects 1).mass)
      = ((sampleEngine.objects 0).pos.mult (sampleEngine.objects 0).mass).add
          ((sampleEngine.objects 1).pos.mult (sampleEngine.objects 1).mass)) :=
  C9_collision_conserves_momentum sampleEngine 0 1 (by decide)
    (by simp [sampleEngine, sampleBody]) (by simp [sampleEngine, sampleBody])

theorem classify_spec (objects : BodyRef → Body) (m : Nat) (thr : Rat) :
    ∀ (P D : List BodyRef) (i : Nat) (r p : SortedArray BodyRef),
      (∀ b ∈ P, 0 < (objects b).mass) →
      (∀ b, D.head? = some b → (objects b).mass ≤ 0) →
      (classify objects m thr (P ++ D) i (r, p)).1.items
          = r.items ++ ((P.enumFrom i).filter (isRealAt objects m thr)).map Prod.snd
        ∧ (classify objects m thr (P ++ D) i (r, p)).2.items
          = p.items ++ ((P.enumFrom i).filter
              (fun e => !(isRealAt objects m thr e))).map Prod.snd := by
  intro P
  induction P with
  | nil =>
    intro D i r p _ hD
    cases D with
    | nil => simp [classify]
    | cons d D =>
      have := hD d rfl
      simp [classify, this]
  | cons b P ih =>
    intro D i r p hP hD
    have hb : ¬ (objects b).mass ≤ 0 := not_le.mpr (hP b (by simp))
    have hP' : ∀ x ∈ P, 0 < (objects x).mass := fun x hx => hP x (by simp [hx])
    simp only [List.cons_append, classify, if_neg hb, List.enumFrom_cons, List.append_eq]
    by_cases hreal : isRealAt objects m thr (i, b) = true
    · have hcond : (decide (i < m) || decide ((objects b).mass ≥ thr)) = true := hreal
      rw [if_pos hcond]
      obtain ⟨h1, h2⟩ := ih D (i + 1) (r.push [b]) p hP' hD
      rw [h1, h2]
      simp [List.filter_cons, hreal, SortedArray.push]
    · have hcond : ¬ (decide (i < m) || decide ((objects b).mass ≥ thr)) = true := hreal
      rw [if_neg hcond]
      obtain ⟨h1, h2⟩ := ih D (i + 1) r (p.push [b]) hP' hD
      rw [h1, h2]
      simp [List.filter_cons, hreal, SortedArray.push]

theorem popDestroyed_append (objects : BodyRef → Body) :
    ∀ (X Y : List BodyRef), (∀ b ∈ X, (objects b).mass ≤ 0) →
      popDestroyed objects (X ++ Y) = popDestroyed objects Y := by
  intro X
  induction X with
  | nil => intro Y _; rfl
  | cons x X ih =>
    intro Y h
    simp only [List.cons_append, popDestroyed, if_pos (h x (by simp))]
    exact ih Y (fun b hb => h b (by simp [hb]))

theorem popDestroyed_living (objects : BodyRef → Body) (b : BodyRef) (Y : List BodyRef)
    (hb : 0 < (objects b).mass) :
    popDestroyed objects (b :: Y) = Except.ok (b :: Y) := by
  simp [popDestroyed, not_le.mpr hb]

theorem mem_filter_enumFrom {α : Type} (P : List α) (f : Nat × α → Bool) (b : α) :
    b ∈ ((P.enumFrom 0).filter f).map Prod.snd ↔ ∃ j, P.get? j = some b ∧ f (j, b) = true := by
  simp only [List.mem_map, List.mem_filter, Prod.exists, exists_eq_right,
    List.mk_mem_enumFrom_iff_le_and_getElem?_sub, Nat.zero_le, true_and, Nat.sub_zero,
    List.get?_eq_getElem?]

theorem byMass_le_zero_iff (a b : Body) : byMass a b ≤ 0 ↔ b.mass ≤ a.mass := by
  unfold byMass
  by_cases h1 : a.mass > b.mass
  · simp [h1, le_of_lt h1]
  · by_cases h2 : a.mass < b.mass
    · simp [h1, h2]
    · simp [h1, h2, not_lt.mp h2]

theorem massComparer_consistent (self : SimulationPhysical) :
    IsConsistentTotalPreorder (massComparer self) := by
  constructor
  · intro a b
    unfold massComparer byMass
    by_cases h1 : (self.objects a).mass > (self.objects b).mass
    · have h2 : ¬ (self.objects a).mass < (self.objects b).mass := not_lt.mpr (le_of_lt h1)
      have h3 : ¬ (self.objects b).mass > (self.objects a).mass := h2
      simp [h1, h2, h3]
    · by_cases h2 : (self.objects a).mass < (self.objects b).mass
      · have h3 : (self.objects b).mass > (self.objects a).mass := h2
        simp [h1, h2, h3]
      · have h3 : ¬ (self.objects b).mass > (self.objects a).mass := h2
        have h4 : ¬ (self.objects b).mass < (self.objects a).mass := h1
        simp [h1, h2, h3, h4]
  · intro a b c
    unfold massComparer
    rw [byMass_le_zero_iff, byMass_le_zero_iff, byMass_le_zero_iff]
    intro h1 h2
    exact le_trans h2 h1

theorem sortedLiving_perm (self : SimulationPhysical) :
    List.Perm (sortedLiving self) self._livingBodies.items :=
  insertionSort_perm _ _

theorem sortedLiving_pairwise (self : SimulationPhysical) :
    List.Pairwise (fun a b => (self.objects b).mass ≤ (self.objects a).mass)
      (sortedLiving self) := by
  have h := insertionSort_pairwise (massComparer self) (massComparer_consistent self)
    self._livingBodies.items
  refine List.Pairwise.imp ?_ h
  intro a b hab
  exact (byMass_le_zero_iff _ _).mp hab

theorem sortedLiving_split (self : SimulationPhysical) :
    sortedLiving self = livingFront self
        ++ (sortedLiving self).dropWhile (fun b => decide (0 < (self.objects b).mass))
      ∧ (∀ b ∈ livingFront self, 0 < (self.objects b).mass)
      ∧ (∀ b ∈ (sortedLiving self).dropWhile (fun b => decide (0 < (self.objects b).mass)),
          (self.objects b).mass ≤ 0) := by
  refine ⟨(List.takeWhile_append_dropWhile _ _).symm, ?_, ?_⟩
  · intro b hb
    have := List.mem_takeWhile_imp hb
    simpa using this
  · have hhead := List.head?_dropWhile_not (fun b => decide (0 < (self.objects b).mass))
      (sortedLiving self)
    have hpw : List.Pairwise (fun a b => (self.objects b).mass ≤ (self.objects a).mass)
        ((sortedLiving self).dropWhile (fun b => decide (0 < (self.objects b).mass))) :=
      List.Pairwise.sublist (List.dropWhile_sublist _) (sortedLiving_pairwise self)
    generalize (sortedLiving self).dropWhile (fun b => decide (0 < (self.objects b).mass))
      = D at hhead hpw
    cases D with
    | nil => intro b hb; cases hb
    | cons d D =>
      simp only [List.head?_cons, decide_eq_false_iff_not, not_lt] at hhead
      intro b hb
      rcases List.mem_cons.mp hb with rfl | hb
      · exact hhead
      · exact le_trans ((List.pairwise_cons.mp hpw).1 b hb) hhead

theorem livingFront_ne_nil (self : SimulationPhysical)
    (hpos : ∃ b ∈ self._livingBodies.items, 0 < (self.objects b).mass) :
    livingFront self ≠ [] := by
  obtain ⟨b, hb, hm⟩ := hpos
  obtain ⟨hsplit, _, hD⟩ := sortedLiving_split self
  have hmem : b ∈ sortedLiving self := (sortedLiving_perm self).mem_iff.mpr hb
  rw [hsplit] at hmem
  rcases List.mem_append.mp hmem with h | h
  · exact List.ne_nil_of_mem h
  · exact absurd hm (not_lt.mpr (hD b h))

/-- What `_sortBodies` leaves when some living body has positive mass: it does
not throw, the bodies are untouched, the living array is the front of positive
mass of the sorted array, and the real and pseudo arrays are the bodies of that
front that pass, respectively fail, the test of the loop. -/
theorem sortBodies_result (self : SimulationPhysical)
    (hpos : ∃ b ∈ self._livingBodies.items, 0 < (self.objects b).mass) :
    (self._sortBodies).1 = Except.ok ()
      ∧ (self._sortBodies).2.objects = self.objects
      ∧ (self._sortBodies).2._livingBodies.items = livingFront self
      ∧ (self._sortBodies).2._realBodies.items
          = (((livingFront self).enumFrom 0).filter
              (isRealAt self.objects (min self.realBodiesMin (sortedLiving self).length)
                self.realMassThreshold)).map Prod.snd
      ∧ (self._sortBodies).2._pseudoBodies.items
          = (((livingFront self).enumFrom 0).filter
              (fun e => !(isRealAt self.objects
                (min self.realBodiesMin (sortedLiving self).length)
                self.realMassThreshold e))).map Prod.snd := by
  obtain ⟨hsplit, hP, hD⟩ := sortedLiving_split self
  have hne := livingFront_ne_nil self hpos
  have hlen : ¬ self._livingBodies.items.length = 0 := by
    obtain ⟨b, hb, _⟩ := hpos
    intro h
    rw [List.length_eq_zero] at h
    rw [h] at hb
    cases hb
  -- the pop loop
  have hpop : popDestroyed self.objects (sortedLiving self).reverse
      = Except.ok (livingFront self).reverse := by
    conv_lhs => rw [hsplit]
    rw [List.reverse_append]
    rw [popDestroyed_append _ _ _ (fun b hb => hD b (List.mem_reverse.mp hb))]
    cases hrev : (livingFront self).reverse with
    | nil => exact absurd (List.reverse_eq_nil_iff.mp hrev) hne
    | cons a t =>
      have ha : a ∈ livingFront self := by
        rw [← List.mem_reverse, hrev]; simp
      exact popDestroyed_living _ a t (hP a ha)
  -- the classification loop
  have hclass := classify_spec self.objects
    (min self.realBodiesMin (sortedLiving self).length) self.realMassThreshold
    (livingFront self)
    ((sortedLiving self).dropWhile (fun b => decide (0 < (self.objects b).mass))) 0
    { self._realBodies with items := [] } { self._pseudoBodies with items := [] } hP
    (fun b hb => hD b (List.mem_of_mem_head? hb))
  rw [← hsplit] at hclass
  obtain ⟨hc1, hc2⟩ := hclass
  simp only [List.nil_append] at hc1 hc2
  unfold _sortBodies
  simp only [if_neg hlen, SortedArray.sort, Option.getD_some]
  have hpop2 : popDestroyed self.objects
      (insertionSort (fun a b => byMass (self.objects a) (self.objects b))
        self._livingBodies.items).reverse = Except.ok (livingFront self).reverse := hpop
  rw [hpop2]
  simp only [List.reverse_reverse]
  exact ⟨trivial, trivial, trivial, hc1, hc2⟩

theorem livingFront_perm (self : SimulationPhysical) :
    List.Perm (livingFront self)
      (self._livingBodies.items.filter (fun b => decide (0 < (self.objects b).mass))) := by
  obtain ⟨hsplit, hP, hD⟩ := sortedLiving_split self
  have hfilter : (sortedLiving self).filter (fun b => decide (0 < (self.objects b).mass))
      = livingFront self := by
    conv_lhs => rw [hsplit]
    rw [List.filter_append]
    have h1 : (livingFront self).filter (fun b => decide (0 < (self.objects b).mass))
        = livingFront self := by
      rw [List.filter_eq_self]
      intro b hb
      simpa using hP b hb
    have h2 : ((sortedLiving self).dropWhile
        (fun b => decide (0 < (self.objects b).mass))).filter
          (fun b => decide (0 < (self.objects b).mass)) = [] := by
      rw [List.filter_eq_nil_iff]
      intro b hb
      simpa using hD b hb
    rw [h1, h2, List.append_nil]
  rw [← hfilter]
  exact (sortedLiving_perm self).filter _

/-- C10: when some living body has positive mass and no body is twice in the
living array, `_sortBodies` does not throw; it leaves the living array as the
bodies of positive mass in non-increasing order of mass, and a body at rank `i`
of that order is in the real array if and only if `i < realBodiesMin` or its
mass is at least `realMassThreshold`, and in the pseudo array if and only if
not. So the `min(realBodiesMin, k)` heaviest of the `k` living bodies are real
whatever the threshold is, no body is in both arrays, and the two arrays hold
living bodies only. -/
theorem C10_sortBodies_partition (self : SimulationPhysical)
    (hpos : ∃ b ∈ self._livingBodies.items, 0 < (self.objects b).mass)
    (hnodup : self._livingBodies.items.Nodup) :
    (self._sortBodies).1 = Except.ok ()
      ∧ (self._sortBodies).2.objects = self.objects
      ∧ List.Perm (self._sortBodies).2._livingBodies.items
          (self._livingBodies.items.filter (fun b => decide (0 < (self.objects b).mass)))
      ∧ List.Pairwise (fun a b => (self.objects b).mass ≤ (self.objects a).mass)
          (self._sortBodies).2._livingBodies.items
      ∧ (∀ i b, (self._sortBodies).2._livingBodies.items.get? i = some b →
          (b ∈ (self._sortBodies).2._realBodies.items
              ↔ (i < self.realBodiesMin ∨ self.realMassThreshold ≤ (self.objects b).mass))
          ∧ (b ∈ (self._sortBodies).2._pseudoBodies.items
              ↔ ¬ (i < self.realBodiesMin
                    ∨ self.realMassThreshold ≤ (self.objects b).mass)))
      ∧ (∀ i b, (self._sortBodies).2._livingBodies.items.get? i = some b →
          i < min self.realBodiesMin (self._sortBodies).2._livingBodies.items.length →
          b ∈ (self._sortBodies).2._realBodies.items)
      ∧ (∀ b, ¬ (b ∈ (self._sortBodies).2._realBodies.items
                  ∧ b ∈ (self._sortBodies).2._pseudoBodies.items))
      ∧ (∀ b, b ∈ (self._sortBodies).2._realBodies.items
                ∨ b ∈ (self._sortBodies).2._pseudoBodies.items →
              b ∈ (self._sortBodies).2._livingBodies.items) := by
  obtain ⟨hok, hobj, hliv, hreal, hpseudo⟩ := sortBodies_result self hpos
  have hsub : List.Sublist (livingFront self) (sortedLiving self) :=
    List.takeWhile_sublist _
  have hnd : (livingFront self).Nodup :=
    List.Nodup.sublist hsub ((sortedLiving_perm self).nodup_iff.mpr hnodup)
  -- membership in the two arrays, by rank
  have hrank : ∀ i b, (livingFront self).get? i = some b →
      (isRealAt self.objects (min self.realBodiesMin (sortedLiving self).length)
          self.realMassThreshold (i, b) = true
        ↔ (i < self.realBodiesMin ∨ self.realMassThreshold ≤ (self.objects b).mass)) := by
    intro i b hi
    have hil : i < (sortedLiving self).length := by
      rw [List.get?_eq_getElem?] at hi
      have := (List.getElem?_eq_some_iff.mp hi).1
      exact lt_of_lt_of_le this hsub.length_le
    simp only [isRealAt, Bool.or_eq_true, decide_eq_true_eq, ge_iff_le]
    constructor
    · rintro (h | h)
      · exact Or.inl (lt_of_lt_of_le h (min_le_left _ _))
      · exact Or.inr h
    · rintro (h | h)
      · exact Or.inl (lt_min h hil)
      · exact Or.inr h
  have huniq : ∀ i j b, (livingFront self).get? i = some b →
      (livingFront self).get? j = some b → j = i := by
    intro i j b hi hj
    rw [List.get?_eq_getElem?] at hi hj
    have hjl := (List.getElem?_eq_some_iff.mp hj).1
    exact List.getElem?_inj hjl hnd (hj.trans hi.symm)
  have hmemreal : ∀ i b, (livingFront self).get? i = some b →
      (b ∈ (self._sortBodies).2._realBodies.items
        ↔ (i < self.realBodiesMin ∨ self.realMassThreshold ≤ (self.objects b).mass)) := by
    intro i b hi
    rw [hreal, mem_filter_enumFrom, ← hrank i b hi]
    constructor
    · rintro ⟨j, hj, hf⟩
      rw [huniq i j b hi hj] at hf
      exact hf
    · intro hf
      exact ⟨i, hi, hf⟩
  have hmempseudo : ∀ i b, (livingFront self).get? i = some b →
      (b ∈ (self._sortBodies).2._pseudoBodies.items
        ↔ ¬ (i < self.realBodiesMin ∨ self.realMassThreshold ≤ (self.objects b).mass)) := by
    intro i b hi
    rw [hpseudo, mem_filter_enumFrom, ← hrank i b hi]
    constructor
    · rintro ⟨j, hj, hf⟩
      rw [huniq i j b hi hj] at hf
      simpa using hf
    · intro hf
      exact ⟨i, hi, by simpa using hf⟩
  refine ⟨hok, hobj, ?_, ?_, ?_, ?_, ?_, ?_⟩
  · rw [hliv]; exact livingFront_perm self
  · rw [hliv]; exact List.Pairwise.sublist hsub (sortedLiving_pairwise self)
  · intro i b hi
    rw [hliv] at hi
    exact ⟨hmemreal i b hi, hmempseudo i b hi⟩
  · intro i b hi hlt
    rw [hliv] at hi
    exact (hmemreal i b hi).mpr (Or.inl (lt_of_lt_of_le hlt (min_le_left _ _)))
  · rintro b ⟨hr, hp⟩
    have hr' := hr
    rw [hreal, mem_filter_enumFrom] at hr'
    obtain ⟨j, hj, _⟩ := hr'
    exact ((hmempseudo j b hj).mp hp) ((hmemreal j b hj).mp hr)
  · intro b hb
    rw [hliv]
    rcases hb with hb | hb
    · rw [hreal, mem_filter_enumFrom] at hb
      obtain ⟨j, hj, _⟩ := hb
      rw [List.get?_eq_getElem?] at hj
      exact List.getElem?_mem hj
    · rw [hpseudo, mem_filter_enumFrom] at hb
      obtain ⟨j, hj, _⟩ := hb
      rw [List.get?_eq_getElem?] at hj
      exact List.getElem?_mem hj

/-- An instance of the statement above: `_sortBodies` on the sample engine, whose living array is
`[1, 0]`. -/
theorem C10_sortBodies_partition_witness :
    (sampleEngine._sortBodies).1 = Except.ok ()
      ∧ (sampleEngine._sortBodies).2.objects = sampleEngine.objects
      ∧ List.Perm (sampleEngine._sortBodies).2._livingBodies.items
          (sampleEngine._livingBodies.items.filter
            (fun b => decide (0 < (sampleEngine.objects b).mass)))
      ∧ List.Pairwise
          (fun a b => (sampleEngine.objects b).mass ≤ (sampleEngine.objects a).mass)
          (sampleEngine._sortBodies).2._livingBodies.items
      ∧ (∀ i b, (sampleEngine._sortBodies).2._livingBodies.items.get? i = some b →
          (b ∈ (sampleEngine._sortBodies).2._realBodies.items
              ↔ (i < sampleEngine.realBodiesMin
                  ∨ sampleEngine.realMassThreshold ≤ (sampleEngine.objects b).mass))
          ∧ (b ∈ (sampleEngine._sortBodies).2._pseudoBodies.items
              ↔ ¬ (i < sampleEngine.realBodiesMin
                    ∨ sampleEngine.realMassThreshold ≤ (sampleEngine.objects b).mass)))
      ∧ (∀ i b, (sampleEngine._sortBodies).2._livingBodies.items.get? i = some b →
          i < min sampleEngine.realBodiesMin
                (sampleEngine._sortBodies).2._livingBodies.items.length →
          b ∈ (sampleEngine._sortBodies).2._realBodies.items)
      ∧ (∀ b, ¬ (b ∈ (sampleEngine._sortBodies).2._realBodies.items
                  ∧ b ∈ (sampleEngine._sortBodies).2._pseudoBodies.items))
      ∧ (∀ b, b ∈ (sampleEngine._sortBodies).2._realBodies.items
                ∨ b ∈ (sampleEngine._sortBodies).2._pseudoBodies.items →
              b ∈ (sampleEngine._sortBodies).2._livingBodies.items) :=
  C10_sortBodies_partition sampleEngine
    ⟨0, by simp [sampleEngine], by simp [sampleEngine, sampleBody]⟩
    (by simp [sampleEngine])

/-! ## The tick of the engine -/

theorem modify_objects_same (self : SimulationPhysical) (ref : BodyRef) (f : Body → Body) :
    (self.modify ref f).objects ref = f (self.objects ref) := by
  simp [modify]

theorem modify_objects_ne (self : SimulationPhysical) (ref other : BodyRef) (f : Body → Body)
    (h : other ≠ ref) : (self.modify ref f).objects other = self.objects other := by
  simp [modify, Function.update_noteq h]

theorem Keeps.refl {β : Type} (proj : Body → β) (self : SimulationPhysical) :
    Keeps proj self self := ⟨rfl, fun _ => rfl⟩

theorem Keeps.trans {β : Type} {proj : Body → β} {a b c : SimulationPhysical}
    (h1 : Keeps proj a b) (h2 : Keeps proj b c) : Keeps proj a c := by
  refine ⟨?_, fun ref => (h2.2 ref).trans (h1.2 ref)⟩
  rw [h2.1, h1.1]

theorem keeps_modify {β : Type} (proj : Body → β) (self : SimulationPhysical) (ref : BodyRef)
    (f : Body → Body) (hf : proj (f (self.objects ref)) = proj (self.objects ref)) :
    Keeps proj self (self.modify ref f) := by
  refine ⟨rfl, fun other => ?_⟩
  by_cases h : other = ref
  · subst h
    rw [modify_objects_same, hf]
  · rw [modify_objects_ne _ _ _ _ h]

theorem keeps_foldl {β : Type} (proj : Body → β)
    (step : SimulationPhysical → BodyRef → SimulationPhysical)
    (hstep : ∀ self ref, Keeps proj self (step self ref)) :
    ∀ (l : List BodyRef) (self : SimulationPhysical), Keeps proj self (l.foldl step self) := by
  intro l
  induction l with
  | nil => intro self; exact Keeps.refl proj self
  | cons a l ih =>
    intro self
    simp only [List.foldl_cons]
    exact (hstep self a).trans (ih (step self a))

theorem keeps_forceLoop {β : Type} (proj : Body → β)
    (hforce : ∀ (b : Body) (v : V2), proj { b with force := v } = proj b)
    (imports : Imports) (body : BodyRef) (addPseudoMassOnly : Bool) :
    ∀ (l : List BodyRef) (self : SimulationPhysical) (highest : Option Rat)
      (most : Option BodyRef),
      Keeps proj self (forceLoop imports body addPseudoMassOnly l (self, highest, most)).1 := by
  intro l
  induction l with
  | nil => intro self _ _; exact Keeps.refl proj self
  | cons other l ih =>
    intro self highest most
    simp only [forceLoop]
    by_cases h : body = other
    · rw [if_pos h]
      exact ih self highest most
    · rw [if_neg h]
      cases addPseudoMassOnly with
      | true => exact ih self _ _
      | false =>
        simp only [Bool.false_eq_true, if_false]
        exact (keeps_modify proj self body _ (hforce _ _)).trans (ih _ _ _)

theorem keeps_calculateForce {β : Type} (proj : Body → β)
    (hforce : ∀ (b : Body) (v : V2), proj { b with force := v } = proj b)
    (hpseudo : ∀ (b : Body) (m : Rat), proj { b with pseudoMass := m } = proj b)
    (imports : Imports) (self : SimulationPhysical) (body : BodyRef)
    (isReal addPseudoMassOnly : Bool) :
    Keeps proj self (_calculateForce imports self body isReal addPseudoMassOnly) := by
  cases addPseudoMassOnly with
  | true =>
    simp only [_calculateForce, if_true]
    have h1 := keeps_forceLoop proj hforce imports body true self._realBodies.items
      self none none
    split
    · split_ifs
      · exact h1.trans (keeps_modify proj _ _ _ (hpseudo _ _))
      · exact h1
    · exact h1
  | false =>
    simp only [_calculateForce, Bool.false_eq_true, if_false, Bool.false_and]
    have h0 : Keeps proj self
        (self.modify body (fun b => { b with force := b.force.set V2.ZERO })) :=
      keeps_modify proj self body _ (hforce _ _)
    have h1 := keeps_forceLoop proj hforce imports body false self._realBodies.items
      (self.modify body (fun b => { b with force := b.force.set V2.ZERO })) none none
    have hreal : (self.modify body
        (fun b => { b with force := b.force.set V2.ZERO }))._realBodies = self._realBodies := rfl
    rw [hreal]
    split
    · exact h0.trans h1
    · exact h0.trans h1

theorem keeps_calculateForces {β : Type} (proj : Body → β)
    (hforce : ∀ (b : Body) (v : V2), proj { b with force := v } = proj b)
    (hpseudo : ∀ (b : Body) (m : Rat), proj { b with pseudoMass := m } = proj b)
    (imports : Imports) (self : SimulationPhysical) :
    Keeps proj self (_calculateForces imports self) := by
  unfold _calculateForces
  have h1 := keeps_foldl proj
    (fun self body => self.modify body (fun b => { b with pseudoMass := 0 }))
    (fun self ref => keeps_modify proj self ref _ (hpseudo _ _)) self._livingBodies.items self
  have h2 := fun (l : List BodyRef) (s : SimulationPhysical) => keeps_foldl proj
    (fun self body => _calculateForce imports self body false true)
    (fun self ref => keeps_calculateForce proj hforce hpseudo imports self ref false true) l s
  have h3 := fun (l : List BodyRef) (s : SimulationPhysical) => keeps_foldl proj
    (fun self body => _calculateForce imports self body false false)
    (fun self ref => keeps_calculateForce proj hforce hpseudo imports self ref false false) l s
  have h4 := fun (l : List BodyRef) (s : SimulationPhysical) => keeps_foldl proj
    (fun self body => _calculateForce imports self body true false)
    (fun self ref => keeps_calculateForce proj hforce hpseudo imports self ref true false) l s
  exact ((h1.trans (h2 _ _)).trans (h3 _ _)).trans (h4 _ _)

theorem keeps_applyForces {β : Type} (proj : Body → β)
    (hforce : ∀ (b : Body) (v : V2), proj { b with force := v } = proj b)
    (hvel : ∀ (b : Body) (v : V2), proj { b with vel := v } = proj b)
    (hpos : ∀ (b : Body) (v : V2), proj { b with pos := v } = proj b)
    (imports : Imports) (self : SimulationPhysical) :
    Keeps proj self (_applyForces imports self) := by
  unfold _applyForces
  apply keeps_foldl
  intro s ref
  exact ((keeps_modify proj s ref _ (hforce _ _)).trans
    (keeps_modify proj _ ref _ (hvel _ _))).trans (keeps_modify proj _ ref _ (hpos _ _))

theorem sortWith_nil {α σ : Type} (s : SortedArray α) (comparer : σ → α → α → Int × σ)
    (state : σ) (h : s.items = []) :
    (s.sortWith comparer state).1.items = [] ∧ (s.sortWith comparer state).2 = state := by
  simp [sortWith, h]

theorem updateBodyBounds_bare (imports : Imports) (self : SimulationPhysical)
    (hx : self._bodyBounds.x.items = []) (hy : self._bodyBounds.y.items = []) :
    (_updateBodyBoundsAndOverlaps imports self)._bodyBounds.x.items = []
      ∧ (_updateBodyBoundsAndOverlaps imports self)._bodyBounds.y.items = []
      ∧ (_updateBodyBoundsAndOverlaps imports self)._bodyBounds.overlaps
          = self._bodyBounds.overlaps
      ∧ (_updateBodyBoundsAndOverlaps imports self)._livingBodies = self._livingBodies
      ∧ (_updateBodyBoundsAndOverlaps imports self)._realBodies = self._realBodies
      ∧ (_updateBodyBoundsAndOverlaps imports self)._pseudoBodies = self._pseudoBodies
      ∧ ∀ ref, besideEdges ((_updateBodyBoundsAndOverlaps imports self).objects ref)
          = besideEdges (self.objects ref) := by
  have hk := keeps_foldl besideEdges
    (fun self body => self.modify body (updateBounds imports))
    (fun s ref => keeps_modify besideEdges s ref _ rfl) self._livingBodies.items self
  obtain ⟨hk1, hk2⟩ := hk
  unfold _updateBodyBoundsAndOverlaps
  simp only
  generalize hs1 : self._livingBodies.items.foldl
    (fun self body => self.modify body (updateBounds imports)) self = s1 at hk1 hk2 ⊢
  have e1 : s1._bodyBounds = self._bodyBounds := by rw [hk1]
  have e2 : s1._livingBodies = self._livingBodies := by rw [hk1]
  have e3 : s1._realBodies = self._realBodies := by rw [hk1]
  have e4 : s1._pseudoBodies = self._pseudoBodies := by rw [hk1]
  have hx1 : s1._bodyBounds.x.items = [] := by rw [e1, hx]
  have hy1 : s1._bodyBounds.y.items = [] := by rw [e1, hy]
  simp only [sortWith, hx1, hy1, hx, hy, List.map_nil, List.length_nil, Nat.zero_sub, List.range'_zero,
    List.foldl_nil, e1, e2, e3, e4]
  exact ⟨trivial, trivial, trivial, trivial, trivial, trivial, hk2⟩

theorem applyCollisions_no_overlaps (imports : Imports) (self : SimulationPhysical)
    (h : self._bodyBounds.overlaps = []) :
    _applyCollisions imports self = (Except.ok (), self) := by
  simp [_applyCollisions, h, collideLoop]

/-- The state in which `_calculateForces` runs in a sub-step that starts from a
bare engine: nothing has thrown, the engine is still bare, and the living array
and the masses are as before. -/
theorem beforeForces_bare (imports : Imports) (self : SimulationPhysical) (hb : Bare self) :
    ((_updateBodyBoundsAndOverlaps imports self)._applyCollisions imports).1 = Except.ok ()
      ∧ Bare ((_updateBodyBoundsAndOverlaps imports self)._applyCollisions imports).2
      ∧ ((_updateBodyBoundsAndOverlaps imports self)._applyCollisions imports).2._livingBodies
          = self._livingBodies
      ∧ ∀ ref,
          besideEdges
            (((_updateBodyBoundsAndOverlaps imports self)._applyCollisions imports).2.objects ref)
            = besideEdges (self.objects ref) := by
  obtain ⟨hx, hy, ho, hr, hp⟩ := hb
  obtain ⟨h1, h2, h3, h4, h5, h6, h7⟩ := updateBodyBounds_bare imports self hx hy
  have hcol := applyCollisions_no_overlaps imports (_updateBodyBoundsAndOverlaps imports self)
    (by rw [h3, ho])
  rw [hcol]
  refine ⟨rfl, ⟨h1, h2, by rw [h3, ho], by rw [h5, hr], by rw [h6, hp]⟩, h4, h7⟩

theorem subStep_bare (imports : Imports) (self : SimulationPhysical) (hb : Bare self) :
    (subStep imports self).1 = Except.ok ()
      ∧ Bare (subStep imports self).2
      ∧ (subStep imports self).2._livingBodies = self._livingBodies
      ∧ ∀ ref, ((subStep imports self).2.objects ref).mass = (self.objects ref).mass := by
  obtain ⟨h1, h2, h3, h4⟩ := beforeForces_bare imports self hb
  unfold subStep
  simp only
  generalize (_updateBodyBoundsAndOverlaps imports self)._applyCollisions imports = collided
    at h1 h2 h3 h4
  obtain ⟨outcome, s2⟩ := collided
  simp only at h1 h2 h3 h4
  subst h1
  simp only
  have k1 := keeps_calculateForces (fun b => b.mass) (fun _ _ => rfl) (fun _ _ => rfl) imports s2
  have k2 := keeps_applyForces (fun b => b.mass) (fun _ _ => rfl) (fun _ _ => rfl)
    (fun _ _ => rfl) imports (_calculateForces imports s2)
  have k := k1.trans k2
  obtain ⟨ke, km⟩ := k
  refine ⟨trivial, ?_, ?_, ?_⟩
  · rw [ke]
    exact h2
  · rw [ke]
    exact h3
  · intro ref
    have hm : ((_applyForces imports (_calculateForces imports s2)).objects ref).mass
        = (s2.objects ref).mass := km ref
    rw [hm]
    have := h4 ref
    simp only [besideEdges, Prod.mk.injEq] at this
    exact this.2.2.2.2.1

theorem subSteps_bare (imports : Imports) :
    ∀ (n : Nat) (self : SimulationPhysical), Bare self →
      (subSteps imports n self).1 = Except.ok ()
        ∧ Bare (subSteps imports n self).2
        ∧ (subSteps imports n self).2._livingBodies = self._livingBodies
        ∧ ∀ ref, ((subSteps imports n self).2.objects ref).mass = (self.objects ref).mass := by
  intro n
  induction n with
  | zero => intro self hb; exact ⟨rfl, hb, rfl, fun _ => rfl⟩
  | succ n ih =>
    intro self hb
    obtain ⟨h1, h2, h3, h4⟩ := subStep_bare imports self hb
    simp only [subSteps]
    generalize subStep imports self = stepped at h1 h2 h3 h4
    obtain ⟨outcome, s2⟩ := stepped
    simp only at h1 h2 h3 h4
    subst h1
    simp only
    obtain ⟨i1, i2, i3, i4⟩ := ih s2 h2
    exact ⟨i1, i2, i3.trans h3, fun ref => (i4 ref).trans (h4 ref)⟩

/-- What one tick from a new engine gives, whatever the bodies and the imports:
no sub-step throws, the tick publishes the bodies the engine was given, every
mass is as before, and the overlap map, the real array and the pseudo array are
still empty. -/
theorem run_of_create (imports : Imports) (objects : BodyRef → Body) (bodies : List BodyRef)
    (g : Rat) (physicsSteps realBodiesMin : Nat) (realMassThreshold : Rat) :
    (run imports (create objects bodies g physicsSteps realBodiesMin realMassThreshold)).1
        = Except.ok bodies
      ∧ Bare (run imports
          (create objects bodies g physicsSteps realBodiesMin realMassThreshold)).2
      ∧ ∀ ref, ((run imports
          (create objects bodies g physicsSteps realBodiesMin realMassThreshold)).2.objects
            ref).mass = (objects ref).mass := by
  have hb : Bare (runStart (create objects bodies g physicsSteps realBodiesMin
      realMassThreshold)) := by
    refine ⟨rfl, rfl, rfl, rfl, rfl⟩
  obtain ⟨h1, h2, h3, h4⟩ := subSteps_bare imports physicsSteps _ hb
  unfold run _update
  have hsteps : (runStart (create objects bodies g physicsSteps realBodiesMin
      realMassThreshold)).physicsSteps = physicsSteps := rfl
  rw [hsteps]
  generalize subSteps imports physicsSteps (runStart (create objects bodies g physicsSteps
    realBodiesMin realMassThreshold)) = stepped at h1 h2 h3 h4
  obtain ⟨outcome, s2⟩ := stepped
  simp only at h1 h2 h3 h4
  subst h1
  simp only
  refine ⟨?_, h2, h4⟩
  rw [h3]
  simp [runStart, create, SortedArray.push]

/-- C11: when some living body has positive mass, `_sortBodies` does not throw
and leaves the bodies untouched; the living array then holds exactly the bodies
of the input array that have mass above 0, each as often as before (none with
mass 0 or less remains, none with mass above 0 is lost), in non-increasing
order of mass. -/
theorem C11_sortBodies_trims_destroyed (self : SimulationPhysical)
    (hpos : ∃ b ∈ self._livingBodies.items, 0 < (self.objects b).mass) :
    (self._sortBodies).1 = Except.ok ()
      ∧ (self._sortBodies).2.objects = self.objects
      ∧ List.Perm (self._sortBodies).2._livingBodies.items
          (self._livingBodies.items.filter (fun b => decide (0 < (self.objects b).mass)))
      ∧ (∀ b ∈ (self._sortBodies).2._livingBodies.items, 0 < (self.objects b).mass)
      ∧ (∀ b ∈ self._livingBodies.items, 0 < (self.objects b).mass →
          b ∈ (self._sortBodies).2._livingBodies.items)
      ∧ List.Pairwise (fun a b => (self.objects b).mass ≤ (self.objects a).mass)
          (self._sortBodies).2._livingBodies.items := by
  obtain ⟨hok, hobj, hliv, _, _⟩ := sortBodies_result self hpos
  have hperm := livingFront_perm self
  refine ⟨hok, hobj, ?_, ?_, ?_, ?_⟩
  · rw [hliv]; exact hperm
  · intro b hb
    rw [hliv] at hb
    have := hperm.mem_iff.mp hb
    simpa using (List.mem_filter.mp this).2
  · intro b hb hm
    rw [hliv]
    exact hperm.mem_iff.mpr (List.mem_filter.mpr ⟨hb, by simpa using hm⟩)
  · rw [hliv]
    exact List.Pairwise.sublist (List.takeWhile_sublist _) (sortedLiving_pairwise self)

/-- An instance of the statement above: `_sortBodies` on the sample engine,
whose living array is `[1, 0]`. -/
theorem C11_sortBodies_trims_destroyed_witness :
    (sampleEngine._sortBodies).1 = Except.ok ()
      ∧ (sampleEngine._sortBodies).2.objects = sampleEngine.objects
      ∧ List.Perm (sampleEngine._sortBodies).2._livingBodies.items
          (sampleEngine._livingBodies.items.filter
            (fun b => decide (0 < (sampleEngine.objects b).mass)))
      ∧ (∀ b ∈ (sampleEngine._sortBodies).2._livingBodies.items,
          0 < (sampleEngine.objects b).mass)
      ∧ (∀ b ∈ sampleEngine._livingBodies.items, 0 < (sampleEngine.objects b).mass →
          b ∈ (sampleEngine._sortBodies).2._livingBodies.items)
      ∧ List.Pairwise
          (fun a b => (sampleEngine.objects b).mass ≤ (sampleEngine.objects a).mass)
          (sampleEngine._sortBodies).2._livingBodies.items :=
  C11_sortBodies_trims_destroyed sampleEngine
    ⟨0, by simp [sampleEngine], by simp [sampleEngine, sampleBody]⟩

/-- C12: a new engine is populated with the two sample bodies, of mass 10 and 2,
which overlap and pass the narrow-phase test; the tick that `run ()` completes
publishes both bodies, and their masses are still 10 and 2. -/
theorem C12_run_merges_nothing :
    twoBodies.bodies = [0, 1]
      ∧ (twoBodies.objects 0).mass = 10 ∧ (twoBodies.objects 1).mass = 2
      ∧ sampleImports.isOverlapping (twoBodies.objects 0) (twoBodies.objects 1) = true
      ∧ sampleImports.isColliding (twoBodies.objects 0) (twoBodies.objects 1) = true
      ∧ (run sampleImports twoBodies).1 = Except.ok [0, 1]
      ∧ ((run sampleImports twoBodies).2.objects 0).mass = 10
      ∧ ((run sampleImports twoBodies).2.objects 1).mass = 2 := by
  refine ⟨rfl, rfl, rfl, by decide!, by decide!, by decide!, by decide!, by decide!⟩

/-- C13: after `run ()` has started a new engine with the two sample bodies and
`_updateBodyBoundsAndOverlaps` has completed, both bodies are living and
`isOverlapping` holds of them, yet the overlap map is empty. -/
theorem C13_overlap_not_registered :
    (_updateBodyBoundsAndOverlaps sampleImports (runStart twoBodies))._livingBodies.items
        = [0, 1]
      ∧ sampleImports.isOverlapping
          ((_updateBodyBoundsAndOverlaps sampleImports (runStart twoBodies)).objects 0)
          ((_updateBodyBoundsAndOverlaps sampleImports (runStart twoBodies)).objects 1) = true
      ∧ (_updateBodyBoundsAndOverlaps sampleImports (runStart twoBodies))._bodyBounds.overlaps
        = [] := by
  refine ⟨by decide!, by decide!, by decide!⟩

/-- C16: in the first sub-step of the first tick of a new engine with the two
sample bodies, of positive mass, and `realBodiesMin = 1`, the state in which
`_calculateForces` runs has both bodies living and an empty real array and an
empty pseudo array. -/
theorem C16_no_partition_before_forces :
    twoBodies.realBodiesMin = 1
      ∧ ((_updateBodyBoundsAndOverlaps sampleImports (runStart twoBodies))._applyCollisions
          sampleImports).1 = Except.ok ()
      ∧ ((_updateBodyBoundsAndOverlaps sampleImports (runStart twoBodies))._applyCollisions
          sampleImports).2._livingBodies.items = [0, 1]
      ∧ (∀ b ∈ ((_updateBodyBoundsAndOverlaps sampleImports
            (runStart twoBodies))._applyCollisions sampleImports).2._livingBodies.items,
          0 < (((_updateBodyBoundsAndOverlaps sampleImports
            (runStart twoBodies))._applyCollisions sampleImports).2.objects b).mass)
      ∧ ((_updateBodyBoundsAndOverlaps sampleImports (runStart twoBodies))._applyCollisions
          sampleImports).2._realBodies.items = []
      ∧ ((_updateBodyBoundsAndOverlaps sampleImports (runStart twoBodies))._applyCollisions
          sampleImports).2._pseudoBodies.items = [] := by
  refine ⟨rfl, by decide!, by decide!, by decide!, by decide!, by decide!⟩

/-- C19: the engine has three sample bodies, both axis arrays are safe and hold
the edges of all three, and the overlap map holds the pairs (0, 1) and (0, 2),
both of which pass the narrow-phase test. `_applyCollisions` resolves the first
pair and throws the `UnsafeSortError` while it resolves the second: body 2 has
mass 0 by then, and its edge is still in the array of the x axis. -/
theorem C19_second_collision_throws :
    threeBodies._bodyBounds.x.UNSAFE = false ∧ threeBodies._bodyBounds.y.UNSAFE = false
      ∧ threeBodies._bodyBounds.x.items.map (fun e => e.body) = [0, 1, 2]
      ∧ threeBodies._bodyBounds.y.items.map (fun e => e.body) = [0, 1, 2]
      ∧ threeBodies._bodyBounds.overlaps.map Prod.snd = [(0, 1), (0, 2)]
      ∧ sampleImports.isColliding (threeBodies.objects 0) (threeBodies.objects 1) = true
      ∧ sampleImports.isColliding (threeBodies.objects 0) (threeBodies.objects 2) = true
      ∧ (_applyCollisions sampleImports threeBodies).1
          = Except.error (Thrown.unsafeSort (UnsafeSortError.mk "lastIndexOf"))
      ∧ ((_applyCollisions sampleImports threeBodies).2.objects 1).mass = 0
      ∧ ((_applyCollisions sampleImports threeBodies).2.objects 2).mass = 0
      ∧ (_applyCollisions sampleImports threeBodies).2._bodyBounds.x.items
          = [{ body := 0, axis := Axis.x, value := 0 }, { body := 2, axis := Axis.x, value := 1 }]
      ∧ (_applyCollisions sampleImports threeBodies).2._bodyBounds.x.UNSAFE = true := by
  refine ⟨rfl, rfl, by decide!, by decide!, by decide!, by decide!, by decide!, by decide!,
    by decide!, by decide!, by decide!, by decide!⟩

/-- C14: both axis arrays of the row engine are safe and hold the edges of the
five bodies in the order of their values; the edges of the bodies 2 and 3 on the
x axis have the same value. `_applyCollision (2, 3)` destroys body 3 and does not
throw, but `indexOf` does not find the edge of body 3 on the x axis, so
`splice (-1, 1)` removes the last edge instead: the array of the x axis keeps the
edge of body 3 and loses the edge of body 4. -/
theorem C14_wrong_edge_removed :
    rowEngine._bodyBounds.x.UNSAFE = false ∧ rowEngine._bodyBounds.y.UNSAFE = false
      ∧ rowEngine._bodyBounds.x.items = [0, 1, 2, 3, 4].map (rowEdge Axis.x)
      ∧ rowEngine._bodyBounds.y.items = [0, 1, 2, 3, 4].map (rowEdge Axis.y)
      ∧ rowEngine._bodyBounds.x.items.map (fun e => e.value) = [0, 1, 2, 2, 3]
      ∧ rowEngine._bodyBounds.y.items.map (fun e => e.value) = [0, 1, 2, 3, 4]
      ∧ (rowEngine.objects 2).edges = [rowEdge Axis.x 2, rowEdge Axis.y 2]
      ∧ (rowEngine.objects 3).edges = [rowEdge Axis.x 3, rowEdge Axis.y 3]
      ∧ (rowEngine._bodyBounds.x.indexOf (rowEdge Axis.x 3)).1 = Except.ok (-1)
      ∧ (rowEngine._applyCollision 2 3).1 = Except.ok ()
      ∧ ((rowEngine._applyCollision 2 3).2.objects 3).mass = 0
      ∧ (rowEngine._applyCollision 2 3).2._bodyBounds.x.items
          = [0, 1, 2, 3].map (rowEdge Axis.x)
      ∧ (rowEngine._applyCollision 2 3).2._bodyBounds.y.items
          = [0, 1, 2, 4].map (rowEdge Axis.y) := by
  refine ⟨rfl, rfl, by decide!, by decide!, by decide!, by decide!, by decide!, by decide!,
    by decide!, by decide!, by decide!, by decide!, by decide!⟩

/-! ## The forces and the pseudo-masses of `_calculateForces` -/

theorem modify_modify (self : SimulationPhysical) (ref : BodyRef) (f1 f2 : Body → Body) :
    (self.modify ref f1).modify ref f2 = self.modify ref (fun b => f2 (f1 b)) := by
  simp [modify]

theorem modify_id (self : SimulationPhysical) (ref : BodyRef) (f : Body → Body)
    (h : f (self.objects ref) = self.objects ref) : self.modify ref f = self := by
  simp [modify, h]

theorem pullFrom_congr (imports : Imports) (a b : SimulationPhysical) (body : BodyRef)
    (hg : b.g = a.g)
    (hobj : ∀ ref, besideForce (b.objects ref) = besideForce (a.objects ref)) :
    ∀ (others : List BodyRef) (start : V2),
      pullFrom imports b body start others = pullFrom imports a body start others := by
  have hpull : ∀ other, pull imports b.g (b.objects body) (b.objects other)
      = pull imports a.g (a.objects body) (a.objects other) := by
    intro other
    have h1 := hobj body
    have h2 := hobj other
    simp only [besideForce, Prod.mk.injEq] at h1 h2
    simp only [pull, hg, h1.2.1, h2.2.1, h2.2.2.2.1, h2.2.2.2.2.1]
  intro others start
  unfold pullFrom
  simp only [hpull]

theorem pullFrom_modify (imports : Imports) (self : SimulationPhysical) (ref body : BodyRef)
    (f : Body → Body) (hf : besideForce (f (self.objects ref)) = besideForce (self.objects ref))
    (others : List BodyRef) (start : V2) :
    pullFrom imports (self.modify ref f) body start others
      = pullFrom imports self body start others :=
  pullFrom_congr imports self (self.modify ref f) body rfl
    (keeps_modify besideForce self ref f hf).2 others start

/-- The loop of `_calculateForce` with `addPseudoMassOnly` false writes the force
on `body` only: it adds the pulls of the real bodies to it. -/
theorem forceLoop_false (imports : Imports) (body : BodyRef) :
    ∀ (l : List BodyRef) (self : SimulationPhysical) (highest : Option Rat)
      (most : Option BodyRef),
      (forceLoop imports body false l (self, highest, most)).1
        = self.modify body (fun b =>
            { b with force := pullFrom imports self body b.force l }) := by
  intro l
  induction l with
  | nil =>
    intro self _ _
    simp only [forceLoop, pullFrom, List.foldl_nil]
    exact (modify_id self body _ rfl).symm
  | cons other l ih =>
    intro self highest most
    simp only [forceLoop]
    by_cases h : body = other
    · rw [if_pos h, ih]
      simp only [pullFrom, List.foldl_cons, if_pos h]
    · rw [if_neg h]
      simp only [Bool.false_eq_true, if_false]
      rw [ih, modify_modify]
      congr 1
      funext b
      rw [pullFrom_modify imports self body body _ rfl]
      simp only [pullFrom, List.foldl_cons, if_neg h, pull]

/-- A call `_calculateForce (body, isReal, false)` sets the force on `body` to what
the real bodies exert on it, and writes nothing else. -/
theorem calculateForce_false (imports : Imports) (self : SimulationPhysical) (body : BodyRef)
    (isReal : Bool) :
    _calculateForce imports self body isReal false
      = self.modify body (fun b => { b with force := totalPull imports self body }) := by
  simp only [_calculateForce, Bool.false_eq_true, if_false, Bool.false_and]
  have hreal : (self.modify body
      (fun b => { b with force := b.force.set V2.ZERO }))._realBodies = self._realBodies := rfl
  rw [hreal]
  have hloop := forceLoop_false imports body self._realBodies.items
    (self.modify body (fun b => { b with force := b.force.set V2.ZERO })) none none
  have hres : (forceLoop imports body false self._realBodies.items
      (self.modify body (fun b => { b with force := b.force.set V2.ZERO }), none, none)).1
      = self.modify body (fun b => { b with force := totalPull imports self body }) := by
    rw [hloop, modify_modify]
    congr 1
    funext b
    rw [pullFrom_modify imports self body body _ rfl]
    rfl
  split <;> exact hres

theorem keeps_force_step (imports : Imports) (self : SimulationPhysical) (body : BodyRef)
    (isReal : Bool) :
    Keeps besideForce self (_calculateForce imports self body isReal false) := by
  rw [calculateForce_false]
  exact keeps_modify besideForce self body _ rfl

theorem totalPull_congr (imports : Imports) (a b : SimulationPhysical) (body : BodyRef)
    (h : Keeps besideForce a b) : totalPull imports b body = totalPull imports a body := by
  unfold totalPull
  have hreal : b._realBodies = a._realBodies := by rw [h.1]
  have hg : b.g = a.g := by rw [h.1]
  rw [hreal]
  exact pullFrom_congr imports a b body hg h.2 _ _

/-- A loop of calls `_calculateForce (body, isReal, false)`: it changes forces
only, the force on a body that it visits is in the end what the real bodies
exert on it, and a force that was so before is so in the end. -/
theorem force_loop_spec (imports : Imports) (isReal : Bool) (target : BodyRef) :
    ∀ (l : List BodyRef) (self : SimulationPhysical),
      Keeps besideForce self
          (l.foldl (fun self body => _calculateForce imports self body isReal false) self)
        ∧ ((target ∈ l ∨ (self.objects target).force = totalPull imports self target) →
            ((l.foldl (fun self body => _calculateForce imports self body isReal false)
                self).objects target).force
              = totalPull imports
                  (l.foldl (fun self body => _calculateForce imports self body isReal false)
                    self) target) := by
  intro l
  induction l with
  | nil =>
    intro self
    refine ⟨Keeps.refl _ _, ?_⟩
    rintro (h | h)
    · cases h
    · exact h
  | cons body l ih =>
    intro self
    simp only [List.foldl_cons]
    have hk := keeps_force_step imports self body isReal
    obtain ⟨ih1, ih2⟩ := ih (_calculateForce imports self body isReal false)
    refine ⟨hk.trans ih1, ?_⟩
    intro h
    apply ih2
    by_cases hb : target = body
    · right
      subst hb
      rw [totalPull_congr imports self _ target hk, calculateForce_false, modify_objects_same]
    · rcases h with h | h
      · rcases List.mem_cons.mp h with h | h
        · exact absurd h hb
        · exact Or.inl h
      · right
        rw [totalPull_congr imports self _ target hk, calculateForce_false,
          modify_objects_ne _ _ _ _ hb]
        exact h

theorem afterDonation_keeps {β : Type} (proj : Body → β)
    (hforce : ∀ (b : Body) (v : V2), proj { b with force := v } = proj b)
    (hpseudo : ∀ (b : Body) (m : Rat), proj { b with pseudoMass := m } = proj b)
    (imports : Imports) (self : SimulationPhysical) :
    Keeps proj self (afterDonation imports self) := by
  unfold afterDonation
  have h1 := keeps_foldl proj
    (fun self body => self.modify body (fun b => { b with pseudoMass := 0 }))
    (fun self ref => keeps_modify proj self ref _ (hpseudo _ _)) self._livingBodies.items self
  have h2 := fun (l : List BodyRef) (s : SimulationPhysical) => keeps_foldl proj
    (fun self body => _calculateForce imports self body false true)
    (fun self ref => keeps_calculateForce proj hforce hpseudo imports self ref false true) l s
  exact h1.trans (h2 _ _)

theorem calculateForces_eq (imports : Imports) (self : SimulationPhysical) :
    _calculateForces imports self
      = self._realBodies.items.foldl
          (fun self body => _calculateForce imports self body true false)
          (self._pseudoBodies.items.foldl
            (fun self body => _calculateForce imports self body false false)
            (afterDonation imports self)) := by
  have hk := afterDonation_keeps (fun _ => ()) (fun _ _ => rfl) (fun _ _ => rfl) imports self
  have hp : (afterDonation imports self)._pseudoBodies = self._pseudoBodies := by rw [hk.1]
  have hk2 := (force_loop_spec imports false 0 self._pseudoBodies.items
    (afterDonation imports self)).1
  have hr : (self._pseudoBodies.items.foldl
      (fun self body => _calculateForce imports self body false false)
      (afterDonation imports self))._realBodies = self._realBodies := by
    rw [hk2.1]
    rw [hk.1]
  conv_rhs => rw [← hr, ← hp]
  rfl

/-- C15, as amended: after `_calculateForces` the force on every pseudo body is the
sum, over the real bodies other than itself in the order of the real array, of
`relative.mult(attraction).div(dist)`, where `relative` is the position of the
real body seen from the pseudo body, `attraction` is
`g * (mass + pseudoMass) / relative.sqrMagnitude` with the pseudo-mass the pass
has handed to the real body, and `dist` is `relative.magnitude`; it is zero when
there is no real body. -/
theorem C15_pseudo_body_force (imports : Imports) (self : SimulationPhysical)
    (body : BodyRef) (hbody : body ∈ self._pseudoBodies.items) :
    ((_calculateForces imports self).objects body).force
        = totalPull imports (_calculateForces imports self) body
      ∧ (self._realBodies.items = [] →
          ((_calculateForces imports self).objects body).force = V2.ZERO) := by
  have hmain : ((_calculateForces imports self).objects body).force
      = totalPull imports (_calculateForces imports self) body := by
    rw [calculateForces_eq]
    have hB := (force_loop_spec imports false body self._pseudoBodies.items
      (afterDonation imports self)).2 (Or.inl hbody)
    exact (force_loop_spec imports true body self._realBodies.items _).2 (Or.inr hB)
  refine ⟨hmain, ?_⟩
  intro hreal
  rw [hmain]
  have hk := keeps_calculateForces (fun _ => ()) (fun _ _ => rfl) (fun _ _ => rfl) imports self
  have hr : (_calculateForces imports self)._realBodies = self._realBodies := by rw [hk.1]
  simp [totalPull, pullFrom, hr, hreal]

/-- C15, counterexample: with body 0 (mass 10, at the origin) real and body 1
(mass 2, at (1, 0)) pseudo, `g = 1`, `_calculateForces` leaves the force
(-12, 0) on the pseudo body 1, not zero. -/
theorem C15_pseudo_body_gets_force :
    samplePartition._realBodies.items = [0] ∧ samplePartition._pseudoBodies.items = [1]
      ∧ ((_calculateForces sampleImports samplePartition).objects 1).force
          = { x := -12, y := 0 }
      ∧ ((_calculateForces sampleImports samplePartition).objects 1).force ≠ V2.ZERO := by
  decide!

theorem C15_pseudo_body_force_witness :
    1 ∈ samplePartition._pseudoBodies.items
      ∧ ((_calculateForces sampleImports samplePartition).objects 1).force
          = totalPull sampleImports (_calculateForces sampleImports samplePartition) 1
      ∧ totalPull sampleImports (_calculateForces sampleImports samplePartition) 1
          = { x := -12, y := 0 } :=
  ⟨by decide!, (C15_pseudo_body_force sampleImports samplePartition 1 (by decide!)).1,
    by decide!⟩

theorem find_of_isFirstHighest (attr : BodyRef → Rat) (l : List BodyRef) (r : BodyRef)
    (h : IsFirstHighest attr l r) :
    l.find? (fun candidate => l.all (fun other => decide (attr other ≤ attr candidate)))
      = some r := by
  obtain ⟨before, after, hl, hb, ha⟩ := h
  rw [List.find?_eq_some]
  refine ⟨?_, before, after, hl, ?_⟩
  · rw [List.all_eq_true]
    intro x hx
    rw [hl] at hx
    simp only [decide_eq_true_eq]
    rcases List.mem_append.mp hx with hx | hx
    · exact le_of_lt (hb x hx)
    · rcases List.mem_cons.mp hx with rfl | hx
      · exact le_refl _
      · exact ha x hx
  · intro a haa
    have hr : r ∈ l := by rw [hl]; simp
    simp only [Bool.not_eq_true', List.all_eq_false, decide_eq_true_eq]
    exact ⟨r, hr, not_le.mpr (hb a haa)⟩

/-- The loop of `_calculateForce` with `addPseudoMassOnly` true, for a body that
is not in the real array: it writes nothing, and `mostAttracted` is in the end
the first real body with the highest attraction. -/
theorem forceLoop_true (imports : Imports) (self : SimulationPhysical) (body : BodyRef) :
    ∀ (l seen : List BodyRef) (r0 : BodyRef), body ∉ l →
      IsFirstHighest (plainAttraction self body) seen r0 →
      ∃ r, forceLoop imports body true l
            (self, some (plainAttraction self body r0), some r0)
          = (self, some (plainAttraction self body r), some r)
        ∧ IsFirstHighest (plainAttraction self body) (seen ++ l) r := by
  intro l
  induction l with
  | nil =>
    intro seen r0 _ h
    exact ⟨r0, rfl, by simpa using h⟩
  | cons other l ih =>
    intro seen r0 hnot h
    have hne : ¬ body = other := fun e => hnot (by simp [e])
    have hnot' : body ∉ l := fun e => hnot (List.mem_cons_of_mem _ e)
    simp only [forceLoop, if_neg hne, if_true]
    obtain ⟨before, after, hl, hb, ha⟩ := h
    by_cases hlt : plainAttraction self body r0 < plainAttraction self body other
    · have hhigher : belowAttraction (some (plainAttraction self body r0))
          (self.g * (self.objects other).mass
            / ((self.objects other).pos.copy.sub (self.objects body).pos).sqrMagnitude)
          = true := by
        simpa [belowAttraction, plainAttraction] using hlt
      rw [hhigher]
      simp only [if_true]
      have hnew : IsFirstHighest (plainAttraction self body) (seen ++ [other]) other := by
        refine ⟨seen, [], rfl, ?_, by simp⟩
        intro a haa
        rw [hl] at haa
        rcases List.mem_append.mp haa with haa | haa
        · exact lt_trans (hb a haa) hlt
        · rcases List.mem_cons.mp haa with rfl | haa
          · exact hlt
          · exact lt_of_le_of_lt (ha a haa) hlt
      obtain ⟨r, h1, h2⟩ := ih (seen ++ [other]) other hnot' hnew
      refine ⟨r, ?_, by simpa using h2⟩
      exact h1
    · have hhigher : belowAttraction (some (plainAttraction self body r0))
          (self.g * (self.objects other).mass
            / ((self.objects other).pos.copy.sub (self.objects body).pos).sqrMagnitude)
          = false := by
        simpa [belowAttraction, plainAttraction] using hlt
      rw [hhigher]
      simp only [Bool.false_eq_true, if_false]
      have hnew : IsFirstHighest (plainAttraction self body) (seen ++ [other]) r0 := by
        refine ⟨before, after ++ [other], by rw [hl]; simp, hb, ?_⟩
        intro b hbb
        rcases List.mem_append.mp hbb with hbb | hbb
        · exact ha b hbb
        · rw [List.mem_singleton] at hbb
          subst hbb
          exact not_lt.mp hlt
      obtain ⟨r, h1, h2⟩ := ih (seen ++ [other]) r0 hnot' hnew
      exact ⟨r, h1, by simpa using h2⟩

theorem forceLoop_true_start (imports : Imports) (self : SimulationPhysical) (body : BodyRef)
    (hnot : body ∉ self._realBodies.items) :
    (forceLoop imports body true self._realBodies.items (self, none, none)).1 = self
      ∧ (forceLoop imports body true self._realBodies.items (self, none, none)).2.2
          = dominantAttractor self body
      ∧ (self._realBodies.items ≠ [] →
          ∃ r ∈ self._realBodies.items, dominantAttractor self body = some r) := by
  unfold dominantAttractor
  cases hl : self._realBodies.items with
  | nil => exact ⟨rfl, rfl, fun h => absurd rfl h⟩
  | cons other l =>
    rw [hl] at hnot
    have hne : ¬ body = other := fun e => hnot (by simp [e])
    have hnot' : body ∉ l := fun e => hnot (List.mem_cons_of_mem _ e)
    have hstart : IsFirstHighest (plainAttraction self body) [other] other :=
      ⟨[], [], rfl, by simp, by simp⟩
    obtain ⟨r, h1, h2⟩ := forceLoop_true imports self body l [other] other hnot' hstart
    have hfind := find_of_isFirstHighest _ _ r h2
    have hstep : forceLoop imports body true (other :: l) (self, none, none)
        = forceLoop imports body true l
            (self, some (plainAttraction self body other), some other) := by
      simp only [forceLoop, if_neg hne, if_true, belowAttraction, plainAttraction]
    rw [hstep, h1]
    simp only [List.singleton_append] at hfind
    refine ⟨rfl, hfind.symm, fun _ => ⟨r, ?_, hfind⟩⟩
    obtain ⟨before, after, hl2, _, _⟩ := h2
    simp only [List.singleton_append] at hl2
    rw [hl2]
    simp

theorem calculateForce_donate (imports : Imports) (self : SimulationPhysical) (body : BodyRef)
    (hnot : body ∉ self._realBodies.items) :
    _calculateForce imports self body false true
      = match dominantAttractor self body with
        | some r => self.modify r (fun b =>
            { b with pseudoMass := b.pseudoMass + (self.objects body).mass })
        | none => self := by
  obtain ⟨h1, h2, _⟩ := forceLoop_true_start imports self body hnot
  simp only [_calculateForce, if_true, Bool.not_false, Bool.and_self]
  rw [h2, h1]

theorem dominantAttractor_congr (a b : SimulationPhysical) (body : BodyRef)
    (h : Keeps besidePseudoMass a b) : dominantAttractor b body = dominantAttractor a body := by
  have hreal : b._realBodies = a._realBodies := by rw [h.1]
  have hg : b.g = a.g := by rw [h.1]
  have hattr : ∀ other, plainAttraction b body other = plainAttraction a body other := by
    intro other
    have h1 := h.2 body
    have h2 := h.2 other
    simp only [besidePseudoMass, Prod.mk.injEq] at h1 h2
    simp only [plainAttraction, hg, h1.2.1, h2.2.1, h2.2.2.2.1]
  unfold dominantAttractor
  simp only [hreal, hattr]

theorem keeps_donate (imports : Imports) (self : SimulationPhysical) (body : BodyRef) :
    Keeps besidePseudoMass self (_calculateForce imports self body false true) :=
  keeps_calculateForce besidePseudoMass (fun _ _ => rfl) (fun _ _ => rfl) imports self body
    false true

/-- The loop of `_calculateForces` that hands the masses of the pseudo bodies
out: the pseudo-mass of every body grows by the masses of the pseudo bodies
whose dominant attractor it is. -/
theorem donation_loop_spec (imports : Imports) :
    ∀ (donors : List BodyRef) (self : SimulationPhysical),
      (∀ p ∈ donors, p ∉ self._realBodies.items) →
      Keeps besidePseudoMass self
          (donors.foldl (fun self body => _calculateForce imports self body false true) self)
        ∧ ∀ r, ((donors.foldl (fun self body => _calculateForce imports self body false true)
                  self).objects r).pseudoMass
              = (self.objects r).pseudoMass + donatedTo self donors r := by
  intro donors
  induction donors with
  | nil =>
    intro self _
    exact ⟨Keeps.refl _ _, fun r => by simp [donatedTo]⟩
  | cons p donors ih =>
    intro self hnot
    simp only [List.foldl_cons]
    have hk := keeps_donate imports self p
    have hreal : (_calculateForce imports self p false true)._realBodies = self._realBodies := by
      rw [hk.1]
    obtain ⟨ih1, ih2⟩ := ih (_calculateForce imports self p false true)
      (fun q hq => by rw [hreal]; exact hnot q (List.mem_cons_of_mem _ hq))
    refine ⟨hk.trans ih1, ?_⟩
    intro r
    rw [ih2 r]
    have hdon : donatedTo (_calculateForce imports self p false true) donors r
        = donatedTo self donors r := by
      unfold donatedTo
      have hm : ∀ q, ((_calculateForce imports self p false true).objects q).mass
          = (self.objects q).mass := by
        intro q
        have := hk.2 q
        simp only [besidePseudoMass, Prod.mk.injEq] at this
        exact this.2.2.2.1
      simp only [dominantAttractor_congr self _ _ hk, hm]
    rw [hdon]
    have hstep : ((_calculateForce imports self p false true).objects r).pseudoMass
        = (self.objects r).pseudoMass
          + (if dominantAttractor self p = some r then (self.objects p).mass else 0) := by
      rw [calculateForce_donate imports self p (hnot p (by simp))]
      cases hd : dominantAttractor self p with
      | none => simp
      | some r0 =>
        simp only [Option.some.injEq]
        by_cases hr : r0 = r
        · subst hr
          rw [modify_objects_same]
          simp
        · rw [modify_objects_ne _ _ _ _ (fun e => hr e.symm), if_neg hr]
          simp
    rw [hstep]
    unfold donatedTo
    simp only [List.filter_cons]
    by_cases hd : dominantAttractor self p = some r
    · simp only [hd, decide_True, if_true, List.map_cons, List.sum_cons]
      ring
    · simp only [hd, decide_False, if_false, Bool.false_eq_true]
      ring

theorem reset_loop_spec :
    ∀ (l : List BodyRef) (self : SimulationPhysical),
      Keeps besidePseudoMass self
          (l.foldl (fun self body => self.modify body (fun b => { b with pseudoMass := 0 }))
            self)
        ∧ ∀ r, (r ∈ l ∨ (self.objects r).pseudoMass = 0) →
            ((l.foldl (fun self body => self.modify body (fun b => { b with pseudoMass := 0 }))
              self).objects r).pseudoMass = 0 := by
  intro l
  induction l with
  | nil =>
    intro self
    refine ⟨Keeps.refl _ _, ?_⟩
    rintro r (h | h)
    · cases h
    · exact h
  | cons a l ih =>
    intro self
    simp only [List.foldl_cons]
    obtain ⟨ih1, ih2⟩ := ih (self.modify a (fun b => { b with pseudoMass := 0 }))
    refine ⟨(keeps_modify besidePseudoMass self a _ rfl).trans ih1, ?_⟩
    intro r h
    apply ih2
    by_cases hr : r = a
    · right
      subst hr
      rw [modify_objects_same]
    · rcases h with h | h
      · rcases List.mem_cons.mp h with h | h
        · exact absurd h hr
        · exact Or.inl h
      · right
        rw [modify_objects_ne _ _ _ _ hr]
        exact h

theorem sum_indicator_nodup (m : Rat) (target : Option BodyRef) :
    ∀ (l : List BodyRef), l.Nodup → (∃ r ∈ l, target = some r) →
      (l.map (fun r => if target = some r then m else 0)).sum = m := by
  intro l
  induction l with
  | nil =>
    rintro _ ⟨r, hr, _⟩
    cases hr
  | cons a l ih =>
    intro hnodup hex
    obtain ⟨hnot, hnodup⟩ := List.nodup_cons.mp hnodup
    simp only [List.map_cons, List.sum_cons]
    by_cases ha : target = some a
    · rw [if_pos ha]
      have hzero : (l.map (fun r => if target = some r then m else 0)).sum = 0 := by
        apply List.sum_eq_zero
        intro x hx
        obtain ⟨r, hr, rfl⟩ := List.mem_map.mp hx
        have hne : target ≠ some r := by
          rw [ha]
          intro e
          exact hnot (by rw [Option.some.inj e]; exact hr)
        rw [if_neg hne]
      rw [hzero, add_zero]
    · rw [if_neg ha, zero_add]
      apply ih hnodup
      obtain ⟨r, hr, he⟩ := hex
      rcases List.mem_cons.mp hr with h | h
      · exact absurd (h ▸ he) ha
      · exact ⟨r, h, he⟩

theorem donatedTo_cons (self : SimulationPhysical) (p : BodyRef) (donors : List BodyRef)
    (r : BodyRef) :
    donatedTo self (p :: donors) r
      = (if dominantAttractor self p = some r then (self.objects p).mass else 0)
        + donatedTo self donors r := by
  unfold donatedTo
  simp only [List.filter_cons]
  by_cases hd : dominantAttractor self p = some r
  · simp only [hd, decide_True, if_true, List.map_cons, List.sum_cons]
  · simp only [hd, decide_False, if_false, Bool.false_eq_true, zero_add]

theorem sum_donatedTo (self : SimulationPhysical) (reals : List BodyRef)
    (hnodup : reals.Nodup) :
    ∀ (donors : List BodyRef),
      (∀ p ∈ donors, ∃ r ∈ reals, dominantAttractor self p = some r) →
      (reals.map (fun r => donatedTo self donors r)).sum
        = (donors.map (fun p => (self.objects p).mass)).sum := by
  intro donors
  induction donors with
  | nil =>
    intro _
    simp [donatedTo]
  | cons p donors ih =>
    intro h
    simp only [donatedTo_cons, List.map_cons, List.sum_cons]
    rw [List.sum_map_add, ih (fun q hq => h q (List.mem_cons_of_mem _ hq)),
      sum_indicator_nodup _ _ reals hnodup (h p (by simp))]

theorem afterDonation_pseudoMass (imports : Imports) (self : SimulationPhysical)
    (hliving : ∀ r ∈ self._realBodies.items, r ∈ self._livingBodies.items)
    (hdisjoint : ∀ p ∈ self._pseudoBodies.items, p ∉ self._realBodies.items)
    (r : BodyRef) (hr : r ∈ self._realBodies.items) :
    ((afterDonation imports self).objects r).pseudoMass
      = donatedTo self self._pseudoBodies.items r := by
  obtain ⟨hk0, hzero⟩ := reset_loop_spec self._livingBodies.items self
  have hp : (self._livingBodies.items.foldl
      (fun self body => self.modify body (fun b => { b with pseudoMass := 0 }))
      self)._pseudoBodies = self._pseudoBodies := by rw [hk0.1]
  have hre : (self._livingBodies.items.foldl
      (fun self body => self.modify body (fun b => { b with pseudoMass := 0 }))
      self)._realBodies = self._realBodies := by rw [hk0.1]
  unfold afterDonation
  rw [hp]
  obtain ⟨_, hsum⟩ := donation_loop_spec imports self._pseudoBodies.items
    (self._livingBodies.items.foldl
      (fun self body => self.modify body (fun b => { b with pseudoMass := 0 })) self)
    (by rw [hre]; exact hdisjoint)
  rw [hsum r, hzero r (Or.inl (hliving r hr)), zero_add]
  unfold donatedTo
  have hm : ∀ q, ((self._livingBodies.items.foldl
      (fun self body => self.modify body (fun b => { b with pseudoMass := 0 }))
      self).objects q).mass = (self.objects q).mass := by
    intro q
    have := hk0.2 q
    simp only [besidePseudoMass, Prod.mk.injEq] at this
    exact this.2.2.2.1
  simp only [dominantAttractor_congr self _ _ hk0, hm]

theorem calculateForces_pseudoMass (imports : Imports) (self : SimulationPhysical)
    (r : BodyRef) :
    ((_calculateForces imports self).objects r).pseudoMass
      = ((afterDonation imports self).objects r).pseudoMass := by
  rw [calculateForces_eq]
  have hB := (force_loop_spec imports false r self._pseudoBodies.items
    (afterDonation imports self)).1
  have hC := (force_loop_spec imports true r self._realBodies.items
    (self._pseudoBodies.items.foldl
      (fun self body => _calculateForce imports self body false false)
      (afterDonation imports self))).1
  have h := (hB.trans hC).2 r
  simp only [besideForce, Prod.mk.injEq] at h
  exact h.2.2.2.2.1

/-- C20: in an engine whose real bodies are living, distinct and at least one,
and whose pseudo bodies are not real and do not coincide with a real body,
after `_calculateForces` the pseudo-mass of each real body is the sum of the
masses of the pseudo bodies whose dominant attractor it is (the first real body,
in the order of the real array, with the highest `g * mass / squaredDistance`,
by plain mass), and the pseudo-masses of the real bodies add up to the masses of
the pseudo bodies. -/
theorem C20_pseudoMass_donation (imports : Imports) (self : SimulationPhysical)
    (hreal : self._realBodies.items ≠ [])
    (hnodup : self._realBodies.items.Nodup)
    (hliving : ∀ r ∈ self._realBodies.items, r ∈ self._livingBodies.items)
    (hdisjoint : ∀ p ∈ self._pseudoBodies.items, p ∉ self._realBodies.items)
    (_hapart : ∀ p ∈ self._pseudoBodies.items, ∀ r ∈ self._realBodies.items,
      (self.objects p).pos ≠ (self.objects r).pos) :
    (∀ r ∈ self._realBodies.items,
        ((_calculateForces imports self).objects r).pseudoMass
          = donatedTo self self._pseudoBodies.items r)
      ∧ (self._realBodies.items.map
            (fun r => ((_calculateForces imports self).objects r).pseudoMass)).sum
          = (self._pseudoBodies.items.map (fun p => (self.objects p).mass)).sum := by
  have hmain : ∀ r ∈ self._realBodies.items,
      ((_calculateForces imports self).objects r).pseudoMass
        = donatedTo self self._pseudoBodies.items r := by
    intro r hr
    rw [calculateForces_pseudoMass, afterDonation_pseudoMass imports self hliving hdisjoint r hr]
  refine ⟨hmain, ?_⟩
  rw [List.map_congr_left hmain]
  exact sum_donatedTo self self._realBodies.items hnodup self._pseudoBodies.items
    (fun p hp => (forceLoop_true_start imports self p (hdisjoint p hp)).2.2 hreal)

theorem C20_pseudoMass_donation_witness :
    samplePartition._realBodies.items = [0] ∧ samplePartition._pseudoBodies.items = [1]
      ∧ ((_calculateForces sampleImports samplePartition).objects 0).pseudoMass = 2
      ∧ (samplePartition._pseudoBodies.items.map
          (fun p => (samplePartition.objects p).mass)).sum = 2 := by
  have h := C20_pseudoMass_donation sampleImports samplePartition (by decide!) (by decide!)
    (by decide!) (by decide!) (by decide!)
  refine ⟨by decide!, by decide!, ?_, by decide!⟩
  rw [h.1 0 (by decide!)]
  decide!

end SimulationPhysical

end GravityToy
